import Mathlib

/-!
# Min/max runtime filters

A shallow embedding of `be/src/util/min-max-filter.cc`: the merge of wire
forms, the in-memory integer, boolean, string and date filters with their
(de)serialization, and the evaluation of a filter against column statistics.

The protobuf messages `ColumnValuePB` and `MinMaxFilterPB` are records of
optional fields; every C++ function that mutates its `out` argument or its
object becomes a function returning the new value.  The functions give the
release-build result, where a `DCHECK` is compiled out; the `_DCHECK`
predicates tell whether the `DCHECK`s on the path taken hold, that is, whether
a debug build gets as far as that result.  Machine integers are `Int`s;
arithmetic that can overflow wraps modulo `2 ^ w` (`wrap`).  The quotient
`ComputeOverlapRatio` returns is kept as the pair of integers it divides
(`OverlapRatio`), before the floating-point division and rounding.

The last sections embed what the other three source files show: the micro
batches of a scratch tuple batch (`be/src/exec/scratch-tuple-batch-test.cc`),
tagged pointers (`be/src/util/tagged-ptr-test.cc`), both modelled from their
tests, and two functions of `be/src/exprs/datasketches-functions-ir.cc`, which
return their value together with the calls they make.
-/

namespace Impala

/-- A byte string; every element stands for one `unsigned char`. -/
abbrev Bytes := List Nat

/-- Modelled from the spec: the enum `PrimitiveType` is declared outside the
shown sources.  The eleven kinds handled by `MinMaxFilter::Create` are listed
with the names the source uses; the remaining constructors are kinds no filter
exists for. -/
inductive PrimitiveType where
  | INVALID_TYPE
  | TYPE_NULL
  | TYPE_BOOLEAN
  | TYPE_TINYINT
  | TYPE_SMALLINT
  | TYPE_INT
  | TYPE_BIGINT
  | TYPE_FLOAT
  | TYPE_DOUBLE
  | TYPE_TIMESTAMP
  | TYPE_STRING
  | TYPE_DATE
  | TYPE_DECIMAL
  | TYPE_CHAR
  | TYPE_VARCHAR
deriving DecidableEq, Repr

/-- Modelled from the spec: `ColumnType` is declared outside the shown sources;
the code reads its fields `type`, `precision` and `scale`. -/
structure ColumnType where
  type : PrimitiveType
  precision : Int
  scale : Int
deriving DecidableEq, Repr

/-- Modelled from the spec: the protobuf message `ColumnValuePB` (the wire
`Value`) is generated code outside the shown sources.  Each `optional` field
the source reads or writes is an `Option`: `has_X_val()` is `isSome`,
`X_val()` reads the field or its protobuf default, `set_X_val(v)` stores
`some v` and touches no other field (the fields are independent, as the
chain of `has_X_val()` tests in `MinMaxFilter::Or` allows).  A double is
carried as its 64-bit pattern; a string, timestamp or decimal as its bytes. -/
structure ColumnValuePB where
  bool_val : Option Bool
  byte_val : Option Int
  short_val : Option Int
  int_val : Option Int
  long_val : Option Int
  double_val : Option Nat
  string_val : Option Bytes
  timestamp_val : Option Bytes
  decimal_val : Option Bytes
  date_val : Option Int
deriving DecidableEq, Repr

/-- The message with no field set (what `min()` returns when `min` is absent). -/
def ColumnValuePB.empty : ColumnValuePB :=
  ⟨none, none, none, none, none, none, none, none, none, none⟩

/-- Modelled from the spec: the protobuf message `MinMaxFilterPB` (the wire
form `FilterMessage`) is generated code outside the shown sources.  An absent
flag reads `false`; an absent `min`/`max` reads as the empty value. -/
structure MinMaxFilterPB where
  always_false : Bool
  always_true : Bool
  min : ColumnValuePB
  max : ColumnValuePB
deriving DecidableEq, Repr

/-- Comparisons the shown sources call but do not define: IEEE `<` on doubles
(given on bit patterns), `TimestampValue`, `DateValue` and `DecimalNValue`
`operator<` after `FromColumnValuePB`, the conversion of a double to `bool`,
and the two precision limits behind `ColumnType::GetDecimalByteSize`. -/
structure ExternalCodecs where
  double_lt : Nat → Nat → Bool
  double_to_bool : Nat → Bool
  timestamp_lt : Bytes → Bytes → Bool
  date_lt : Int → Int → Bool
  decimal_lt : Int → Bytes → Bytes → Bool
  MAX_DECIMAL4_PRECISION : Int
  MAX_DECIMAL8_PRECISION : Int

/-- The byte size of a `Decimal4Value` (`case 4` of `DecimalMinMaxFilter::Insert`). -/
def DECIMAL_SIZE_4BYTE : Int := 4

/-- The byte size of a `Decimal8Value`. -/
def DECIMAL_SIZE_8BYTE : Int := 8

/-- The byte size of a `Decimal16Value`. -/
def DECIMAL_SIZE_16BYTE : Int := 16

/-- Modelled from the spec: `ColumnType::GetDecimalByteSize` is defined outside
the shown sources; the byte width is 4, 8 or 16, chosen from the declared
precision. -/
def GetDecimalByteSize (ext : ExternalCodecs) (precision : Int) : Int :=
  if precision ≤ ext.MAX_DECIMAL4_PRECISION then DECIMAL_SIZE_4BYTE
  else if precision ≤ ext.MAX_DECIMAL8_PRECISION then DECIMAL_SIZE_8BYTE
  else DECIMAL_SIZE_16BYTE

/-- Modelled from the spec: `StringValue::operator<` is defined outside the
shown sources; strings are ordered by lexicographic (unsigned) byte order. -/
def StringValue.lt : Bytes → Bytes → Bool
  | [], [] => false
  | [], _ :: _ => true
  | _ :: _, [] => false
  | a :: as, b :: bs =>
    if a < b then true else if b < a then false else StringValue.lt as bs

/-- The function `std::min(a, b)`: `b` when `b < a`, else `a`. -/
def std_min {α : Type} (lt : α → α → Bool) (a b : α) : α :=
  if lt b a then b else a

/-- The function `std::max(a, b)`: `b` when `a < b`, else `a`. -/
def std_max {α : Type} (lt : α → α → Bool) (a b : α) : α :=
  if lt a b then b else a

/-- What the macro parameter `PROTOBUF_TYPE` stands for in
`NUMERIC_MIN_MAX_FILTER_FUNCS`: the accessor `PROTOBUF_TYPE##_val()`, the
setter `set_##PROTOBUF_TYPE##_val` and the `<` of the values read through it. -/
structure ProtobufType (α : Type) where
  has : ColumnValuePB → Bool
  val : ColumnValuePB → α
  set_val : ColumnValuePB → α → ColumnValuePB
  lt : α → α → Bool

/-- The setter `set_bool_val`. -/
def ColumnValuePB.set_bool_val (v : ColumnValuePB) (b : Bool) : ColumnValuePB :=
  { v with bool_val := some b }

/-- The setter `set_byte_val`. -/
def ColumnValuePB.set_byte_val (v : ColumnValuePB) (x : Int) : ColumnValuePB :=
  { v with byte_val := some x }

/-- The setter `set_short_val`. -/
def ColumnValuePB.set_short_val (v : ColumnValuePB) (x : Int) : ColumnValuePB :=
  { v with short_val := some x }

/-- The setter `set_int_val`. -/
def ColumnValuePB.set_int_val (v : ColumnValuePB) (x : Int) : ColumnValuePB :=
  { v with int_val := some x }

/-- The setter `set_long_val`. -/
def ColumnValuePB.set_long_val (v : ColumnValuePB) (x : Int) : ColumnValuePB :=
  { v with long_val := some x }

/-- The setter `set_double_val`. -/
def ColumnValuePB.set_double_val (v : ColumnValuePB) (x : Nat) : ColumnValuePB :=
  { v with double_val := some x }

/-- The setter `set_string_val`. -/
def ColumnValuePB.set_string_val (v : ColumnValuePB) (x : Bytes) : ColumnValuePB :=
  { v with string_val := some x }

/-- The setter `set_timestamp_val`. -/
def ColumnValuePB.set_timestamp_val (v : ColumnValuePB) (x : Bytes) : ColumnValuePB :=
  { v with timestamp_val := some x }

/-- The setter `set_decimal_val`. -/
def ColumnValuePB.set_decimal_val (v : ColumnValuePB) (x : Bytes) : ColumnValuePB :=
  { v with decimal_val := some x }

/-- The setter `set_date_val`. -/
def ColumnValuePB.set_date_val (v : ColumnValuePB) (x : Int) : ColumnValuePB :=
  { v with date_val := some x }

/-- The field `bool_val`; `false < true`. -/
def pb_bool : ProtobufType Bool :=
  ⟨fun v => v.bool_val.isSome, fun v => v.bool_val.getD false,
   ColumnValuePB.set_bool_val, fun a b => !a && b⟩

/-- The `<` of a C++ signed integer type. -/
def int_lt (a b : Int) : Bool := decide (a < b)

/-- The implicit C++ conversion of an integer to `bool`. -/
def int_to_bool (a : Int) : Bool := decide (a ≠ 0)

/-- The field `byte_val` (an `int32` on the wire). -/
def pb_byte : ProtobufType Int :=
  ⟨fun v => v.byte_val.isSome, fun v => v.byte_val.getD 0,
   ColumnValuePB.set_byte_val, int_lt⟩

/-- The field `short_val` (an `int32` on the wire). -/
def pb_short : ProtobufType Int :=
  ⟨fun v => v.short_val.isSome, fun v => v.short_val.getD 0,
   ColumnValuePB.set_short_val, int_lt⟩

/-- The field `int_val`. -/
def pb_int : ProtobufType Int :=
  ⟨fun v => v.int_val.isSome, fun v => v.int_val.getD 0,
   ColumnValuePB.set_int_val, int_lt⟩

/-- The field `long_val`. -/
def pb_long : ProtobufType Int :=
  ⟨fun v => v.long_val.isSome, fun v => v.long_val.getD 0,
   ColumnValuePB.set_long_val, int_lt⟩

/-- The field `double_val`, shared by the FLOAT and DOUBLE filters. -/
def pb_double (ext : ExternalCodecs) : ProtobufType Nat :=
  ⟨fun v => v.double_val.isSome, fun v => v.double_val.getD 0,
   ColumnValuePB.set_double_val, ext.double_lt⟩

/-- The body of `NAME##MinMaxFilter::Or(in, out)` in
`NUMERIC_MIN_MAX_FILTER_FUNCS`.  When `out` is `always_false` the source
stores the bounds of `in` with `set_bool_val`, whatever `PROTOBUF_TYPE` is;
`to_bool` is the implicit C++ conversion of the field's type to `bool`. -/
def NumericMinMaxFilter.Or {α : Type} (p : ProtobufType α) (to_bool : α → Bool)
    (inp out : MinMaxFilterPB) : MinMaxFilterPB :=
  if out.always_false then
    { out with
      min := out.min.set_bool_val (to_bool (p.val inp.min))
      max := out.max.set_bool_val (to_bool (p.val inp.max))
      always_false := false }
  else if inp.always_true || out.always_true then
    { out with always_true := true }
  else
    { out with
      min := p.set_val out.min (std_min p.lt (p.val inp.min) (p.val out.min))
      max := p.set_val out.max (std_max p.lt (p.val inp.max) (p.val out.max)) }

/-- The instance `NUMERIC_MIN_MAX_FILTER_FUNCS(Bool, bool, bool, BOOLEAN)`. -/
def BoolMinMaxFilter.Or := NumericMinMaxFilter.Or pb_bool id

/-- The instance `NUMERIC_MIN_MAX_FILTER_FUNCS(TinyInt, int8_t, byte, TINYINT)`. -/
def TinyIntMinMaxFilter.Or := NumericMinMaxFilter.Or pb_byte int_to_bool

/-- The instance `NUMERIC_MIN_MAX_FILTER_FUNCS(SmallInt, int16_t, short, SMALLINT)`. -/
def SmallIntMinMaxFilter.Or := NumericMinMaxFilter.Or pb_short int_to_bool

/-- The instance `NUMERIC_MIN_MAX_FILTER_FUNCS(Int, int32_t, int, INT)`. -/
def IntMinMaxFilter.Or := NumericMinMaxFilter.Or pb_int int_to_bool

/-- The instance `NUMERIC_MIN_MAX_FILTER_FUNCS(BigInt, int64_t, long, BIGINT)`. -/
def BigIntMinMaxFilter.Or := NumericMinMaxFilter.Or pb_long int_to_bool

/-- The instance `NUMERIC_MIN_MAX_FILTER_FUNCS(Float, float, double, FLOAT)`. -/
def FloatMinMaxFilter.Or (ext : ExternalCodecs) :=
  NumericMinMaxFilter.Or (pb_double ext) ext.double_to_bool

/-- The instance `NUMERIC_MIN_MAX_FILTER_FUNCS(Double, double, double, DOUBLE)`. -/
def DoubleMinMaxFilter.Or (ext : ExternalCodecs) :=
  NumericMinMaxFilter.Or (pb_double ext) ext.double_to_bool

/-- The function `StringMinMaxFilter::Or(in, out)`. -/
def StringMinMaxFilter.Or (inp out : MinMaxFilterPB) : MinMaxFilterPB :=
  if out.always_false then
    { out with
      min := out.min.set_string_val (inp.min.string_val.getD [])
      max := out.max.set_string_val (inp.max.string_val.getD [])
      always_false := false }
  else if inp.always_true || out.always_true then
    { out with always_true := true }
  else
    let in_min_val := inp.min.string_val.getD []
    let out_min_val := out.min.string_val.getD []
    let out1 : MinMaxFilterPB :=
      if StringValue.lt in_min_val out_min_val then
        { out with min := out.min.set_string_val in_min_val }
      else out
    let in_max_val := inp.max.string_val.getD []
    let out_max_val := out1.max.string_val.getD []
    if StringValue.lt out_max_val in_max_val then
      { out1 with max := out1.max.set_string_val in_max_val }
    else out1

/-- The body of `NAME##MinMaxFilter::Or(in, out)` in
`DATE_TIME_MIN_MAX_FILTER_FUNCS`; `lt x y` is
`TYPE::FromColumnValuePB(x) < TYPE::FromColumnValuePB(y)` on the payloads, and
`a > b` is read as `b < a`. -/
def DateTimeMinMaxFilter.Or {α : Type} (p : ProtobufType α)
    (inp out : MinMaxFilterPB) : MinMaxFilterPB :=
  if out.always_false then
    { out with
      min := p.set_val out.min (p.val inp.min)
      max := p.set_val out.max (p.val inp.max)
      always_false := false }
  else if inp.always_true || out.always_true then
    { out with always_true := true }
  else
    let out1 : MinMaxFilterPB :=
      if p.lt (p.val inp.min) (p.val out.min) then
        { out with min := p.set_val out.min (p.val inp.min) }
      else out
    if p.lt (p.val out1.max) (p.val inp.max) then
      { out1 with max := p.set_val out1.max (p.val inp.max) }
    else out1

/-- The field `timestamp_val`, compared as `TimestampValue`s. -/
def pb_timestamp (ext : ExternalCodecs) : ProtobufType Bytes :=
  ⟨fun v => v.timestamp_val.isSome, fun v => v.timestamp_val.getD [],
   ColumnValuePB.set_timestamp_val, ext.timestamp_lt⟩

/-- The field `date_val`, compared as `DateValue`s. -/
def pb_date (ext : ExternalCodecs) : ProtobufType Int :=
  ⟨fun v => v.date_val.isSome, fun v => v.date_val.getD 0,
   ColumnValuePB.set_date_val, ext.date_lt⟩

/-- The instance
`DATE_TIME_MIN_MAX_FILTER_FUNCS(Timestamp, TimestampValue, timestamp, TIMESTAMP)`. -/
def TimestampMinMaxFilter.Or (ext : ExternalCodecs) :=
  DateTimeMinMaxFilter.Or (pb_timestamp ext)

/-- The instance `DATE_TIME_MIN_MAX_FILTER_FUNCS(Date, DateValue, date, DATE)`. -/
def DateMinMaxFilter.Or (ext : ExternalCodecs) :=
  DateTimeMinMaxFilter.Or (pb_date ext)

/-- The macro `DECIMAL_OR(SIZE)`. -/
def DECIMAL_OR (ext : ExternalCodecs) (size : Int)
    (inp out : MinMaxFilterPB) : MinMaxFilterPB :=
  let out1 : MinMaxFilterPB :=
    if ext.decimal_lt size (inp.min.decimal_val.getD []) (out.min.decimal_val.getD []) then
      { out with min := out.min.set_decimal_val (inp.min.decimal_val.getD []) }
    else out
  if ext.decimal_lt size (out1.max.decimal_val.getD []) (inp.max.decimal_val.getD []) then
    { out1 with max := out1.max.set_decimal_val (inp.max.decimal_val.getD []) }
  else out1

/-- The function `DecimalMinMaxFilter::Or(in, out, precision)`. -/
def DecimalMinMaxFilter.Or (ext : ExternalCodecs)
    (inp out : MinMaxFilterPB) (precision : Int) : MinMaxFilterPB :=
  if inp.always_false then out
  else if out.always_false then
    { out with
      min := out.min.set_decimal_val (inp.min.decimal_val.getD [])
      max := out.max.set_decimal_val (inp.max.decimal_val.getD [])
      always_false := false }
  else if inp.always_true || out.always_true then
    { out with always_true := true }
  else
    let size := GetDecimalByteSize ext precision
    if size = DECIMAL_SIZE_4BYTE then DECIMAL_OR ext 4 inp out
    else if size = DECIMAL_SIZE_8BYTE then DECIMAL_OR ext 8 inp out
    else if size = DECIMAL_SIZE_16BYTE then DECIMAL_OR ext 16 inp out
    else out

/-- The function `MinMaxFilter::Or(in, out, columnType)` on wire forms: the new
value of `*out`. -/
def MinMaxFilter.Or (ext : ExternalCodecs) (inp out : MinMaxFilterPB)
    (columnType : ColumnType) : MinMaxFilterPB :=
  if inp.always_false || out.always_true then out
  else if inp.always_true then { out with always_true := true }
  else if inp.min.bool_val.isSome then BoolMinMaxFilter.Or inp out
  else if inp.min.byte_val.isSome then TinyIntMinMaxFilter.Or inp out
  else if inp.min.short_val.isSome then SmallIntMinMaxFilter.Or inp out
  else if inp.min.int_val.isSome then IntMinMaxFilter.Or inp out
  else if inp.min.long_val.isSome then BigIntMinMaxFilter.Or inp out
  else if inp.min.double_val.isSome then DoubleMinMaxFilter.Or ext inp out
  else if inp.min.string_val.isSome then StringMinMaxFilter.Or inp out
  else if inp.min.timestamp_val.isSome then TimestampMinMaxFilter.Or ext inp out
  else if inp.min.date_val.isSome then DateMinMaxFilter.Or ext inp out
  else if inp.min.decimal_val.isSome then
    DecimalMinMaxFilter.Or ext inp out columnType.precision
  else out

/-- Whether the `DCHECK` of `DecimalMinMaxFilter::Or` holds: the byte size is
one of the three the `switch` knows, when the `switch` is reached. -/
def DecimalMinMaxFilter.Or_DCHECK (ext : ExternalCodecs)
    (inp out : MinMaxFilterPB) (precision : Int) : Bool :=
  if inp.always_false then true
  else if out.always_false then true
  else if inp.always_true || out.always_true then true
  else
    let size := GetDecimalByteSize ext precision
    decide (size = DECIMAL_SIZE_4BYTE) || decide (size = DECIMAL_SIZE_8BYTE)
      || decide (size = DECIMAL_SIZE_16BYTE)

/-- Whether every `DCHECK` that `MinMaxFilter::Or(in, out, columnType)` meets
holds: `out->min()` has the field `in.min()` has, and some field is set. -/
def MinMaxFilter.Or_DCHECK (ext : ExternalCodecs) (inp out : MinMaxFilterPB)
    (columnType : ColumnType) : Bool :=
  if inp.always_false || out.always_true then true
  else if inp.always_true then true
  else if inp.min.bool_val.isSome then out.min.bool_val.isSome
  else if inp.min.byte_val.isSome then out.min.byte_val.isSome
  else if inp.min.short_val.isSome then out.min.short_val.isSome
  else if inp.min.int_val.isSome then out.min.int_val.isSome
  else if inp.min.long_val.isSome then out.min.long_val.isSome
  else if inp.min.double_val.isSome then out.min.double_val.isSome
  else if inp.min.string_val.isSome then out.min.string_val.isSome
  else if inp.min.timestamp_val.isSome then out.min.timestamp_val.isSome
  else if inp.min.date_val.isSome then out.min.date_val.isSome
  else if inp.min.decimal_val.isSome then
    out.min.decimal_val.isSome
      && DecimalMinMaxFilter.Or_DCHECK ext inp out columnType.precision
  else false

/-! ## Wire forms by kind -/

/-- The typed field a wire value carries; FLOAT and DOUBLE filters share
`double_val`. -/
inductive WireKind where
  | bool
  | byte
  | short
  | int
  | long
  | double
  | string
  | timestamp
  | date
  | decimal
deriving DecidableEq, Repr

/-- The value `v` has the typed field of kind `k` set and no other field. -/
def ColumnValuePB.ofKind (k : WireKind) (v : ColumnValuePB) : Bool :=
  (v.bool_val.isSome == decide (k = .bool)) &&
  (v.byte_val.isSome == decide (k = .byte)) &&
  (v.short_val.isSome == decide (k = .short)) &&
  (v.int_val.isSome == decide (k = .int)) &&
  (v.long_val.isSome == decide (k = .long)) &&
  (v.double_val.isSome == decide (k = .double)) &&
  (v.string_val.isSome == decide (k = .string)) &&
  (v.timestamp_val.isSome == decide (k = .timestamp)) &&
  (v.date_val.isSome == decide (k = .date)) &&
  (v.decimal_val.isSome == decide (k = .decimal))

/-- Bottom: `always_false` set, `always_true` clear. -/
def MinMaxFilterPB.isBottom (m : MinMaxFilterPB) : Bool :=
  m.always_false && !m.always_true

/-- Top: `always_true` set, `always_false` clear. -/
def MinMaxFilterPB.isTop (m : MinMaxFilterPB) : Bool :=
  m.always_true && !m.always_false

/-- A ranged wire form of kind `k`: both flags clear, `min` and `max` carry the
typed field of kind `k`. -/
def MinMaxFilterPB.isRanged (k : WireKind) (m : MinMaxFilterPB) : Bool :=
  !m.always_false && !m.always_true && m.min.ofKind k && m.max.ofKind k

/-- The order of kind `k` on two wire values, as the merge of that kind
compares them. -/
def kind_lt (ext : ExternalCodecs) (columnType : ColumnType) (k : WireKind)
    (x y : ColumnValuePB) : Bool :=
  match k with
  | .bool => pb_bool.lt (pb_bool.val x) (pb_bool.val y)
  | .byte => pb_byte.lt (pb_byte.val x) (pb_byte.val y)
  | .short => pb_short.lt (pb_short.val x) (pb_short.val y)
  | .int => pb_int.lt (pb_int.val x) (pb_int.val y)
  | .long => pb_long.lt (pb_long.val x) (pb_long.val y)
  | .double => ext.double_lt (x.double_val.getD 0) (y.double_val.getD 0)
  | .string => StringValue.lt (x.string_val.getD []) (y.string_val.getD [])
  | .timestamp => ext.timestamp_lt (x.timestamp_val.getD []) (y.timestamp_val.getD [])
  | .date => ext.date_lt (x.date_val.getD 0) (y.date_val.getD 0)
  | .decimal =>
    ext.decimal_lt (GetDecimalByteSize ext columnType.precision)
      (x.decimal_val.getD []) (y.decimal_val.getD [])

/-- The per-kind merge `MinMaxFilter::Or` dispatches to for a value of kind `k`. -/
def kind_Or (ext : ExternalCodecs) (columnType : ColumnType) (k : WireKind)
    (inp out : MinMaxFilterPB) : MinMaxFilterPB :=
  match k with
  | .bool => BoolMinMaxFilter.Or inp out
  | .byte => TinyIntMinMaxFilter.Or inp out
  | .short => SmallIntMinMaxFilter.Or inp out
  | .int => IntMinMaxFilter.Or inp out
  | .long => BigIntMinMaxFilter.Or inp out
  | .double => DoubleMinMaxFilter.Or ext inp out
  | .string => StringMinMaxFilter.Or inp out
  | .timestamp => TimestampMinMaxFilter.Or ext inp out
  | .date => DateMinMaxFilter.Or ext inp out
  | .decimal => DecimalMinMaxFilter.Or ext inp out columnType.precision

/-- The kinds merged by `NUMERIC_MIN_MAX_FILTER_FUNCS` (through `std::min` and
`std::max`). -/
def WireKind.isNumeric : WireKind → Bool
  | .bool | .byte | .short | .int | .long | .double => true
  | _ => false

/-- The wire form `ToProtobuf` writes for an `always_false` filter: no bounds. -/
def wire_bottom : MinMaxFilterPB := ⟨true, false, ColumnValuePB.empty, ColumnValuePB.empty⟩

/-- The wire form `ToProtobuf` writes for an `always_true` filter: no bounds. -/
def wire_top : MinMaxFilterPB := ⟨false, true, ColumnValuePB.empty, ColumnValuePB.empty⟩

/-- The wire form `IntMinMaxFilter::ToProtobuf` writes for the range
`[lo, hi]`. -/
def int_ranged (lo hi : Int) : MinMaxFilterPB :=
  ⟨false, false, ColumnValuePB.empty.set_int_val lo, ColumnValuePB.empty.set_int_val hi⟩

/-- The wire form `StringMinMaxFilter::ToProtobuf` writes for the range
`[lo, hi]`. -/
def string_ranged (lo hi : Bytes) : MinMaxFilterPB :=
  ⟨false, false, ColumnValuePB.empty.set_string_val lo,
   ColumnValuePB.empty.set_string_val hi⟩

/-- The value of a little-endian byte string. -/
def le_value : Bytes → Nat
  | [] => 0
  | b :: bs => b + 256 * le_value bs

/-- A concrete choice of the external comparisons, for running the definitions
on examples: doubles by bit pattern (the IEEE order of the non-negative
doubles), timestamps by their text, dates by day number, decimals by their
little-endian value, and precision limits 9 and 18. -/
def ExternalCodecs.sample : ExternalCodecs where
  double_lt a b := decide (a < b)
  double_to_bool a := decide (a ≠ 0)
  timestamp_lt := StringValue.lt
  date_lt := int_lt
  decimal_lt _ a b := decide (le_value a < le_value b)
  MAX_DECIMAL4_PRECISION := 9
  MAX_DECIMAL8_PRECISION := 18

/-- Each external `<` is asymmetric, as the `<` of IEEE doubles and of any
strict order is. -/
structure ExternalCodecs.Asymmetric (ext : ExternalCodecs) : Prop where
  double_lt : ∀ a b, ext.double_lt a b = true → ext.double_lt b a = false
  timestamp_lt : ∀ a b, ext.timestamp_lt a b = true → ext.timestamp_lt b a = false
  date_lt : ∀ a b, ext.date_lt a b = true → ext.date_lt b a = false
  decimal_lt : ∀ s a b, ext.decimal_lt s a b = true → ext.decimal_lt s b a = false

/-- Two wire forms denote the same filter: the same flags and, when both
flags are clear, the same `min` and `max`. -/
def MinMaxFilterPB.sameFilter (a b : MinMaxFilterPB) : Bool :=
  a.always_false == b.always_false && a.always_true == b.always_true &&
    (a.always_false || a.always_true || (a.min == b.min && a.max == b.max))

/-! ## In-memory integer filters -/

/-- The integer instances of
`NUMERIC_MIN_MAX_FILTER_FUNCS(NAME, TYPE, PROTOBUF_TYPE, PRIMITIVE_TYPE)`,
by `NAME`. -/
inductive IntName where
  | TinyInt
  | SmallInt
  | Int
  | BigInt
deriving DecidableEq, Repr

/-- The width in bits of `TYPE` (`int8_t`, `int16_t`, `int32_t`, `int64_t`). -/
def IntName.bits : IntName → Nat
  | .TinyInt => 8
  | .SmallInt => 16
  | .Int => 32
  | .BigInt => 64

/-- The constant `numeric_limits<TYPE>::max()`. -/
def IntName.type_max (n : IntName) : ℤ := 2 ^ (n.bits - 1) - 1

/-- The constant `numeric_limits<TYPE>::lowest()`. -/
def IntName.type_lowest (n : IntName) : ℤ := -(2 ^ (n.bits - 1))

/-- The macro argument `PROTOBUF_TYPE` (`byte`, `short`, `int`, `long`). -/
def IntName.PROTOBUF_TYPE : IntName → ProtobufType ℤ
  | .TinyInt => pb_byte
  | .SmallInt => pb_short
  | .Int => pb_int
  | .BigInt => pb_long

/-- The data members of a `NAME##MinMaxFilter` object that the shown sources
read and write. -/
structure IntegerMinMaxFilter where
  min_ : Int
  max_ : Int
  always_true_ : Bool
deriving DecidableEq, Repr

/-- Modelled from the spec: `AlwaysFalse()` of the numeric filters is defined
outside the shown sources.  A filter is Bottom while no value was observed;
the constructor from an `always_false` wire form (lines 108-110) stores that
state as `min_ = max()`, `max_ = lowest()` and sets no flag. -/
def IntegerMinMaxFilter.AlwaysFalse (n : IntName) (f : IntegerMinMaxFilter) : Bool :=
  decide (f.min_ = n.type_max) && decide (f.max_ = n.type_lowest)

/-- Modelled from the spec: `AlwaysTrue()` is defined outside the shown
sources; it reports the flag `always_true`. -/
def IntegerMinMaxFilter.AlwaysTrue (f : IntegerMinMaxFilter) : Bool :=
  f.always_true_

/-- Modelled from the spec: `SetAlwaysTrue()` of the numeric filters is defined
outside the shown sources; the filter is forced to `always_true`. -/
def IntegerMinMaxFilter.SetAlwaysTrue (f : IntegerMinMaxFilter) : IntegerMinMaxFilter :=
  { f with always_true_ := true }

/-- Modelled from the spec: `Insert` is defined outside the shown sources.
A null value is a no-op; inserting into `always_true` is a no-op; inserting
into `always_false` gives `[value, value]`; inserting into a ranged filter
updates `min = min(min, value)`, `max = max(max, value)`. -/
def IntegerMinMaxFilter.Insert (n : IntName) (f : IntegerMinMaxFilter)
    (val : Option Int) : IntegerMinMaxFilter :=
  match val with
  | none => f
  | some v =>
    if f.AlwaysTrue then f
    else if f.AlwaysFalse n then { f with min_ := v, max_ := v }
    else { f with min_ := min f.min_ v, max_ := max f.max_ v }

/-- Modelled from the spec: `GetMin()` is defined outside the shown sources; it
points at the filter's `min`. -/
def IntegerMinMaxFilter.GetMin (f : IntegerMinMaxFilter) : Option Int := some f.min_

/-- Modelled from the spec: `GetMax()` is defined outside the shown sources; it
points at the filter's `max`. -/
def IntegerMinMaxFilter.GetMax (f : IntegerMinMaxFilter) : Option Int := some f.max_

/-- The empty protobuf message `ToProtobuf` is handed. -/
def MinMaxFilterPB.empty : MinMaxFilterPB :=
  ⟨false, false, ColumnValuePB.empty, ColumnValuePB.empty⟩

/-- The function `NAME##MinMaxFilter::ToProtobuf(protobuf)`: the new value of
`*protobuf`. -/
def IntegerMinMaxFilter.ToProtobuf (n : IntName) (f : IntegerMinMaxFilter)
    (protobuf : MinMaxFilterPB) : MinMaxFilterPB :=
  let p1 : MinMaxFilterPB :=
    if !f.AlwaysFalse n && !f.AlwaysTrue then
      { protobuf with
        min := n.PROTOBUF_TYPE.set_val protobuf.min f.min_
        max := n.PROTOBUF_TYPE.set_val protobuf.max f.max_ }
    else protobuf
  { p1 with always_false := f.AlwaysFalse n, always_true := f.AlwaysTrue }

/-- The member function `MinMaxFilter::Or(const MinMaxFilter& other)` on two
integer filters of the same `NAME`: the new value of `*this`. -/
def MinMaxFilter.Or_other (n : IntName) (self other : IntegerMinMaxFilter) :
    IntegerMinMaxFilter :=
  if other.AlwaysFalse n then self
  else if other.AlwaysTrue then self.SetAlwaysTrue
  else (self.Insert n other.GetMin).Insert n other.GetMax

/-- The Bottom state of an integer filter, as lines 108-110 store it. -/
def IntegerMinMaxFilter.bottom (n : IntName) : IntegerMinMaxFilter :=
  ⟨n.type_max, n.type_lowest, false⟩

/-! ## Integer filters against column statistics -/

/-- The macro argument `PRIMITIVE_TYPE`: what `NAME##MinMaxFilter::type()`
returns. -/
def IntName.PRIMITIVE_TYPE : IntName → PrimitiveType
  | .TinyInt => .TYPE_TINYINT
  | .SmallInt => .TYPE_SMALLINT
  | .Int => .TYPE_INT
  | .BigInt => .TYPE_BIGINT

/-- The function `GetIntTypeValue(type, value)`: `value` points at a value of
the column's C type, given here as the integer it holds; for a type that is
not an integer type the `DCHECK(false)` is followed by `return -1`. -/
def GetIntTypeValue (type : ColumnType) (value : Int) : Int :=
  match type.type with
  | .TYPE_TINYINT => value
  | .TYPE_SMALLINT => value
  | .TYPE_INT => value
  | .TYPE_BIGINT => value
  | _ => -1

/-- The function `GetIntTypeMax(type)`. -/
def GetIntTypeMax (type : ColumnType) : Int :=
  match type.type with
  | .TYPE_TINYINT => 2 ^ 7 - 1
  | .TYPE_SMALLINT => 2 ^ 15 - 1
  | .TYPE_INT => 2 ^ 31 - 1
  | .TYPE_BIGINT => 2 ^ 63 - 1
  | _ => -1

/-- The function `GetIntTypeMin(type)`. -/
def GetIntTypeMin (type : ColumnType) : Int :=
  match type.type with
  | .TYPE_TINYINT => -(2 ^ 7)
  | .TYPE_SMALLINT => -(2 ^ 15)
  | .TYPE_INT => -(2 ^ 31)
  | .TYPE_BIGINT => -(2 ^ 63)
  | _ => -1

/-- The function `NAME##MinMaxFilter::GetCastIntMinMax(col_type, out_min,
out_max)`: `none` when it returns `false`, `some (out_min, out_max)` when it
returns `true`. -/
def IntegerMinMaxFilter.GetCastIntMinMax (n : IntName) (f : IntegerMinMaxFilter)
    (col_type : ColumnType) : Option (Int × Int) :=
  if n.PRIMITIVE_TYPE = col_type.type then some (f.min_, f.max_)
  else
    let type_min := GetIntTypeMin col_type
    let type_max := GetIntTypeMax col_type
    let out_min : Option Int :=
      if f.min_ < type_min then some type_min
      else if f.min_ > type_max then none
      else some f.min_
    match out_min with
    | none => none
    | some out_min =>
      if f.max_ > type_max then some (out_min, type_max)
      else if f.max_ < type_min then none
      else some (out_min, f.max_)

/-- The five-argument `NAME##MinMaxFilter::EvalOverlap(type, data_min,
data_max, filter_min64, filter_max64)`: `none` when it returns `false`, and
`some (filter_min64, filter_max64)` when it returns `true`. -/
def IntegerMinMaxFilter.EvalOverlap64 (n : IntName) (f : IntegerMinMaxFilter)
    (type : ColumnType) (data_min data_max : Int) : Option (Int × Int) :=
  match f.GetCastIntMinMax n type with
  | none => none
  | some (filter_min64, filter_max64) =>
    if !(decide (filter_max64 < GetIntTypeValue type data_min)
        || decide (GetIntTypeValue type data_max < filter_min64)) then
      some (filter_min64, filter_max64)
    else none

/-- The three-argument `NAME##MinMaxFilter::EvalOverlap(col_type, data_min,
data_max)`. -/
def IntegerMinMaxFilter.EvalOverlap (n : IntName) (f : IntegerMinMaxFilter)
    (col_type : ColumnType) (data_min data_max : Int) : Bool :=
  if n.PRIMITIVE_TYPE = col_type.type then
    !(decide (f.max_ < data_min) || decide (data_max < f.min_))
  else (f.EvalOverlap64 n col_type data_min data_max).isSome

/-- A signed machine integer of `w` bits: the value `x` wraps modulo `2 ^ w`
into `[-2 ^ (w - 1), 2 ^ (w - 1))`. -/
def wrap (w : Nat) (x : Int) : Int :=
  (x + 2 ^ (w - 1)) % 2 ^ w - 2 ^ (w - 1)

/-- The width in bits of the type in which `a - b + 1` is computed on two
values of `TYPE`: `int` after integer promotion, `int64_t` for `int64_t`. -/
def IntName.arith_bits : IntName → Nat
  | .TinyInt => 32
  | .SmallInt => 32
  | .Int => 32
  | .BigInt => 64

/-- The expression `a - b + 1` in `w`-bit signed arithmetic. -/
def span (w : Nat) (a b : Int) : Int :=
  wrap w (wrap w (a - b) + 1)

/-- The value `ComputeOverlapRatio` returns, before the floating-point
division and the rounding to `float`: the quotient `(double)num / den` of two
machine integers.  The constants `1.0` and `0.0` are `1 / 1` and `0 / 1`. -/
structure OverlapRatio where
  num : Int
  den : Int
deriving DecidableEq, Repr

/-- The constant `1.0`. -/
def OverlapRatio.one : OverlapRatio := ⟨1, 1⟩

/-- The constant `0.0`. -/
def OverlapRatio.zero : OverlapRatio := ⟨0, 1⟩

/-- The exact quotient `num / den`. -/
def OverlapRatio.value (r : OverlapRatio) : ℚ := (r.num : ℚ) / (r.den : ℚ)

/-- The function `NAME##MinMaxFilter::ComputeOverlapRatio(col_type, data_min,
data_max)`. -/
def IntegerMinMaxFilter.ComputeOverlapRatio (n : IntName) (f : IntegerMinMaxFilter)
    (col_type : ColumnType) (data_min data_max : Int) : OverlapRatio :=
  if n.PRIMITIVE_TYPE = col_type.type then
    if f.EvalOverlap n col_type data_min data_max then
      if f.min_ ≤ data_min ∧ data_max ≤ f.max_ then OverlapRatio.one
      else
        let overlap_min := std_max int_lt data_min f.min_
        let overlap_max := std_min int_lt data_max f.max_
        ⟨span n.arith_bits overlap_max overlap_min, span n.arith_bits data_max data_min⟩
    else OverlapRatio.zero
  else
    match f.EvalOverlap64 n col_type data_min data_max with
    | some (filter_min64, filter_max64) =>
      let data_min64 := GetIntTypeValue col_type data_min
      let data_max64 := GetIntTypeValue col_type data_max
      if filter_min64 ≤ data_min64 ∧ data_max64 ≤ filter_max64 then OverlapRatio.one
      else
        let overlap_min := std_max int_lt data_min64 filter_min64
        let overlap_max := std_min int_lt data_max64 filter_max64
        ⟨span 64 overlap_max overlap_min, span 64 data_max64 data_min64⟩
    | none => OverlapRatio.zero

/-- The column type is one of the four integer types. -/
def ColumnType.isIntType (t : ColumnType) : Bool :=
  decide (t.type = .TYPE_TINYINT) || decide (t.type = .TYPE_SMALLINT)
    || decide (t.type = .TYPE_INT) || decide (t.type = .TYPE_BIGINT)

/-- The value `v` is representable in the column type `t`. -/
def ColumnType.holds (t : ColumnType) (v : Int) : Bool :=
  decide (GetIntTypeMin t ≤ v) && decide (v ≤ GetIntTypeMax t)

/-- The value `v` is representable in `TYPE`. -/
def IntName.holds (n : IntName) (v : ℤ) : Bool :=
  decide (n.type_lowest ≤ v) && decide (v ≤ n.type_max)

/-- The width in bits of the arithmetic `ComputeOverlapRatio` uses for the
column type `col_type`: that of `TYPE` on the same-kind path, 64 otherwise. -/
def IntName.ratio_bits (n : IntName) (col_type : ColumnType) : Nat :=
  if n.PRIMITIVE_TYPE = col_type.type then n.arith_bits else 64

/-- The constructor `NAME##MinMaxFilter::NAME##MinMaxFilter(protobuf)` of the
integer filters.  The body assigns `min_`/`max_` or `always_true_` only; the
member initialisers are in the header, outside the shown sources.  Modelled
from the spec: `always_true_` starts `false` (a filter is Top only once it is
forced to be); `init_min` and `init_max` are what `min_` and `max_` hold when
the body leaves them untouched.  Storing an `int32`/`int64` field into `TYPE`
wraps to the width of `TYPE`. -/
def IntegerMinMaxFilter.ofProtobuf (n : IntName) (init_min init_max : ℤ)
    (protobuf : MinMaxFilterPB) : IntegerMinMaxFilter :=
  if protobuf.always_false then ⟨n.type_max, n.type_lowest, false⟩
  else if protobuf.always_true then ⟨init_min, init_max, true⟩
  else
    ⟨wrap n.bits (n.PROTOBUF_TYPE.val protobuf.min),
     wrap n.bits (n.PROTOBUF_TYPE.val protobuf.max), false⟩

/-- Whether the `DCHECK`s of the constructor hold: on a wire form with both
flags clear, `min` and `max` are present and have the typed field. -/
def IntegerMinMaxFilter.ofProtobuf_DCHECK (n : IntName) (protobuf : MinMaxFilterPB) : Bool :=
  if protobuf.always_false then true
  else if protobuf.always_true then true
  else n.PROTOBUF_TYPE.has protobuf.min && n.PROTOBUF_TYPE.has protobuf.max

/-- The wire kind of the integer filter `NAME`. -/
def IntName.wire_kind : IntName → WireKind
  | .TinyInt => .byte
  | .SmallInt => .short
  | .Int => .int
  | .BigInt => .long

/-! ## In-memory date filters -/

/-- Modelled from the spec: `DateValue` is declared outside the shown sources.
A date is its day number (`Value()`, an `int32_t`), and dates compare by day
number.  The structure holds the data members of a `DateMinMaxFilter`. -/
structure DateMinMaxFilter where
  min_ : Int
  max_ : Int
  always_false_ : Bool
  always_true_ : Bool
deriving DecidableEq, Repr

/-- The function `DateMinMaxFilter::EvalOverlap(type, data_min, data_max)`
(`DATE_TIME_MIN_MAX_FILTER_FUNCS`). -/
def DateMinMaxFilter.EvalOverlap (f : DateMinMaxFilter) (data_min data_max : Int) : Bool :=
  !(decide (data_max < f.min_) || decide (f.max_ < data_min))

/-- The function `DateMinMaxFilter::ComputeOverlapRatio(type, data_min_ptr,
data_max_ptr)`; the arithmetic is that of `int32_t`. -/
def DateMinMaxFilter.ComputeOverlapRatio (f : DateMinMaxFilter)
    (data_min data_max : Int) : OverlapRatio :=
  if f.min_ ≤ data_min ∧ data_max ≤ f.max_ then OverlapRatio.one
  else
    let data_days_min := data_min
    let data_days_max := data_max
    let filter_days_min := f.min_
    let filter_days_max := f.max_
    let overlap_min := std_max int_lt filter_days_min data_days_min
    let overlap_max := std_min int_lt filter_days_max data_days_max
    ⟨span 32 overlap_max overlap_min, span 32 data_days_max data_days_min⟩

/-! ## In-memory boolean filters -/

/-- The data members of a `BoolMinMaxFilter` object
(`NUMERIC_MIN_MAX_FILTER_FUNCS(Bool, bool, bool, BOOLEAN)`). -/
structure BoolMinMaxFilter where
  min_ : Bool
  max_ : Bool
  always_true_ : Bool
deriving DecidableEq, Repr

/-- Modelled from the spec: `AlwaysFalse()` is defined outside the shown
sources; as for the integer filters, Bottom is the state the constructor
stores for an `always_false` wire form: `min_ = numeric_limits<bool>::max()`
(`true`) and `max_ = numeric_limits<bool>::lowest()` (`false`). -/
def BoolMinMaxFilter.AlwaysFalse (f : BoolMinMaxFilter) : Bool :=
  f.min_ && !f.max_

/-- Modelled from the spec: `AlwaysTrue()` is defined outside the shown
sources; it reports the flag `always_true`. -/
def BoolMinMaxFilter.AlwaysTrue (f : BoolMinMaxFilter) : Bool :=
  f.always_true_

/-- The constructor `BoolMinMaxFilter::BoolMinMaxFilter(protobuf)`; the
member initialisers are modelled as for `IntegerMinMaxFilter.ofProtobuf`. -/
def BoolMinMaxFilter.ofProtobuf (init_min init_max : Bool)
    (protobuf : MinMaxFilterPB) : BoolMinMaxFilter :=
  if protobuf.always_false then ⟨true, false, false⟩
  else if protobuf.always_true then ⟨init_min, init_max, true⟩
  else ⟨pb_bool.val protobuf.min, pb_bool.val protobuf.max, false⟩

/-- The function `BoolMinMaxFilter::ToProtobuf(protobuf)`: the new value of
`*protobuf`. -/
def BoolMinMaxFilter.ToProtobuf (f : BoolMinMaxFilter)
    (protobuf : MinMaxFilterPB) : MinMaxFilterPB :=
  let p1 : MinMaxFilterPB :=
    if !f.AlwaysFalse && !f.AlwaysTrue then
      { protobuf with
        min := protobuf.min.set_bool_val f.min_
        max := protobuf.max.set_bool_val f.max_ }
    else protobuf
  { p1 with always_false := f.AlwaysFalse, always_true := f.AlwaysTrue }

/-! ## In-memory string filters -/

/-- The data members of a `StringMinMaxFilter` object: `min_` and `max_` are
the bytes the two `StringValue`s denote (`len` bytes at `ptr`), the buffers
are the contents of the two `StringBuffer`s. -/
structure StringMinMaxFilter where
  min_ : Bytes
  max_ : Bytes
  min_buffer_ : Bytes
  max_buffer_ : Bytes
  always_false_ : Bool
  always_true_ : Bool
deriving DecidableEq, Repr

/-- The function `StringMinMaxFilter::SetAlwaysTrue()`. -/
def StringMinMaxFilter.SetAlwaysTrue (f : StringMinMaxFilter) : StringMinMaxFilter :=
  { f with
    always_true_ := true
    always_false_ := false
    max_buffer_ := []
    min_buffer_ := []
    min_ := []
    max_ := [] }

/-- Which bound a call `CopyToBuffer(&min_buffer_, &min_, len)` or
`CopyToBuffer(&max_buffer_, &max_, len)` works on. -/
inductive Bound where
  | min
  | max
deriving DecidableEq, Repr

/-- The function `StringMinMaxFilter::CopyToBuffer(buffer, value, len)` on the
bound `which`.  `same_ptr` is the outcome of `value->ptr == buffer->buffer()`
and `append_ok` that of `buffer->Append(value->ptr, len).ok()`; both depend on
the allocator, outside the shown sources. -/
def StringMinMaxFilter.CopyToBuffer (f : StringMinMaxFilter) (which : Bound) (len : Nat)
    (same_ptr append_ok : Bool) : StringMinMaxFilter :=
  if same_ptr then f
  else
    match which with
    | .min =>
      let f1 := { f with min_buffer_ := [] }
      if !append_ok then f1.SetAlwaysTrue
      else { f1 with min_buffer_ := f1.min_.take len, min_ := f1.min_.take len }
    | .max =>
      let f1 := { f with max_buffer_ := [] }
      if !append_ok then f1.SetAlwaysTrue
      else { f1 with max_buffer_ := f1.max_.take len, max_ := f1.max_.take len }

/-- The constructor `StringMinMaxFilter::StringMinMaxFilter(protobuf,
mem_tracker)`.  The members start empty; `ok_min` and `ok_max` say whether the
two `Append` calls succeed.  The values point into the protobuf message, not
at the buffers. -/
def StringMinMaxFilter.ofProtobuf (protobuf : MinMaxFilterPB) (ok_min ok_max : Bool) :
    StringMinMaxFilter :=
  let f0 : StringMinMaxFilter :=
    ⟨[], [], [], [], protobuf.always_false, protobuf.always_true⟩
  if !f0.always_true_ && !f0.always_false_ then
    let f1 := { f0 with min_ := protobuf.min.string_val.getD [] }
    let f2 := { f1 with max_ := protobuf.max.string_val.getD [] }
    let f3 := f2.CopyToBuffer .min f2.min_.length false ok_min
    f3.CopyToBuffer .max f3.max_.length false ok_max
  else f0

/-- The function `StringMinMaxFilter::ToProtobuf(protobuf)`: the new value of
`*protobuf`. -/
def StringMinMaxFilter.ToProtobuf (f : StringMinMaxFilter)
    (protobuf : MinMaxFilterPB) : MinMaxFilterPB :=
  let p1 : MinMaxFilterPB :=
    if !f.always_true_ && !f.always_false_ then
      { protobuf with
        min := protobuf.min.set_string_val f.min_
        max := protobuf.max.set_string_val f.max_ }
    else protobuf
  { p1 with always_false := f.always_false_, always_true := f.always_true_ }

/-- The function `StringMinMaxFilter::EvalOverlap(type, data_min, data_max)`. -/
def StringMinMaxFilter.EvalOverlap (f : StringMinMaxFilter)
    (data_min data_max : Bytes) : Bool :=
  !(StringValue.lt data_max f.min_ || StringValue.lt f.max_ data_min)

/-- Modelled from the spec: `StringMinMaxFilter::Insert` is defined outside the
shown sources.  A null value is a no-op; inserting into `always_true` is a
no-op; inserting into `always_false` gives `[value, value]`; inserting into a
ranged filter updates `min = min(min, value)`, `max = max(max, value)`.  The
value is not copied: the buffers are left as they are. -/
def StringMinMaxFilter.Insert (f : StringMinMaxFilter) (val : Option Bytes) :
    StringMinMaxFilter :=
  match val with
  | none => f
  | some v =>
    if f.always_true_ then f
    else if f.always_false_ then { f with min_ := v, max_ := v, always_false_ := false }
    else
      { f with
        min_ := if StringValue.lt v f.min_ then v else f.min_
        max_ := if StringValue.lt f.max_ v then v else f.max_ }

/-! ## The value lattice of the spec -/

/-- Modelled from the spec: the Value Lattice Core (spec 3 and 4.2) over a
scalar kind with values in `α`: the two flags and the closed range. -/
structure ValueLattice (α : Type) where
  always_false : Bool
  always_true : Bool
  min : α
  max : α

/-- Modelled from the spec: `Insert` of the Value Lattice Core (spec 4.2), for
a kind whose order is `lt`. -/
def ValueLattice.Insert {α : Type} (lt : α → α → Bool) (f : ValueLattice α)
    (val : Option α) : ValueLattice α :=
  match val with
  | none => f
  | some v =>
    if f.always_true then f
    else if f.always_false then { f with min := v, max := v, always_false := false }
    else
      { f with
        min := if lt v f.min then v else f.min
        max := if lt f.max v then v else f.max }

/-- The comparison every same-kind `EvalOverlap` of the source makes on the
stored bounds (lines 231-232, 299, 311, 460, 538, 743):
`!(max_ < data_min || data_max < min_)`. -/
def ValueLattice.EvalOverlap {α : Type} (lt : α → α → Bool) (f : ValueLattice α)
    (data_min data_max : α) : Bool :=
  !(lt f.max data_min || lt data_max f.min)

/-! ## Overlap ratios of the boolean, string and timestamp filters -/

/-- The function `BoolMinMaxFilter::EvalOverlap(type, data_min, data_max)`;
`<` on two `bool`s is that of the promoted integers `0` and `1`. -/
def BoolMinMaxFilter.EvalOverlap (f : BoolMinMaxFilter) (data_min data_max : Bool) : Bool :=
  !(pb_bool.lt f.max_ data_min || pb_bool.lt data_max f.min_)

/-- The function `BoolMinMaxFilter::ComputeOverlapRatio(type, data_min,
data_max)`. -/
def BoolMinMaxFilter.ComputeOverlapRatio (f : BoolMinMaxFilter)
    (data_min data_max : Bool) : OverlapRatio :=
  if f.EvalOverlap data_min data_max then OverlapRatio.one else OverlapRatio.zero

/-- Modelled from the spec: `StringValue::operator<=` is defined outside the
shown sources; `a <= b` holds when `b < a` does not, in the lexicographic
(unsigned) byte order. -/
def StringValue.le (a b : Bytes) : Bool := !StringValue.lt b a

/-- The `<` of `uint64_t`. -/
def nat_lt (a b : Nat) : Bool := decide (a < b)

/-- The expression `a - b + 1` in `uint64_t` arithmetic. -/
def uspan (a b : Nat) : Int := ((a : Int) - (b : Int) + 1) % 2 ^ 64

/-- The function `StringMinMaxFilter::ComputeOverlapRatio(type, data_min_ptr,
data_max_ptr)`.  `ToUInt64` is `StringValue::ToUInt64`, defined outside the
shown sources; its result is a `uint64_t`. -/
def StringMinMaxFilter.ComputeOverlapRatio (ToUInt64 : Bytes → Nat) (f : StringMinMaxFilter)
    (data_min data_max : Bytes) : OverlapRatio :=
  if StringValue.le f.min_ data_min && StringValue.le data_max f.max_ then OverlapRatio.one
  else
    let data_min64 := ToUInt64 data_min % 2 ^ 64
    let data_max64 := ToUInt64 data_max % 2 ^ 64
    let filter_min64 := ToUInt64 f.min_ % 2 ^ 64
    let filter_max64 := ToUInt64 f.max_ % 2 ^ 64
    let overlap_min := std_max nat_lt filter_min64 data_min64
    let overlap_max := std_min nat_lt filter_max64 data_max64
    ⟨uspan overlap_max overlap_min, uspan data_max64 data_min64⟩

/-- Modelled from the spec: `TimestampValue` is declared outside the shown
sources.  A timestamp is its wire bytes; `le` is `operator<=`, and
`UtcToUnixTimeLimitedRangeNanos` gives the nanoseconds the conversion stores,
or `none` when it returns `false`. -/
structure TimestampCodec where
  le : Bytes → Bytes → Bool
  UtcToUnixTimeLimitedRangeNanos : Bytes → Option Int

/-- The data members of a `TimestampMinMaxFilter` object. -/
structure TimestampMinMaxFilter where
  min_ : Bytes
  max_ : Bytes
  always_false_ : Bool
  always_true_ : Bool
deriving DecidableEq, Repr

/-- The function `TimestampMinMaxFilter::ComputeOverlapRatio(type,
data_min_ptr, data_max_ptr)`; the arithmetic is that of `int64_t`.  The four
conversions have no effect but their result, so the order in which `||`
evaluates them does not show. -/
def TimestampMinMaxFilter.ComputeOverlapRatio (tc : TimestampCodec)
    (f : TimestampMinMaxFilter) (data_min data_max : Bytes) : OverlapRatio :=
  if tc.le f.min_ data_min && tc.le data_max f.max_ then OverlapRatio.one
  else
    match tc.UtcToUnixTimeLimitedRangeNanos data_min,
        tc.UtcToUnixTimeLimitedRangeNanos data_max,
        tc.UtcToUnixTimeLimitedRangeNanos f.min_,
        tc.UtcToUnixTimeLimitedRangeNanos f.max_ with
    | some data_min_in_ns, some data_max_in_ns, some filter_min_in_ns,
        some filter_max_in_ns =>
      let overlap_min := std_max int_lt filter_min_in_ns data_min_in_ns
      let overlap_max := std_min int_lt filter_max_in_ns data_max_in_ns
      ⟨span 64 overlap_max overlap_min, span 64 data_max_in_ns data_min_in_ns⟩
    | _, _, _, _ => OverlapRatio.one

/-- A concrete timestamp codec, for running the definitions on examples:
timestamps are ordered by their bytes, and the conversion succeeds on the
timestamps of eight bytes or fewer. -/
def TimestampCodec.sample : TimestampCodec where
  le := StringValue.le
  UtcToUnixTimeLimitedRangeNanos b :=
    if b.length ≤ 8 then some (le_value b) else none

/-! ## The filter factory -/

/-- The classes `MinMaxFilter::Create` instantiates with `new`; the decimal
filter is constructed with `type.precision`. -/
inductive FilterClass where
  | BoolMinMaxFilter
  | TinyIntMinMaxFilter
  | SmallIntMinMaxFilter
  | IntMinMaxFilter
  | BigIntMinMaxFilter
  | FloatMinMaxFilter
  | DoubleMinMaxFilter
  | StringMinMaxFilter
  | TimestampMinMaxFilter
  | DateMinMaxFilter
  | DecimalMinMaxFilter (precision : Int)
deriving DecidableEq, Repr

/-- The member function `type()` of each class: `TYPE_##PRIMITIVE_TYPE` of the
macro instance (lines 122-124, 159-165, 494-496, 541-542), `TYPE_STRING`
(line 355), `TYPE_DECIMAL` (line 619). -/
def FilterClass.type : FilterClass → PrimitiveType
  | .BoolMinMaxFilter => .TYPE_BOOLEAN
  | .TinyIntMinMaxFilter => .TYPE_TINYINT
  | .SmallIntMinMaxFilter => .TYPE_SMALLINT
  | .IntMinMaxFilter => .TYPE_INT
  | .BigIntMinMaxFilter => .TYPE_BIGINT
  | .FloatMinMaxFilter => .TYPE_FLOAT
  | .DoubleMinMaxFilter => .TYPE_DOUBLE
  | .StringMinMaxFilter => .TYPE_STRING
  | .TimestampMinMaxFilter => .TYPE_TIMESTAMP
  | .DateMinMaxFilter => .TYPE_DATE
  | .DecimalMinMaxFilter _ => .TYPE_DECIMAL

/-- The function `MinMaxFilter::Create(type, pool, mem_tracker)`: the class of
the object returned, `none` for `nullptr`. -/
def MinMaxFilter.Create (type : ColumnType) : Option FilterClass :=
  match type.type with
  | .TYPE_BOOLEAN => some .BoolMinMaxFilter
  | .TYPE_TINYINT => some .TinyIntMinMaxFilter
  | .TYPE_SMALLINT => some .SmallIntMinMaxFilter
  | .TYPE_INT => some .IntMinMaxFilter
  | .TYPE_BIGINT => some .BigIntMinMaxFilter
  | .TYPE_FLOAT => some .FloatMinMaxFilter
  | .TYPE_DOUBLE => some .DoubleMinMaxFilter
  | .TYPE_STRING => some .StringMinMaxFilter
  | .TYPE_TIMESTAMP => some .TimestampMinMaxFilter
  | .TYPE_DATE => some .DateMinMaxFilter
  | .TYPE_DECIMAL => some (.DecimalMinMaxFilter type.precision)
  | _ => none

/-- The function `MinMaxFilter::Create(protobuf, type, pool, mem_tracker)`: the
class of the object returned, `none` for `nullptr`.  The wire form goes to the
constructor and takes no part in the choice of the class. -/
def MinMaxFilter.Create_protobuf (_protobuf : MinMaxFilterPB) (type : ColumnType) :
    Option FilterClass :=
  match type.type with
  | .TYPE_BOOLEAN => some .BoolMinMaxFilter
  | .TYPE_TINYINT => some .TinyIntMinMaxFilter
  | .TYPE_SMALLINT => some .SmallIntMinMaxFilter
  | .TYPE_INT => some .IntMinMaxFilter
  | .TYPE_BIGINT => some .BigIntMinMaxFilter
  | .TYPE_FLOAT => some .FloatMinMaxFilter
  | .TYPE_DOUBLE => some .DoubleMinMaxFilter
  | .TYPE_STRING => some .StringMinMaxFilter
  | .TYPE_TIMESTAMP => some .TimestampMinMaxFilter
  | .TYPE_DATE => some .DateMinMaxFilter
  | .TYPE_DECIMAL => some (.DecimalMinMaxFilter type.precision)
  | _ => none

/-- Whether the `DCHECK(false)` in the `default` branch of either `Create` is
not reached. -/
def MinMaxFilter.Create_DCHECK (type : ColumnType) : Bool :=
  match type.type with
  | .TYPE_BOOLEAN | .TYPE_TINYINT | .TYPE_SMALLINT | .TYPE_INT | .TYPE_BIGINT
  | .TYPE_FLOAT | .TYPE_DOUBLE | .TYPE_STRING | .TYPE_TIMESTAMP | .TYPE_DATE
  | .TYPE_DECIMAL => true
  | _ => false

/-- The eleven kinds the spec lists as supported: boolean, tinyint, smallint,
int, bigint, float, double, string, timestamp, date, decimal. -/
def PrimitiveType.supported : PrimitiveType → Bool
  | .TYPE_BOOLEAN | .TYPE_TINYINT | .TYPE_SMALLINT | .TYPE_INT | .TYPE_BIGINT
  | .TYPE_FLOAT | .TYPE_DOUBLE | .TYPE_STRING | .TYPE_TIMESTAMP | .TYPE_DATE
  | .TYPE_DECIMAL => true
  | _ => false

/-! ## Wire-level copy -/

/-- The body of `NAME##MinMaxFilter::Copy(in, out)` in
`NUMERIC_MIN_MAX_FILTER_FUNCS` and in `DATE_TIME_MIN_MAX_FILTER_FUNCS`. -/
def NumericMinMaxFilter.Copy {α : Type} (p : ProtobufType α)
    (inp out : MinMaxFilterPB) : MinMaxFilterPB :=
  { out with
    min := p.set_val out.min (p.val inp.min)
    max := p.set_val out.max (p.val inp.max) }

/-- The instance `NUMERIC_MIN_MAX_FILTER_FUNCS(Bool, bool, bool, BOOLEAN)`. -/
def BoolMinMaxFilter.Copy := NumericMinMaxFilter.Copy pb_bool

/-- The instance `NUMERIC_MIN_MAX_FILTER_FUNCS(TinyInt, int8_t, byte, TINYINT)`. -/
def TinyIntMinMaxFilter.Copy := NumericMinMaxFilter.Copy pb_byte

/-- The instance `NUMERIC_MIN_MAX_FILTER_FUNCS(SmallInt, int16_t, short, SMALLINT)`. -/
def SmallIntMinMaxFilter.Copy := NumericMinMaxFilter.Copy pb_short

/-- The instance `NUMERIC_MIN_MAX_FILTER_FUNCS(Int, int32_t, int, INT)`. -/
def IntMinMaxFilter.Copy := NumericMinMaxFilter.Copy pb_int

/-- The instance `NUMERIC_MIN_MAX_FILTER_FUNCS(BigInt, int64_t, long, BIGINT)`. -/
def BigIntMinMaxFilter.Copy := NumericMinMaxFilter.Copy pb_long

/-- The instance `NUMERIC_MIN_MAX_FILTER_FUNCS(Double, double, double, DOUBLE)`. -/
def DoubleMinMaxFilter.Copy (ext : ExternalCodecs) :=
  NumericMinMaxFilter.Copy (pb_double ext)

/-- The function `StringMinMaxFilter::Copy(in, out)`. -/
def StringMinMaxFilter.Copy (inp out : MinMaxFilterPB) : MinMaxFilterPB :=
  { out with
    min := out.min.set_string_val (inp.min.string_val.getD [])
    max := out.max.set_string_val (inp.max.string_val.getD []) }

/-- The instance
`DATE_TIME_MIN_MAX_FILTER_FUNCS(Timestamp, TimestampValue, timestamp, TIMESTAMP)`. -/
def TimestampMinMaxFilter.Copy (ext : ExternalCodecs) :=
  NumericMinMaxFilter.Copy (pb_timestamp ext)

/-- The instance `DATE_TIME_MIN_MAX_FILTER_FUNCS(Date, DateValue, date, DATE)`. -/
def DateMinMaxFilter.Copy (ext : ExternalCodecs) :=
  NumericMinMaxFilter.Copy (pb_date ext)

/-- The function `DecimalMinMaxFilter::Copy(in, out)`. -/
def DecimalMinMaxFilter.Copy (inp out : MinMaxFilterPB) : MinMaxFilterPB :=
  { out with
    min := out.min.set_decimal_val (inp.min.decimal_val.getD [])
    max := out.max.set_decimal_val (inp.max.decimal_val.getD []) }

/-- The function `MinMaxFilter::Copy(in, out)` on wire forms: the new value of
`*out`. -/
def MinMaxFilter.Copy (ext : ExternalCodecs) (inp out : MinMaxFilterPB) : MinMaxFilterPB :=
  let out1 := { out with always_false := inp.always_false }
  let out2 := { out1 with always_true := inp.always_true }
  if inp.always_false || inp.always_true then out2
  else if inp.min.bool_val.isSome then BoolMinMaxFilter.Copy inp out2
  else if inp.min.byte_val.isSome then TinyIntMinMaxFilter.Copy inp out2
  else if inp.min.short_val.isSome then SmallIntMinMaxFilter.Copy inp out2
  else if inp.min.int_val.isSome then IntMinMaxFilter.Copy inp out2
  else if inp.min.long_val.isSome then BigIntMinMaxFilter.Copy inp out2
  else if inp.min.double_val.isSome then DoubleMinMaxFilter.Copy ext inp out2
  else if inp.min.string_val.isSome then StringMinMaxFilter.Copy inp out2
  else if inp.min.timestamp_val.isSome then TimestampMinMaxFilter.Copy ext inp out2
  else if inp.min.date_val.isSome then DateMinMaxFilter.Copy ext inp out2
  else if inp.min.decimal_val.isSome then DecimalMinMaxFilter.Copy inp out2
  else out2

/-- Whether every `DCHECK` that `MinMaxFilter::Copy(in, out)` meets holds:
`out->min()` lacks the field `in.min()` has, and some field is set. -/
def MinMaxFilter.Copy_DCHECK (inp out : MinMaxFilterPB) : Bool :=
  if inp.always_false || inp.always_true then true
  else if inp.min.bool_val.isSome then !out.min.bool_val.isSome
  else if inp.min.byte_val.isSome then !out.min.byte_val.isSome
  else if inp.min.short_val.isSome then !out.min.short_val.isSome
  else if inp.min.int_val.isSome then !out.min.int_val.isSome
  else if inp.min.long_val.isSome then !out.min.long_val.isSome
  else if inp.min.double_val.isSome then !out.min.double_val.isSome
  else if inp.min.string_val.isSome then !out.min.string_val.isSome
  else if inp.min.timestamp_val.isSome then !out.min.timestamp_val.isSome
  else if inp.min.date_val.isSome then !out.min.date_val.isSome
  else if inp.min.decimal_val.isSome then !out.min.decimal_val.isSome
  else false

/-! ## Materialization of string bounds -/

/-- The constant `StringMinMaxFilter::MAX_BOUND_LENGTH`. -/
def StringMinMaxFilter.MAX_BOUND_LENGTH : Nat := 1024

/-- The loop of `MaterializeValues` (lines 375-379) on the bytes `buf` at
`max_buffer_.buffer()`, entered with `i = k - 1`: the bytes after the loop and
the final `i + 1` (so `0` stands for `i == -1`).  A `char` holding `0xFF`
converts to the `int32_t` `-1` (`char` is signed where the code is built), and
adding `1` to it wraps to `0`. -/
def StringMinMaxFilter.carry (buf : Bytes) : Nat → Bytes × Nat
  | 0 => (buf, 0)
  | k + 1 =>
    if buf.getD k 0 = 255 then
      StringMinMaxFilter.carry (buf.set k ((buf.getD k 0 + 1) % 256)) k
    else (buf, k + 1)

/-- The first block of `MaterializeValues` (lines 360-367), on the min bound.
`same_min` and `ok_min` are the outcomes of the pointer test and of `Append` in
the `CopyToBuffer` call. -/
def StringMinMaxFilter.MaterializeMin (f : StringMinMaxFilter)
    (same_min ok_min : Bool) : StringMinMaxFilter :=
  if f.min_buffer_.isEmpty then
    if f.min_.length > StringMinMaxFilter.MAX_BOUND_LENGTH then
      f.CopyToBuffer .min StringMinMaxFilter.MAX_BOUND_LENGTH same_min ok_min
    else f.CopyToBuffer .min f.min_.length same_min ok_min
  else f

/-- The second block of `MaterializeValues` (lines 368-388), on the max bound.
`same_max` and `ok_max` are the outcomes of the pointer test and of `Append` in
the `CopyToBuffer` call.  After a copy `max_.ptr` is `max_buffer_.buffer()`, so
the loop and the final increment change `max_` and the buffer alike; when the
pointers were equal beforehand the bytes changed are those of `max_` and the
buffer keeps its length. -/
def StringMinMaxFilter.MaterializeMax (f : StringMinMaxFilter)
    (same_max ok_max : Bool) : StringMinMaxFilter :=
  if f.max_buffer_.isEmpty then
    if f.max_.length > StringMinMaxFilter.MAX_BOUND_LENGTH then
      let f2 := f.CopyToBuffer .max StringMinMaxFilter.MAX_BOUND_LENGTH same_max ok_max
      if f2.always_true_ then f2
      else
        let r := StringMinMaxFilter.carry f2.max_ StringMinMaxFilter.MAX_BOUND_LENGTH
        if r.2 = 0 then
          StringMinMaxFilter.SetAlwaysTrue
            { f2 with max_ := r.1, max_buffer_ := if same_max then f2.max_buffer_ else r.1 }
        else
          let buf := r.1.set (r.2 - 1) ((r.1.getD (r.2 - 1) 0 + 1) % 256)
          { f2 with max_ := buf, max_buffer_ := if same_max then f2.max_buffer_ else buf }
    else f.CopyToBuffer .max f.max_.length same_max ok_max
  else f

/-- The function `StringMinMaxFilter::MaterializeValues()`: the early return
on either flag, then the block on the min bound, then the block on the max
bound (there is no test of `always_true_` between the two blocks). -/
def StringMinMaxFilter.MaterializeValues (f : StringMinMaxFilter)
    (same_min ok_min same_max ok_max : Bool) : StringMinMaxFilter :=
  if f.always_true_ || f.always_false_ then f
  else (f.MaterializeMin same_min ok_min).MaterializeMax same_max ok_max

/-- The bytes the loop and the final increment of `MaterializeValues` (lines
375-384) leave at `max_buffer_.buffer()`, when the loop ends with `i >= 0`. -/
def StringMinMaxFilter.bump (buf : Bytes) : Bytes :=
  let r := StringMinMaxFilter.carry buf StringMinMaxFilter.MAX_BOUND_LENGTH
  r.1.set (r.2 - 1) ((r.1.getD (r.2 - 1) 0 + 1) % 256)

/-- The filter is ranged: neither flag is set. -/
def StringMinMaxFilter.isRanged (f : StringMinMaxFilter) : Bool :=
  !f.always_true_ && !f.always_false_

/-- The Top state `SetAlwaysTrue` leaves: `always_true` set, `always_false`
clear, bounds and buffers empty. -/
def StringMinMaxFilter.top : StringMinMaxFilter := ⟨[], [], [], [], false, true⟩

/-! ## Scratch tuple batches -/

/-- Modelled from the spec: `ScratchMicroBatch` is declared in
`scratch-tuple-batch.h`, outside the shown sources; the test reads its members
`start`, `end` and `length`.  Rows are numbered from `0`. -/
structure ScratchMicroBatch where
  start : Nat
  end_ : Nat
  length : Nat
deriving DecidableEq, Repr

/-- Modelled from the spec: `ScratchTupleBatch` is declared in
`scratch-tuple-batch.h`, outside the shown sources; the test sets `num_tuples`
and `selected_rows[i]` for the rows `i < num_tuples`. -/
structure ScratchTupleBatch where
  num_tuples : Nat
  selected_rows : Nat → Bool

/-- Modelled from the spec: the scan of `GetMicroBatches` over the rows
`0 .. n - 1` (the function is defined in `scratch-tuple-batch.h`, outside the
shown sources).  The result lists the runs found so far, the latest first; the
head is the run being built.  A selected row joins the run being built when its
distance to the last row of that run is smaller than `skip_length`, and starts a
new run otherwise. -/
def ScratchTupleBatch.scan (selected_rows : Nat → Bool) (skip_length : Int) :
    Nat → List ScratchMicroBatch
  | 0 => []
  | n + 1 =>
    if selected_rows n then
      match ScratchTupleBatch.scan selected_rows skip_length n with
      | [] => [⟨n, n, 1⟩]
      | b :: rest =>
        if (n : Int) - (b.end_ : Int) < skip_length then
          ⟨b.start, n, n - b.start + 1⟩ :: rest
        else ⟨n, n, 1⟩ :: b :: rest
    else ScratchTupleBatch.scan selected_rows skip_length n

/-- Modelled from the spec: `ScratchTupleBatch::GetMicroBatches(batches,
skip_length)` is defined in `scratch-tuple-batch.h`, outside the shown sources.
It writes the runs of selected rows to `batches[0 ..]` in ascending row order
and returns how many it wrote: the result is the pair of the return value and
the batches written. -/
def ScratchTupleBatch.GetMicroBatches (b : ScratchTupleBatch) (skip_length : Int) :
    Nat × List ScratchMicroBatch :=
  let batches := (ScratchTupleBatch.scan b.selected_rows skip_length b.num_tuples).reverse
  (batches.length, batches)

/-- The scratch batch of `TestGetMicroBatches`: 1024 rows, every 16th
selected. -/
def test_scratch_batch : ScratchTupleBatch := ⟨1024, fun batch_idx => batch_idx % 16 == 0⟩

/-- The invariant of the scan after the rows `0 .. n - 1`, on the runs `R`
found so far (latest first): every run starts and ends on a selected row below
`n` and records its length; a later run lies `skip_length` or more after an
earlier one; every selected row below `n` is in a run; no selected row follows
the run being built; and inside a run, two selected rows with no selected row
in between are less than `skip_length` apart. -/
def ScratchTupleBatch.ScanInv (sel : Nat → Bool) (L : Int) (n : Nat)
    (R : List ScratchMicroBatch) : Prop :=
  (∀ x ∈ R, x.start ≤ x.end_ ∧ x.end_ < n ∧ sel x.start = true ∧ sel x.end_ = true
      ∧ x.length = x.end_ - x.start + 1)
    ∧ R.Pairwise (fun x y => y.end_ < x.start ∧ (y.end_ : Int) + L ≤ x.start)
    ∧ (∀ r, r < n → sel r = true → ∃ x ∈ R, x.start ≤ r ∧ r ≤ x.end_)
    ∧ (∀ x ∈ R.head?, ∀ r, x.end_ < r → r < n → sel r = false)
    ∧ (∀ x ∈ R, ∀ r r', x.start ≤ r → r < r' → r' ≤ x.end_ → sel r = true →
        sel r' = true → (∀ y, r < y → y < r' → sel y = false) → (r' : Int) - r < L)

/-! ## The 64-bit branch of the integer overlap ratio -/

/-- The part of `NAME##MinMaxFilter::ComputeOverlapRatio(col_type, data_min,
data_max)` after the same-kind block (lines 266-282): the ratio computed
through the five-argument `EvalOverlap` in `int64_t`. -/
def IntegerMinMaxFilter.ComputeOverlapRatio64 (n : IntName) (f : IntegerMinMaxFilter)
    (col_type : ColumnType) (data_min data_max : Int) : OverlapRatio :=
  match f.EvalOverlap64 n col_type data_min data_max with
  | some (filter_min64, filter_max64) =>
    let data_min64 := GetIntTypeValue col_type data_min
    let data_max64 := GetIntTypeValue col_type data_max
    if filter_min64 ≤ data_min64 ∧ data_max64 ≤ filter_max64 then OverlapRatio.one
    else
      let overlap_min := std_max int_lt data_min64 filter_min64
      let overlap_max := std_min int_lt data_max64 filter_max64
      ⟨span 64 overlap_max overlap_min, span 64 data_max64 data_min64⟩
  | none => OverlapRatio.zero

/-- The quotient `(double)num / den` is `0.0`: the numerator is zero and the
divisor is not (a zero divisor gives an infinity or a NaN). -/
def OverlapRatio.isZero (r : OverlapRatio) : Bool :=
  decide (r.num = 0) && decide (r.den ≠ 0)

/-- The exact value `x` is representable in `w`-bit signed arithmetic. -/
def fits (w : Nat) (x : Int) : Bool :=
  decide (-(2 ^ (w - 1)) ≤ x) && decide (x < 2 ^ (w - 1))

/-! ## Debug strings -/

/-- The text of `(flag ? "true" : "false")`. -/
def bool_text (flag : Bool) : String := if flag then "true" else "false"

/-- The macro argument `#NAME` of the integer instances of
`NUMERIC_MIN_MAX_FILTER_FUNCS`. -/
def IntName.NAME : IntName → String
  | .TinyInt => "TinyInt"
  | .SmallInt => "SmallInt"
  | .Int => "Int"
  | .BigInt => "BigInt"

/-- The function `NAME##MinMaxFilter::DebugString()` of
`NUMERIC_MIN_MAX_FILTER_FUNCS` (lines 133-139), for the integer instances.
`text` is what `operator<<` writes for a value of `TYPE`. -/
def IntegerMinMaxFilter.DebugString (text : Int → String) (n : IntName)
    (f : IntegerMinMaxFilter) : String :=
  n.NAME ++ "MinMaxFilter(min=" ++ text f.min_ ++ ", max=" ++ text f.max_
    ++ ", always_false=" ++ bool_text (f.AlwaysFalse n)
    ++ ", always_true=" ++ bool_text f.AlwaysTrue ++ ")"

/-- The function `StringMinMaxFilter::DebugString()` (lines 400-406).  `text`
is what `operator<<` writes for a `StringValue`. -/
def StringMinMaxFilter.DebugString (text : Bytes → String) (f : StringMinMaxFilter) :
    String :=
  "StringMinMaxFilter(min=" ++ text f.min_ ++ ", max=" ++ text f.max_
    ++ ", always_false=" ++ bool_text f.always_false_
    ++ ", always_true=" ++ bool_text f.always_true_ ++ ")"

/-- The body of `NAME##MinMaxFilter::DebugString()` in
`DATE_TIME_MIN_MAX_FILTER_FUNCS` (lines 505-511): the text after
`", always_true="` is chosen by `always_false_`.  `min_text` and `max_text`
are what `operator<<` writes for `min_` and `max_`. -/
def DateTimeMinMaxFilter.DebugString (NAME min_text max_text : String)
    (always_false_ _always_true_ : Bool) : String :=
  NAME ++ "MinMaxFilter(min=" ++ min_text ++ ", max=" ++ max_text
    ++ ", always_false=" ++ bool_text always_false_
    ++ ", always_true=" ++ bool_text always_false_ ++ ")"

/-- The instance
`DATE_TIME_MIN_MAX_FILTER_FUNCS(Timestamp, TimestampValue, timestamp, TIMESTAMP)`. -/
def TimestampMinMaxFilter.DebugString (text : Bytes → String)
    (f : TimestampMinMaxFilter) : String :=
  DateTimeMinMaxFilter.DebugString "Timestamp" (text f.min_) (text f.max_)
    f.always_false_ f.always_true_

/-- The instance `DATE_TIME_MIN_MAX_FILTER_FUNCS(Date, DateValue, date, DATE)`. -/
def DateMinMaxFilter.DebugString (text : Int → String) (f : DateMinMaxFilter) : String :=
  DateTimeMinMaxFilter.DebugString "Date" (text f.min_) (text f.max_)
    f.always_false_ f.always_true_

/-- The data members of a `DecimalMinMaxFilter` object that the source uses:
the byte size, a pair of bounds for each size, and the two flags.  A decimal
value is given by its unscaled integer. -/
structure DecimalMinMaxFilter where
  size_ : Int
  min4_ : Int
  max4_ : Int
  min8_ : Int
  max8_ : Int
  min16_ : Int
  max16_ : Int
  always_false_ : Bool
  always_true_ : Bool
deriving DecidableEq, Repr

/-- The macro `DECIMAL_DEBUG_STRING(SIZE)` (lines 667-672): what it appends to
`out`; the text after `", always_true="` is chosen by `always_false_`. -/
def DECIMAL_DEBUG_STRING (min_text max_text : String)
    (always_false_ _always_true_ : Bool) : String :=
  "DecimalMinMaxFilter(min=" ++ min_text ++ ", max=" ++ max_text
    ++ ", always_false=" ++ bool_text always_false_
    ++ ", always_true=" ++ bool_text always_false_ ++ ")"

/-- The function `DecimalMinMaxFilter::DebugString()` (lines 674-692); for a
byte size that is none of the three, the `DCHECK(false)` is followed by the
return of the empty text.  `text` is what `operator<<` writes for a decimal
value. -/
def DecimalMinMaxFilter.DebugString (text : Int → String) (f : DecimalMinMaxFilter) :
    String :=
  if f.size_ = DECIMAL_SIZE_4BYTE then
    DECIMAL_DEBUG_STRING (text f.min4_) (text f.max4_) f.always_false_ f.always_true_
  else if f.size_ = DECIMAL_SIZE_8BYTE then
    DECIMAL_DEBUG_STRING (text f.min8_) (text f.max8_) f.always_false_ f.always_true_
  else if f.size_ = DECIMAL_SIZE_16BYTE then
    DECIMAL_DEBUG_STRING (text f.min16_) (text f.max16_) f.always_false_ f.always_true_
  else ""

/-- The text `pattern` occurs in `text`. -/
def text_contains (text pattern : String) : Bool :=
  decide (pattern.toList <:+: text.toList)

/-! ## Tagged pointers -/

/-- Modelled from the spec: `TaggedPtr` is declared in `util/tagged-ptr.h`,
outside the shown sources.  A tagged pointer is one 64-bit word `data_`: the low
57 bits hold the pointer and the high 7 bits the tag, tag bit 0 being the most
significant bit, so that `GetTag()` counts bit 0 as 64 and bit 1 as 32. -/
structure TaggedPtr where
  data_ : Nat
deriving DecidableEq, Repr

/-- Modelled from the spec: the mask of the pointer bits, `2 ^ 57 - 1`
(`tagged-ptr.h` is outside the shown sources). -/
def TaggedPtr.MASK_0_56_BITS : Nat := 2 ^ 57 - 1

/-- Modelled from the spec: the mask of tag bit `bit` (`tagged-ptr.h` is
outside the shown sources). -/
def TaggedPtr.DATA_MASK (bit : Nat) : Nat := 2 ^ (63 - bit)

/-- The operator `~` on a 64-bit word. -/
def complement64 (x : Nat) : Nat := (2 ^ 64 - 1) ^^^ x

/-- Modelled from the spec: `TaggedPtr::make_tagptr` (`tagged-ptr.h` is outside
the shown sources) returns a pointer to a new object, at `address`, with no tag
bit set. -/
def TaggedPtr.make_tagptr (address : Nat) : TaggedPtr := ⟨address⟩

/-- Modelled from the spec: `TaggedPtr::GetTag()` (`tagged-ptr.h` is outside
the shown sources) is the 7-bit tag. -/
def TaggedPtr.GetTag (p : TaggedPtr) : Nat := p.data_ >>> 57

/-- Modelled from the spec: `TaggedPtr::GetPtr()` (`tagged-ptr.h` is outside
the shown sources) is the address in the low 57 bits. -/
def TaggedPtr.GetPtr (p : TaggedPtr) : Nat := p.data_ &&& TaggedPtr.MASK_0_56_BITS

/-- Modelled from the spec: `TaggedPtr::IsNull()` (`tagged-ptr.h` is outside
the shown sources): the pointer is null. -/
def TaggedPtr.IsNull (p : TaggedPtr) : Bool := p.GetPtr == 0

/-- Modelled from the spec: `TaggedPtr::IsTagBitSet<bit>()` (`tagged-ptr.h` is
outside the shown sources). -/
def TaggedPtr.IsTagBitSet (bit : Nat) (p : TaggedPtr) : Bool :=
  decide (p.data_ &&& TaggedPtr.DATA_MASK bit ≠ 0)

/-- Modelled from the spec: `TaggedPtr::SetTagBit<bit>()` (`tagged-ptr.h` is
outside the shown sources). -/
def TaggedPtr.SetTagBit (bit : Nat) (p : TaggedPtr) : TaggedPtr :=
  ⟨p.data_ ||| TaggedPtr.DATA_MASK bit⟩

/-- Modelled from the spec: `TaggedPtr::UnSetTagBit<bit>()` (`tagged-ptr.h` is
outside the shown sources). -/
def TaggedPtr.UnSetTagBit (bit : Nat) (p : TaggedPtr) : TaggedPtr :=
  ⟨p.data_ &&& complement64 (TaggedPtr.DATA_MASK bit)⟩

/-- Modelled from the spec: `TaggedPtr::SetPtr(ptr)` (`tagged-ptr.h` is outside
the shown sources) stores the address and keeps the tag. -/
def TaggedPtr.SetPtr (p : TaggedPtr) (address : Nat) : TaggedPtr :=
  ⟨(p.data_ &&& complement64 TaggedPtr.MASK_0_56_BITS) ||| address⟩

/-- The function `TaggedBucketData::IsData()`. -/
def TaggedBucketData.IsData (p : TaggedPtr) : Bool := p.IsTagBitSet 0

/-- The function `TaggedBucketData::SetIsData()`. -/
def TaggedBucketData.SetIsData (p : TaggedPtr) : TaggedPtr := p.SetTagBit 0

/-- The function `TaggedBucketData::UnSetIsData()`. -/
def TaggedBucketData.UnSetIsData (p : TaggedPtr) : TaggedPtr := p.UnSetTagBit 0

/-- The function `TaggedBucketData::GetData()`. -/
def TaggedBucketData.GetData (p : TaggedPtr) : Nat := p.GetPtr

/-- The function `TaggedBucketData::SetBucketData(address)`. -/
def TaggedBucketData.SetBucketData (p : TaggedPtr) (address : Nat) : TaggedPtr :=
  p.SetPtr address

/-- The value `GetTag()` gives to the seven tag bits: bit 0 counts 64, bit 1
counts 32, and so on down to bit 6, which counts 1. -/
def TaggedPtr.tag_weight (p : TaggedPtr) : Nat :=
  (if p.IsTagBitSet 0 then 64 else 0) + (if p.IsTagBitSet 1 then 32 else 0)
    + (if p.IsTagBitSet 2 then 16 else 0) + (if p.IsTagBitSet 3 then 8 else 0)
    + (if p.IsTagBitSet 4 then 4 else 0) + (if p.IsTagBitSet 5 then 2 else 0)
    + (if p.IsTagBitSet 6 then 1 else 0)

/-- Modelled from the spec: the default constructor of `TaggedPtr`
(`tagged-ptr.h` is outside the shown sources) gives the null pointer with no
tag bit set. -/
def TaggedPtr.null : TaggedPtr := ⟨0⟩

/-! ## DataSketches functions -/

/-- Modelled from the spec: `StringVal` is declared in `udf/udf.h`, outside the
shown sources: a null flag and `len` bytes at `ptr`. -/
structure StringVal where
  is_null : Bool
  bytes : Bytes
deriving DecidableEq, Repr

/-- The member `len` of a `StringVal`. -/
def StringVal.len (s : StringVal) : Nat := s.bytes.length

/-- Modelled from the spec: `StringVal::null()` (`udf/udf.h` is outside the
shown sources). -/
def StringVal.null : StringVal := ⟨true, []⟩

/-- Modelled from the spec: `StringVal::CopyFrom(ctx, buf, len)` (`udf/udf.h` is
outside the shown sources) returns a non-null value holding a copy of the
`len` bytes at `buf`. -/
def StringVal.CopyFrom (buf : Bytes) (len : Nat) : StringVal := ⟨false, buf.take len⟩

/-- Modelled from the spec: `IntVal` is declared in `udf/udf.h`, outside the
shown sources: a null flag and an `int32_t`. -/
structure IntVal where
  is_null : Bool
  val : Int
deriving DecidableEq, Repr

/-- The calls a function of `DataSketchesFunctions` makes on its
`FunctionContext` and on the sketch library, in order. -/
inductive UdfCall where
  | SetError (msg : String)
  | LogSketchDeserializationError
  | StringStreamToStringVal
  | CopyFrom
  | a_not_b_compute
deriving DecidableEq, Repr

/-- What `DsHllEstimateBoundsAsString` uses from outside the shown sources:
the constant `DS_DEFAULT_KAPPA`, `DeserializeDsSketch` on an HLL sketch (`none`
when it returns `false`), and the text of `get_estimate()`, `get_lower_bound`,
`get_upper_bound` that `StringStreamToStringVal` returns. -/
structure HllLibrary (Sketch : Type) where
  DS_DEFAULT_KAPPA : Int
  DeserializeDsSketch : Bytes → Option Sketch
  bounds_text : Sketch → Int → StringVal

/-- The three-argument `DataSketchesFunctions::DsHllEstimateBoundsAsString(ctx,
serialized_sketch, kappa)`: the value returned and the calls made. -/
def DsHllEstimateBoundsAsString {Sketch : Type} (lib : HllLibrary Sketch)
    (serialized_sketch : StringVal) (kappa : IntVal) : StringVal × List UdfCall :=
  if serialized_sketch.is_null || serialized_sketch.len == 0 || kappa.is_null then
    (StringVal.null, [])
  else if decide (kappa.val < 1) || decide (kappa.val > 3) then
    (StringVal.null, [.SetError "Kappa must be 1, 2 or 3"])
  else
    match lib.DeserializeDsSketch serialized_sketch.bytes with
    | none => (StringVal.null, [.LogSketchDeserializationError])
    | some sketch => (lib.bounds_text sketch kappa.val, [.StringStreamToStringVal])

/-- The two-argument `DataSketchesFunctions::DsHllEstimateBoundsAsString(ctx,
serialized_sketch)`; the constant converts to a non-null `IntVal`. -/
def DsHllEstimateBoundsAsString_default {Sketch : Type} (lib : HllLibrary Sketch)
    (serialized_sketch : StringVal) : StringVal × List UdfCall :=
  DsHllEstimateBoundsAsString lib serialized_sketch ⟨false, lib.DS_DEFAULT_KAPPA⟩

/-- What `DsThetaExclude` uses from outside the shown sources:
`DeserializeDsSketch` on a theta sketch (`none` when it returns `false`, else
the sketch the pointer is set to), `theta_a_not_b::compute`, and the bytes that
`serialize` and `StringStreamToStringVal` give. -/
structure ThetaLibrary (Sketch : Type) where
  DeserializeDsSketch : Bytes → Option Sketch
  compute : Sketch → Sketch → Sketch
  serialize : Sketch → StringVal

/-- The end of `DsThetaExclude` (lines 150-161), with the two sketch pointers
as they are after the deserialization (`none` for a null pointer). -/
def DsThetaExclude_result {Sketch : Type} (lib : ThetaLibrary Sketch)
    (first_serialized_sketch : StringVal) (first_sketch_ptr second_sketch_ptr : Option Sketch) :
    StringVal × List UdfCall :=
  match first_sketch_ptr with
  | some a =>
    match second_sketch_ptr with
    | none =>
      (StringVal.CopyFrom first_serialized_sketch.bytes first_serialized_sketch.len,
        [.CopyFrom])
    | some b =>
      (lib.serialize (lib.compute a b), [.a_not_b_compute, .StringStreamToStringVal])
  | none => (StringVal.null, [])

/-- The middle of `DsThetaExclude` (lines 139-145), then its end. -/
def DsThetaExclude_second {Sketch : Type} (lib : ThetaLibrary Sketch)
    (first_serialized_sketch second_serialized_sketch : StringVal)
    (first_sketch_ptr : Option Sketch) : StringVal × List UdfCall :=
  if !second_serialized_sketch.is_null && decide (second_serialized_sketch.len > 0) then
    match lib.DeserializeDsSketch second_serialized_sketch.bytes with
    | none => (StringVal.null, [.LogSketchDeserializationError])
    | some b => DsThetaExclude_result lib first_serialized_sketch first_sketch_ptr (some b)
  else DsThetaExclude_result lib first_serialized_sketch first_sketch_ptr none

/-- The function `DataSketchesFunctions::DsThetaExclude(ctx,
first_serialized_sketch, second_serialized_sketch)`: the value returned and
the calls made. -/
def DsThetaExclude {Sketch : Type} (lib : ThetaLibrary Sketch)
    (first_serialized_sketch second_serialized_sketch : StringVal) :
    StringVal × List UdfCall :=
  if !first_serialized_sketch.is_null && decide (first_serialized_sketch.len > 0) then
    match lib.DeserializeDsSketch first_serialized_sketch.bytes with
    | none => (StringVal.null, [.LogSketchDeserializationError])
    | some a =>
      DsThetaExclude_second lib first_serialized_sketch second_serialized_sketch (some a)
  else DsThetaExclude_second lib first_serialized_sketch second_serialized_sketch none

/-- A concrete sketch library, for running the definitions on examples: a
sketch is its bytes, the bytes that start with `1` deserialize, and
`A-not-B` keeps the bytes of `A` that are not in `B`. -/
def ThetaLibrary.sample : ThetaLibrary Bytes where
  DeserializeDsSketch b := if b.head? = some 1 then some b else none
  compute a b := a.filter (fun x => !b.contains x)
  serialize s := ⟨false, s⟩

/-- A concrete HLL library, for running the definitions on examples: default
kappa 2, the bytes that start with `1` deserialize, and the text is the kappa
byte. -/
def HllLibrary.sample : HllLibrary Bytes where
  DS_DEFAULT_KAPPA := 2
  DeserializeDsSketch b := if b.head? = some 1 then some b else none
  bounds_text _ kappa := ⟨false, [kappa.toNat]⟩

/-! ## Order lemmas -/

theorem StringValue.lt_asymm (a : Bytes) :
    ∀ b : Bytes, StringValue.lt a b = true → StringValue.lt b a = false := by
  induction a with
  | nil => intro b; cases b <;> simp [StringValue.lt]
  | cons x xs ih =>
    intro b
    cases b with
    | nil => simp [StringValue.lt]
    | cons y ys =>
      simp only [StringValue.lt]
      by_cases h1 : x < y
      · have h2 : ¬ y < x := by omega
        simp [h1, h2]
      · by_cases h2 : y < x
        · simp [h1, h2]
        · simpa [h1, h2] using ih ys

theorem StringValue.lt_irrefl (a : Bytes) : StringValue.lt a a = false := by
  cases h : StringValue.lt a a with
  | false => rfl
  | true => have := StringValue.lt_asymm a a h; simp [h] at this

theorem int_lt_asymm (a b : Int) (h : int_lt a b = true) : int_lt b a = false := by
  simp only [int_lt, decide_eq_true_eq, decide_eq_false_iff_not] at *
  omega

theorem sample_asymmetric : ExternalCodecs.sample.Asymmetric where
  double_lt := by
    intro a b h
    simp only [ExternalCodecs.sample, decide_eq_true_eq, decide_eq_false_iff_not] at *
    omega
  timestamp_lt := fun a b h => StringValue.lt_asymm a b h
  date_lt := int_lt_asymm
  decimal_lt := by
    intro s a b h
    simp only [ExternalCodecs.sample, decide_eq_true_eq, decide_eq_false_iff_not] at *
    omega

theorem asymm_irrefl {α : Type} (L : α → α → Bool)
    (h : ∀ a b, L a b = true → L b a = false) (a : α) : L a a = false := by
  cases h1 : L a a with
  | false => rfl
  | true => have := h a a h1; simp [h1] at this

theorem Or_eq_kind_Or (ext : ExternalCodecs) (columnType : ColumnType) (k : WireKind)
    (inp out : MinMaxFilterPB) (h1 : inp.always_false = false) (h2 : inp.always_true = false)
    (h3 : out.always_true = false) (hk : inp.min.ofKind k = true) :
    MinMaxFilter.Or ext inp out columnType = kind_Or ext columnType k inp out := by
  cases k <;>
    simp only [ColumnValuePB.ofKind, Bool.and_eq_true, beq_iff_eq, decide_eq_true_eq,
      reduceCtorEq, decide_False, decide_True] at hk <;>
    simp [MinMaxFilter.Or, kind_Or, h1, h2, h3, hk]

theorem set_val_val (k : WireKind) (v w : ColumnValuePB)
    (hv : v.ofKind k = true) (hw : w.ofKind k = true) :
    match k with
    | .bool => v.set_bool_val (w.bool_val.getD false) = w
    | .byte => v.set_byte_val (w.byte_val.getD 0) = w
    | .short => v.set_short_val (w.short_val.getD 0) = w
    | .int => v.set_int_val (w.int_val.getD 0) = w
    | .long => v.set_long_val (w.long_val.getD 0) = w
    | .double => v.set_double_val (w.double_val.getD 0) = w
    | .string => v.set_string_val (w.string_val.getD []) = w
    | .timestamp => v.set_timestamp_val (w.timestamp_val.getD []) = w
    | .date => v.set_date_val (w.date_val.getD 0) = w
    | .decimal => v.set_decimal_val (w.decimal_val.getD []) = w := by
  obtain ⟨a1, a2, a3, a4, a5, a6, a7, a8, a9, a10⟩ := v
  obtain ⟨b1, b2, b3, b4, b5, b6, b7, b8, b9, b10⟩ := w
  cases k <;>
    simp only [ColumnValuePB.ofKind, Bool.and_eq_true, beq_iff_eq, decide_eq_true_eq,
      reduceCtorEq, decide_False, decide_True, Option.not_isSome, Option.isNone_iff_eq_none,
      Option.isSome_iff_exists] at hv hw <;>
    (casesm* _ ∧ _, ∃ _, _) <;> subst_vars <;>
    simp [ColumnValuePB.set_bool_val, ColumnValuePB.set_byte_val, ColumnValuePB.set_short_val,
      ColumnValuePB.set_int_val, ColumnValuePB.set_long_val, ColumnValuePB.set_double_val,
      ColumnValuePB.set_string_val, ColumnValuePB.set_timestamp_val,
      ColumnValuePB.set_decimal_val, ColumnValuePB.set_date_val]

theorem kind_Or_ranged (ext : ExternalCodecs) (columnType : ColumnType) (k : WireKind)
    (a b : MinMaxFilterPB) (ha : a.isRanged k = true) (hb : b.isRanged k = true) :
    kind_Or ext columnType k a b =
      ⟨false, false,
        if k.isNumeric then
          (if kind_lt ext columnType k b.min a.min then b.min else a.min)
        else (if kind_lt ext columnType k a.min b.min then a.min else b.min),
        if k.isNumeric then
          (if kind_lt ext columnType k a.max b.max then b.max else a.max)
        else (if kind_lt ext columnType k b.max a.max then a.max else b.max)⟩ := by
  simp only [MinMaxFilterPB.isRanged, Bool.and_eq_true, Bool.not_eq_true'] at ha hb
  obtain ⟨⟨⟨ha1, ha2⟩, ha3⟩, ha4⟩ := ha
  obtain ⟨⟨⟨hb1, hb2⟩, hb3⟩, hb4⟩ := hb
  have s1 := set_val_val k b.min a.min hb3 ha3
  have s2 := set_val_val k b.min b.min hb3 hb3
  have s3 := set_val_val k b.max a.max hb4 ha4
  have s4 := set_val_val k b.max b.max hb4 hb4
  have hsz : GetDecimalByteSize ext columnType.precision = 4
      ∨ GetDecimalByteSize ext columnType.precision = 8
      ∨ GetDecimalByteSize ext columnType.precision = 16 := by
    unfold GetDecimalByteSize DECIMAL_SIZE_4BYTE DECIMAL_SIZE_8BYTE DECIMAL_SIZE_16BYTE
    split_ifs <;> simp
  obtain ⟨baf, bat, bmin, bmax⟩ := b
  simp only at hb1 hb2 s1 s2 s3 s4 ⊢
  subst hb1 hb2
  cases k <;> simp only at s1 s2 s3 s4
  case decimal =>
    simp only [kind_Or, DecimalMinMaxFilter.Or, DECIMAL_OR, kind_lt, WireKind.isNumeric,
      DECIMAL_SIZE_4BYTE, DECIMAL_SIZE_8BYTE, DECIMAL_SIZE_16BYTE, ha1, ha2, Bool.or_self,
      Bool.false_eq_true, if_false]
    rcases hsz with h | h | h <;> simp only [h] <;> norm_num <;> split_ifs <;> simp [s1, s3]
  all_goals
    simp only [kind_Or, BoolMinMaxFilter.Or, TinyIntMinMaxFilter.Or, SmallIntMinMaxFilter.Or,
      IntMinMaxFilter.Or, BigIntMinMaxFilter.Or, DoubleMinMaxFilter.Or, StringMinMaxFilter.Or,
      TimestampMinMaxFilter.Or, DateMinMaxFilter.Or,
      NumericMinMaxFilter.Or, DateTimeMinMaxFilter.Or, kind_lt, pb_bool, pb_byte, pb_short,
      pb_int, pb_long, pb_double, pb_timestamp, pb_date, std_min, std_max, WireKind.isNumeric,
      ha1, ha2, Bool.or_self, Bool.false_eq_true, if_false, if_true]
    split_ifs <;> simp [s1, s2, s3, s4]

theorem kind_lt_asymm (ext : ExternalCodecs) (hext : ext.Asymmetric)
    (columnType : ColumnType) (k : WireKind) (x y : ColumnValuePB)
    (h : kind_lt ext columnType k x y = true) : kind_lt ext columnType k y x = false := by
  cases k <;> simp only [kind_lt, pb_bool, pb_byte, pb_short, pb_int, pb_long] at h ⊢
  case bool =>
    revert h
    cases x.bool_val.getD false <;> cases y.bool_val.getD false <;> simp
  case double => exact hext.double_lt _ _ h
  case timestamp => exact hext.timestamp_lt _ _ h
  case date => exact hext.date_lt _ _ h
  case decimal => exact hext.decimal_lt _ _ _ h
  case string => exact StringValue.lt_asymm _ _ h
  all_goals exact int_lt_asymm _ _ h

theorem kind_lt_irrefl (ext : ExternalCodecs) (hext : ext.Asymmetric)
    (columnType : ColumnType) (k : WireKind) (x : ColumnValuePB) :
    kind_lt ext columnType k x x = false :=
  asymm_irrefl (kind_lt ext columnType k) (kind_lt_asymm ext hext columnType k) x

theorem Or_DCHECK_ranged (ext : ExternalCodecs) (columnType : ColumnType) (k : WireKind)
    (a b : MinMaxFilterPB) (ha : a.isRanged k = true) (hb : b.isRanged k = true) :
    MinMaxFilter.Or_DCHECK ext a b columnType = true := by
  simp only [MinMaxFilterPB.isRanged, Bool.and_eq_true, Bool.not_eq_true'] at ha hb
  obtain ⟨⟨⟨ha1, ha2⟩, ha3⟩, _⟩ := ha
  obtain ⟨⟨⟨hb1, hb2⟩, hb3⟩, _⟩ := hb
  have hsz : GetDecimalByteSize ext columnType.precision = 4
      ∨ GetDecimalByteSize ext columnType.precision = 8
      ∨ GetDecimalByteSize ext columnType.precision = 16 := by
    unfold GetDecimalByteSize DECIMAL_SIZE_4BYTE DECIMAL_SIZE_8BYTE DECIMAL_SIZE_16BYTE
    split_ifs <;> simp
  cases k <;>
    simp only [ColumnValuePB.ofKind, Bool.and_eq_true, beq_iff_eq, decide_eq_true_eq,
      reduceCtorEq, decide_False, decide_True] at ha3 hb3 <;>
    simp [MinMaxFilter.Or_DCHECK, DecimalMinMaxFilter.Or_DCHECK, DECIMAL_SIZE_4BYTE,
      DECIMAL_SIZE_8BYTE, DECIMAL_SIZE_16BYTE, ha1, ha2, hb1, hb2, ha3, hb3]
  rcases hsz with h | h | h <;> simp [h]

/-- Merging a ranged wire form of kind `k` into a Bottom without bounds: the
boolean, string, timestamp, date and decimal merges copy `in`; the byte, short,
int, long and double merges store `bool_val` and leave the field of kind `k`
absent. -/
theorem Or_into_bottom_by_kind (ext : ExternalCodecs) (columnType : ColumnType)
    (k : WireKind) (a : MinMaxFilterPB) (ha : a.isRanged k = true) :
    ((k.isNumeric = false ∨ k = .bool) →
        MinMaxFilter.Or ext a wire_bottom columnType = a)
      ∧ ((k.isNumeric = true ∧ k ≠ .bool) →
        (MinMaxFilter.Or ext a wire_bottom columnType).min.bool_val.isSome = true
          ∧ (MinMaxFilter.Or ext a wire_bottom columnType).min.ofKind k = false
          ∧ (MinMaxFilter.Or ext a wire_bottom columnType).max.ofKind k = false) := by
  have ha0 := ha
  simp only [MinMaxFilterPB.isRanged, Bool.and_eq_true, Bool.not_eq_true'] at ha0
  obtain ⟨⟨⟨ha1, ha2⟩, ha3⟩, ha4⟩ := ha0
  rw [Or_eq_kind_Or ext columnType k a wire_bottom ha1 ha2 rfl ha3]
  obtain ⟨af, at1, ⟨a1, a2, a3, a4, a5, a6, a7, a8, a9, a10⟩,
    ⟨c1, c2, c3, c4, c5, c6, c7, c8, c9, c10⟩⟩ := a
  simp only at ha1 ha2
  subst ha1 ha2
  cases k <;>
    simp only [ColumnValuePB.ofKind, Bool.and_eq_true, beq_iff_eq, decide_eq_true_eq,
      reduceCtorEq, decide_False, decide_True, Option.not_isSome, Option.isNone_iff_eq_none,
      Option.isSome_iff_exists] at ha3 ha4 <;>
    (casesm* _ ∧ _, ∃ _, _) <;> subst_vars <;>
    simp [kind_Or, BoolMinMaxFilter.Or, TinyIntMinMaxFilter.Or, SmallIntMinMaxFilter.Or,
      IntMinMaxFilter.Or, BigIntMinMaxFilter.Or, DoubleMinMaxFilter.Or, StringMinMaxFilter.Or,
      TimestampMinMaxFilter.Or, DateMinMaxFilter.Or, DecimalMinMaxFilter.Or,
      NumericMinMaxFilter.Or, DateTimeMinMaxFilter.Or, pb_bool, pb_byte, pb_short,
      pb_int, pb_long, pb_double, pb_timestamp, pb_date, WireKind.isNumeric, wire_bottom,
      ColumnValuePB.empty, ColumnValuePB.ofKind,
      ColumnValuePB.set_bool_val, ColumnValuePB.set_string_val,
      ColumnValuePB.set_timestamp_val, ColumnValuePB.set_decimal_val,
      ColumnValuePB.set_date_val]

/-! ## The merge on wire forms -/

/-- C1 (failing input): merging the INT range `[lo, hi]` into a Bottom wire
form does not leave `out` equal to `in`.  The bounds are stored with
`set_bool_val`: `out.min` and `out.max` get `bool_val` (here `true` for
`[3, 8]`), the field `int_val` stays absent, and the result differs from
`Ranged[3,8]`.  A debug build does not get that far: the `DCHECK` that `out`
has the field of `in` fails on a Bottom without bounds. -/
theorem Or_int_into_bottom_sets_bool_val (ext : ExternalCodecs) (columnType : ColumnType)
    (lo hi : Int) :
    MinMaxFilter.Or ext (int_ranged lo hi) wire_bottom columnType
        = ⟨false, false, ColumnValuePB.empty.set_bool_val (int_to_bool lo),
            ColumnValuePB.empty.set_bool_val (int_to_bool hi)⟩
      ∧ (MinMaxFilter.Or ext (int_ranged 3 8) wire_bottom columnType).min.bool_val = some true
      ∧ (MinMaxFilter.Or ext (int_ranged 3 8) wire_bottom columnType).min.int_val = none
      ∧ (MinMaxFilter.Or ext (int_ranged 3 8) wire_bottom columnType).max.int_val = none
      ∧ MinMaxFilter.Or ext (int_ranged 3 8) wire_bottom columnType ≠ int_ranged 3 8
      ∧ MinMaxFilter.Or_DCHECK ext (int_ranged 3 8) wire_bottom columnType = false := by
  refine ⟨rfl, rfl, rfl, rfl, ?_, rfl⟩
  intro h
  have h2 := congrArg (fun m => m.min.int_val) h
  simp [MinMaxFilter.Or, IntMinMaxFilter.Or, NumericMinMaxFilter.Or, int_ranged, wire_bottom,
    ColumnValuePB.empty, ColumnValuePB.set_int_val, ColumnValuePB.set_bool_val] at h2

/-- C2: for every kind `k` and ranged wire forms `a`, `b` of kind `k`, the
merge `MinMaxFilter::Or(in = a, out = b)` is again ranged of kind `k` (both
flags clear); its `min` is the `min` of one of the operands and no operand
`min` is below it, its `max` is the `max` of one of the operands and no operand
`max` is above it, in the order of kind `k`: it is `min(a.min, b.min)` and
`max(a.max, b.max)`.  Every `DCHECK` on the way holds.  The external orders
are only assumed asymmetric. -/
theorem Or_ranged_ranged (ext : ExternalCodecs) (hext : ext.Asymmetric)
    (columnType : ColumnType) (k : WireKind) (a b : MinMaxFilterPB)
    (ha : a.isRanged k = true) (hb : b.isRanged k = true) :
    MinMaxFilter.Or_DCHECK ext a b columnType = true
      ∧ (MinMaxFilter.Or ext a b columnType).isRanged k = true
      ∧ ((MinMaxFilter.Or ext a b columnType).min = a.min
          ∨ (MinMaxFilter.Or ext a b columnType).min = b.min)
      ∧ kind_lt ext columnType k a.min (MinMaxFilter.Or ext a b columnType).min = false
      ∧ kind_lt ext columnType k b.min (MinMaxFilter.Or ext a b columnType).min = false
      ∧ ((MinMaxFilter.Or ext a b columnType).max = a.max
          ∨ (MinMaxFilter.Or ext a b columnType).max = b.max)
      ∧ kind_lt ext columnType k (MinMaxFilter.Or ext a b columnType).max a.max = false
      ∧ kind_lt ext columnType k (MinMaxFilter.Or ext a b columnType).max b.max = false := by
  refine ⟨Or_DCHECK_ranged ext columnType k a b ha hb, ?_⟩
  have ha0 := ha
  have hb0 := hb
  simp only [MinMaxFilterPB.isRanged, Bool.and_eq_true, Bool.not_eq_true'] at ha0 hb0
  obtain ⟨⟨⟨ha1, ha2⟩, ha3⟩, ha4⟩ := ha0
  obtain ⟨⟨⟨hb1, hb2⟩, hb3⟩, hb4⟩ := hb0
  rw [Or_eq_kind_Or ext columnType k a b ha1 ha2 hb2 ha3, kind_Or_ranged ext columnType k a b ha hb]
  have asym := kind_lt_asymm ext hext columnType k
  have irr := kind_lt_irrefl ext hext columnType k
  refine ⟨?_, ?_, ?_, ?_, ?_, ?_, ?_⟩
  · simp only [MinMaxFilterPB.isRanged, Bool.not_false, Bool.and_self, Bool.true_and,
      Bool.and_eq_true]
    constructor <;> split_ifs <;> assumption
  all_goals
    dsimp only
    split_ifs with h1 h2 h2 <;>
      first
        | exact Or.inl rfl
        | exact Or.inr rfl
        | exact irr _
        | exact asym _ _ h2
        | exact Bool.eq_false_iff.mpr h2

/-- C2 (witness): `Or(Ranged[3,8], Ranged[1,5])` on INT wire forms. -/
theorem Or_ranged_ranged_witness :
    (int_ranged 3 8).isRanged .int = true ∧ (int_ranged 1 5).isRanged .int = true
      ∧ MinMaxFilter.Or ExternalCodecs.sample (int_ranged 3 8) (int_ranged 1 5)
          ⟨.TYPE_INT, 0, 0⟩ = int_ranged 1 8
      ∧ (MinMaxFilter.Or ExternalCodecs.sample (int_ranged 3 8) (int_ranged 1 5)
          ⟨.TYPE_INT, 0, 0⟩).isRanged .int = true :=
  ⟨by decide, by decide, by decide,
    (Or_ranged_ranged ExternalCodecs.sample sample_asymmetric ⟨.TYPE_INT, 0, 0⟩ .int
      (int_ranged 3 8) (int_ranged 1 5) (by decide) (by decide)).2.1⟩

/-- C3: Bottom is the identity of the wire-level merge: with `in` always_false,
`MinMaxFilter::Or(in, out)` leaves every field of `out` unchanged, whatever
`out` is (in particular every ranged `out` of any kind), and meets no `DCHECK`
that fails. -/
theorem Or_bottom_in (ext : ExternalCodecs) (columnType : ColumnType)
    (inp out : MinMaxFilterPB) (h : inp.always_false = true) :
    MinMaxFilter.Or ext inp out columnType = out
      ∧ MinMaxFilter.Or_DCHECK ext inp out columnType = true := by
  simp [MinMaxFilter.Or, MinMaxFilter.Or_DCHECK, h]

/-- C3 (witness): `Or(Ranged[3,8], Bottom)` on INT wire forms. -/
theorem Or_bottom_in_witness :
    wire_bottom.always_false = true
      ∧ MinMaxFilter.Or ExternalCodecs.sample wire_bottom (int_ranged 3 8) ⟨.TYPE_INT, 0, 0⟩
          = int_ranged 3 8 :=
  ⟨rfl,
    (Or_bottom_in ExternalCodecs.sample ⟨.TYPE_INT, 0, 0⟩ wire_bottom (int_ranged 3 8) rfl).1⟩

/-- C4: Top annihilates: for a wire form `f` with both flags clear (ranged)
and a Top wire form `t`, merging in either operand order leaves `out` in the
Top state (`always_true` set, `always_false` clear), and neither merge meets
a `DCHECK` that fails. -/
theorem Or_top_annihilates (ext : ExternalCodecs) (columnType : ColumnType)
    (f t : MinMaxFilterPB) (hf1 : f.always_false = false) (hf2 : f.always_true = false)
    (ht : t.isTop = true) :
    (MinMaxFilter.Or ext t f columnType).isTop = true
      ∧ (MinMaxFilter.Or ext f t columnType).isTop = true
      ∧ MinMaxFilter.Or_DCHECK ext t f columnType = true
      ∧ MinMaxFilter.Or_DCHECK ext f t columnType = true := by
  simp only [MinMaxFilterPB.isTop, Bool.and_eq_true, Bool.not_eq_true'] at ht
  obtain ⟨ht1, ht2⟩ := ht
  simp [MinMaxFilter.Or, MinMaxFilter.Or_DCHECK, MinMaxFilterPB.isTop, hf1, hf2, ht1, ht2]

/-- C4 (witness): `Ranged[3,8]` merged with Top, both ways. -/
theorem Or_top_annihilates_witness :
    (MinMaxFilter.Or ExternalCodecs.sample wire_top (int_ranged 3 8) ⟨.TYPE_INT, 0, 0⟩).isTop
        = true
      ∧ (MinMaxFilter.Or ExternalCodecs.sample (int_ranged 3 8) wire_top
          ⟨.TYPE_INT, 0, 0⟩).isTop = true :=
  have h := Or_top_annihilates ExternalCodecs.sample ⟨.TYPE_INT, 0, 0⟩ (int_ranged 3 8)
    wire_top rfl rfl rfl
  ⟨h.1, h.2.1⟩

/-- C5 (failing inputs): the wire-level merge is not commutative.  With an INT
range `[lo, hi]` and Bottom, `Or(in = Ranged, out = Bottom)` holds `bool_val`
bounds while `Or(in = Bottom, out = Ranged)` is the range itself; with Top and
Bottom, `Or(in = Top, out = Bottom)` has both flags set while
`Or(in = Bottom, out = Top)` is Top. -/
theorem Or_not_commutative (ext : ExternalCodecs) (columnType : ColumnType) (lo hi : Int) :
    (MinMaxFilter.Or ext (int_ranged lo hi) wire_bottom columnType).sameFilter
        (MinMaxFilter.Or ext wire_bottom (int_ranged lo hi) columnType) = false
      ∧ MinMaxFilter.Or ext wire_bottom (int_ranged lo hi) columnType = int_ranged lo hi
      ∧ (MinMaxFilter.Or ext wire_top wire_bottom columnType).sameFilter
          (MinMaxFilter.Or ext wire_bottom wire_top columnType) = false
      ∧ MinMaxFilter.Or ext wire_top wire_bottom columnType
          = ⟨true, true, ColumnValuePB.empty, ColumnValuePB.empty⟩
      ∧ MinMaxFilter.Or ext wire_bottom wire_top columnType = wire_top := by
  refine ⟨?_, rfl, rfl, rfl, rfl⟩
  simp [MinMaxFilter.Or, IntMinMaxFilter.Or, NumericMinMaxFilter.Or, int_ranged, wire_bottom,
    MinMaxFilterPB.sameFilter, ColumnValuePB.empty, ColumnValuePB.set_int_val,
    ColumnValuePB.set_bool_val]

/-- C6 (failing input): the wire-level merge is not associative on INT wire
forms Bottom, `[3,8]`, `[1,5]`.  Reading `Or(x, y)` as
`MinMaxFilter::Or(in = y, out = x)`: `Or(Or(Bottom,[3,8]),[1,5])` has
`int_val` bounds 0 and 5 next to `bool_val` bounds, `Or(Bottom,Or([3,8],[1,5]))`
has `bool_val` bounds only, and neither is `[1,8]`.  Reading `Or(x, y)` as
`MinMaxFilter::Or(in = x, out = y)` the two groupings of `[3,8]`, `[1,5]`,
Bottom differ as well. -/
theorem Or_not_associative (ext : ExternalCodecs) (columnType : ColumnType) :
    (MinMaxFilter.Or ext (int_ranged 1 5)
        (MinMaxFilter.Or ext (int_ranged 3 8) wire_bottom columnType) columnType).sameFilter
        (MinMaxFilter.Or ext
          (MinMaxFilter.Or ext (int_ranged 1 5) (int_ranged 3 8) columnType)
          wire_bottom columnType) = false
      ∧ MinMaxFilter.Or ext (int_ranged 1 5)
          (MinMaxFilter.Or ext (int_ranged 3 8) wire_bottom columnType) columnType
          = ⟨false, false, (ColumnValuePB.empty.set_bool_val true).set_int_val 0,
              (ColumnValuePB.empty.set_bool_val true).set_int_val 5⟩
      ∧ MinMaxFilter.Or ext
          (MinMaxFilter.Or ext (int_ranged 1 5) (int_ranged 3 8) columnType)
          wire_bottom columnType
          = ⟨false, false, ColumnValuePB.empty.set_bool_val true,
              ColumnValuePB.empty.set_bool_val true⟩
      ∧ (MinMaxFilter.Or ext
          (MinMaxFilter.Or ext (int_ranged 3 8) (int_ranged 1 5) columnType)
          wire_bottom columnType).sameFilter
          (MinMaxFilter.Or ext (int_ranged 3 8)
            (MinMaxFilter.Or ext (int_ranged 1 5) wire_bottom columnType) columnType)
          = false := by
  refine ⟨by rfl, by rfl, by rfl, by rfl⟩

/-- C7: the wire-level merge is idempotent: for every wire form `x` that is
Bottom, Top, or ranged of some kind, `MinMaxFilter::Or(in = x, out = x)`
leaves `out` equal to `x` in flags, `min` and `max`, and meets no `DCHECK`
that fails. -/
theorem Or_idempotent (ext : ExternalCodecs) (columnType : ColumnType) (x : MinMaxFilterPB)
    (h : x.always_false = true ∨ x.always_true = true ∨ ∃ k, x.isRanged k = true) :
    MinMaxFilter.Or ext x x columnType = x
      ∧ MinMaxFilter.Or_DCHECK ext x x columnType = true := by
  rcases h with h | h | ⟨k, h⟩
  · simp [MinMaxFilter.Or, MinMaxFilter.Or_DCHECK, h]
  · simp [MinMaxFilter.Or, MinMaxFilter.Or_DCHECK, h]
  · refine ⟨?_, Or_DCHECK_ranged ext columnType k x x h h⟩
    have h0 := h
    simp only [MinMaxFilterPB.isRanged, Bool.and_eq_true, Bool.not_eq_true'] at h0
    obtain ⟨⟨⟨h1, h2⟩, h3⟩, _⟩ := h0
    rw [Or_eq_kind_Or ext columnType k x x h1 h2 h2 h3, kind_Or_ranged ext columnType k x x h h]
    obtain ⟨af, at1, mn, mx⟩ := x
    simp only at h1 h2
    subst h1 h2
    simp

/-- C7 (witness): merging the INT range `[3,8]` with itself. -/
theorem Or_idempotent_witness :
    MinMaxFilter.Or ExternalCodecs.sample (int_ranged 3 8) (int_ranged 3 8) ⟨.TYPE_INT, 0, 0⟩
      = int_ranged 3 8 :=
  (Or_idempotent ExternalCodecs.sample ⟨.TYPE_INT, 0, 0⟩ (int_ranged 3 8)
    (Or.inr (Or.inr ⟨.int, by decide⟩))).1

/-- C8 (failing input): merging a Top `in` into a Bottom `out` sets
`always_true` and leaves `always_false` set: both flags are set afterwards,
whatever the bounds the two wire forms carry. -/
theorem Or_top_into_bottom_sets_both_flags (ext : ExternalCodecs) (columnType : ColumnType)
    (imin imax omin omax : ColumnValuePB) :
    MinMaxFilter.Or ext ⟨false, true, imin, imax⟩ ⟨true, false, omin, omax⟩ columnType
      = ⟨true, true, omin, omax⟩ := by
  rfl

/-- C9 (failing input): on INT filters `a` = Bottom and `b` = `[3,8]`, the
in-memory `a.Or(b)` serializes to `Ranged[3,8]` with `int_val` bounds, while
the wire-level `MinMaxFilter::Or(in = ToProtobuf(b), out = ToProtobuf(a))`
gives `bool_val` bounds and no `int_val`: the two wire forms differ. -/
theorem Or_other_differs_from_wire_Or (ext : ExternalCodecs) (columnType : ColumnType) :
    (MinMaxFilter.Or_other .Int (IntegerMinMaxFilter.bottom .Int) ⟨3, 8, false⟩).ToProtobuf
        .Int MinMaxFilterPB.empty = int_ranged 3 8
      ∧ MinMaxFilter.Or ext
          (IntegerMinMaxFilter.ToProtobuf .Int ⟨3, 8, false⟩ MinMaxFilterPB.empty)
          ((IntegerMinMaxFilter.bottom .Int).ToProtobuf .Int MinMaxFilterPB.empty) columnType
          = ⟨false, false, ColumnValuePB.empty.set_bool_val true,
              ColumnValuePB.empty.set_bool_val true⟩
      ∧ ((MinMaxFilter.Or_other .Int (IntegerMinMaxFilter.bottom .Int)
            ⟨3, 8, false⟩).ToProtobuf .Int MinMaxFilterPB.empty).sameFilter
          (MinMaxFilter.Or ext
            (IntegerMinMaxFilter.ToProtobuf .Int ⟨3, 8, false⟩ MinMaxFilterPB.empty)
            ((IntegerMinMaxFilter.bottom .Int).ToProtobuf .Int MinMaxFilterPB.empty)
            columnType) = false := by
  refine ⟨by decide, by rfl, by rfl⟩

/-- C10 (failing inputs): the wire-level merge does not always move upward.
With `in` = Top and `out` = Bottom the result is not Top although an operand
was Top.  With `in` = INT `[3,8]` and `out` = Bottom the result has both flags
clear but no `int_val`: its upper bound reads as 0, below the operand's 8, so
values the operand accepts are rejected. -/
theorem Or_not_upward (ext : ExternalCodecs) (columnType : ColumnType) :
    (MinMaxFilter.Or ext wire_top wire_bottom columnType).isTop = false
      ∧ (MinMaxFilter.Or ext wire_top wire_bottom columnType).always_false = true
      ∧ (MinMaxFilter.Or ext (int_ranged 3 8) wire_bottom columnType).always_false = false
      ∧ (MinMaxFilter.Or ext (int_ranged 3 8) wire_bottom columnType).always_true = false
      ∧ (MinMaxFilter.Or ext (int_ranged 3 8) wire_bottom columnType).max.int_val = none
      ∧ pb_int.val (MinMaxFilter.Or ext (int_ranged 3 8) wire_bottom columnType).max = 0
      ∧ pb_int.val (int_ranged 3 8).max = 8 := by
  refine ⟨by rfl, by rfl, by rfl, by rfl, by rfl, by rfl, by rfl⟩

/-! ## Integer filters against column statistics -/

theorem GetIntTypeMin_le_Max (t : ColumnType) : GetIntTypeMin t ≤ GetIntTypeMax t := by
  unfold GetIntTypeMin GetIntTypeMax
  split <;> norm_num

theorem GetIntTypeValue_of_isIntType (t : ColumnType) (h : t.isIntType = true) (v : Int) :
    GetIntTypeValue t v = v := by
  unfold GetIntTypeValue
  simp only [ColumnType.isIntType, Bool.or_eq_true, decide_eq_true_eq] at h
  rcases h with ((h | h) | h) | h <;> simp [h]

/-- C13: the cross-width cast clamps the bounds into the column kind.  For a
column kind different from the filter's kind, `GetCastIntMinMax` returns
`false` iff `min > T.max` or `max < T.min`, and otherwise returns `true` with
`out_min = max(min, T.min)` and `out_max = min(max, T.max)`; for the filter's
own kind it returns `true` with `out_min = min`, `out_max = max`. -/
theorem GetCastIntMinMax_spec (n : IntName) (f : IntegerMinMaxFilter) (col_type : ColumnType) :
    (n.PRIMITIVE_TYPE ≠ col_type.type →
        (f.GetCastIntMinMax n col_type = none ↔
            (f.min_ > GetIntTypeMax col_type ∨ f.max_ < GetIntTypeMin col_type))
          ∧ (¬ (f.min_ > GetIntTypeMax col_type ∨ f.max_ < GetIntTypeMin col_type) →
              f.GetCastIntMinMax n col_type
                = some (max f.min_ (GetIntTypeMin col_type),
                        min f.max_ (GetIntTypeMax col_type))))
      ∧ (n.PRIMITIVE_TYPE = col_type.type →
          f.GetCastIntMinMax n col_type = some (f.min_, f.max_)) := by
  have hle := GetIntTypeMin_le_Max col_type
  refine ⟨fun hne => ⟨?_, ?_⟩, fun heq => ?_⟩
  · simp only [IntegerMinMaxFilter.GetCastIntMinMax, hne, if_false]
    split_ifs <;> simp_all <;> omega
  · intro h
    simp only [IntegerMinMaxFilter.GetCastIntMinMax, hne, if_false]
    split_ifs <;> first | (simp <;> omega) | omega
  · simp [IntegerMinMaxFilter.GetCastIntMinMax, heq]

/-- C13 (witness): the 32-bit filter `[-1000, 50]` cast to an 8-bit column is
clamped to `[-128, 50]`; the filter `[200, 300]` is not castable. -/
theorem GetCastIntMinMax_spec_witness :
    IntegerMinMaxFilter.GetCastIntMinMax .Int ⟨-1000, 50, false⟩ ⟨.TYPE_TINYINT, 0, 0⟩
        = some (max (-1000) (GetIntTypeMin ⟨.TYPE_TINYINT, 0, 0⟩),
                min 50 (GetIntTypeMax ⟨.TYPE_TINYINT, 0, 0⟩))
      ∧ IntegerMinMaxFilter.GetCastIntMinMax .Int ⟨200, 300, false⟩ ⟨.TYPE_TINYINT, 0, 0⟩
          = none :=
  ⟨((GetCastIntMinMax_spec .Int ⟨-1000, 50, false⟩ ⟨.TYPE_TINYINT, 0, 0⟩).1
      (by decide)).2 (by decide),
    (((GetCastIntMinMax_spec .Int ⟨200, 300, false⟩ ⟨.TYPE_TINYINT, 0, 0⟩).1
      (by decide)).1).mpr (Or.inl (by decide))⟩

theorem GetIntTypeMax_of_type (n : IntName) (t : ColumnType)
    (h : n.PRIMITIVE_TYPE = t.type) :
    GetIntTypeMax t = n.type_max ∧ GetIntTypeMin t = n.type_lowest := by
  unfold GetIntTypeMax GetIntTypeMin
  cases n <;> simp only [IntName.PRIMITIVE_TYPE] at h <;> rw [← h] <;>
    simp [IntName.type_max, IntName.type_lowest, IntName.bits]

/-- C14: cast short-circuit.  For an integer filter (bounds representable in
its own kind) whose `min` is above the column kind's maximum or whose `max` is
below the column kind's minimum, `EvalOverlap` (with three and with five
arguments) returns `false` and `ComputeOverlapRatio` returns `0.0`, for every
`data_min` and `data_max`. -/
theorem cast_short_circuit (n : IntName) (f : IntegerMinMaxFilter) (col_type : ColumnType)
    (data_min data_max : Int)
    (hmin : n.holds f.min_ = true) (hmax : n.holds f.max_ = true)
    (h : f.min_ > GetIntTypeMax col_type ∨ f.max_ < GetIntTypeMin col_type) :
    f.EvalOverlap n col_type data_min data_max = false
      ∧ f.EvalOverlap64 n col_type data_min data_max = none
      ∧ f.ComputeOverlapRatio n col_type data_min data_max = OverlapRatio.zero := by
  simp only [IntName.holds, Bool.and_eq_true, decide_eq_true_eq] at hmin hmax
  have hne : n.PRIMITIVE_TYPE ≠ col_type.type := by
    intro heq
    have := GetIntTypeMax_of_type n col_type heq
    omega
  have hcast : f.GetCastIntMinMax n col_type = none :=
    ((GetCastIntMinMax_spec n f col_type).1 hne).1.mpr h
  have h64 : f.EvalOverlap64 n col_type data_min data_max = none := by
    simp [IntegerMinMaxFilter.EvalOverlap64, hcast]
  refine ⟨?_, h64, ?_⟩
  · simp [IntegerMinMaxFilter.EvalOverlap, hne, h64]
  · simp [IntegerMinMaxFilter.ComputeOverlapRatio, hne, h64]

/-- C14 (witness): a 32-bit filter with `min = 200` against an 8-bit column. -/
theorem cast_short_circuit_witness :
    IntegerMinMaxFilter.EvalOverlap .Int ⟨200, 300, false⟩ ⟨.TYPE_TINYINT, 0, 0⟩ (-1) 100 = false
      ∧ IntegerMinMaxFilter.EvalOverlap64 .Int ⟨200, 300, false⟩ ⟨.TYPE_TINYINT, 0, 0⟩ (-1) 100
          = none
      ∧ IntegerMinMaxFilter.ComputeOverlapRatio .Int ⟨200, 300, false⟩ ⟨.TYPE_TINYINT, 0, 0⟩
          (-1) 100 = OverlapRatio.zero :=
  cast_short_circuit .Int ⟨200, 300, false⟩ ⟨.TYPE_TINYINT, 0, 0⟩ (-1) 100
    (by decide) (by decide) (Or.inl (by decide))

theorem EvalOverlap64_isSome_iff (n : IntName) (f : IntegerMinMaxFilter)
    (col_type : ColumnType) (data_min data_max : Int)
    (hcol : col_type.isIntType = true)
    (hdmin : col_type.holds data_min = true) (hdmax : col_type.holds data_max = true) :
    (f.EvalOverlap64 n col_type data_min data_max).isSome = true
      ↔ ¬ (f.max_ < data_min ∨ data_max < f.min_) := by
  simp only [ColumnType.holds, Bool.and_eq_true, decide_eq_true_eq] at hdmin hdmax
  have hv1 := GetIntTypeValue_of_isIntType col_type hcol data_min
  have hv2 := GetIntTypeValue_of_isIntType col_type hcol data_max
  by_cases heq : n.PRIMITIVE_TYPE = col_type.type
  · simp only [IntegerMinMaxFilter.EvalOverlap64, IntegerMinMaxFilter.GetCastIntMinMax, heq,
      if_true, hv1, hv2]
    split_ifs <;> simp_all
  · simp only [IntegerMinMaxFilter.EvalOverlap64, IntegerMinMaxFilter.GetCastIntMinMax, heq,
      if_false, hv1, hv2]
    split_ifs <;> simp_all <;> omega

/-- C15: `EvalOverlap` decides range intersection exactly.  For a ranged
integer filter `[fmin, fmax]` with `fmin <= fmax`, an integer column kind
(the filter's own or another) and a data range `[data_min, data_max]` of that
kind with `data_min <= data_max`, `EvalOverlap` (with three and with five
arguments) returns `true` iff `!(fmax < data_min || data_max < fmin)`, that is,
iff some integer lies in both ranges. -/
theorem EvalOverlap_iff (n : IntName) (f : IntegerMinMaxFilter) (col_type : ColumnType)
    (data_min data_max : Int) (hcol : col_type.isIntType = true)
    (hdmin : col_type.holds data_min = true) (hdmax : col_type.holds data_max = true)
    (hf : f.min_ ≤ f.max_) (hd : data_min ≤ data_max) :
    (f.EvalOverlap n col_type data_min data_max = true
        ↔ ¬ (f.max_ < data_min ∨ data_max < f.min_))
      ∧ ((f.EvalOverlap64 n col_type data_min data_max).isSome = true
        ↔ ¬ (f.max_ < data_min ∨ data_max < f.min_))
      ∧ (f.EvalOverlap n col_type data_min data_max = true
        ↔ ∃ v : Int, f.min_ ≤ v ∧ v ≤ f.max_ ∧ data_min ≤ v ∧ v ≤ data_max) := by
  have h64 := EvalOverlap64_isSome_iff n f col_type data_min data_max hcol hdmin hdmax
  have h3 : f.EvalOverlap n col_type data_min data_max = true
      ↔ ¬ (f.max_ < data_min ∨ data_max < f.min_) := by
    by_cases heq : n.PRIMITIVE_TYPE = col_type.type
    · simp [IntegerMinMaxFilter.EvalOverlap, heq]
    · simpa [IntegerMinMaxFilter.EvalOverlap, heq] using h64
  refine ⟨h3, h64, h3.trans ⟨fun h => ?_, fun ⟨v, h1, h2, h3, h4⟩ => by omega⟩⟩
  refine ⟨max f.min_ data_min, ?_, ?_, ?_, ?_⟩ <;> omega

/-- C15 (witness): the filter `[5,10]` against `[7,20]` and against `[20,30]`. -/
theorem EvalOverlap_iff_witness :
    IntegerMinMaxFilter.EvalOverlap .Int ⟨5, 10, false⟩ ⟨.TYPE_INT, 0, 0⟩ 7 20 = true
      ∧ IntegerMinMaxFilter.EvalOverlap .Int ⟨5, 10, false⟩ ⟨.TYPE_INT, 0, 0⟩ 20 30 = false
      ∧ (IntegerMinMaxFilter.EvalOverlap .Int ⟨5, 10, false⟩ ⟨.TYPE_BIGINT, 0, 0⟩ 7 20 = true
          ↔ ¬ ((10 : Int) < 7 ∨ (20 : Int) < 5)) :=
  ⟨by decide, by decide,
    (EvalOverlap_iff .Int ⟨5, 10, false⟩ ⟨.TYPE_BIGINT, 0, 0⟩ 7 20 (by decide) (by decide)
      (by decide) (by decide) (by decide)).1⟩

/-- C17 (counterexample): an 8-bit filter deserialized from an `always_false`
wire form is Bottom, yet `EvalOverlap` returns `true` against the 8-bit data
range `[-128, 127]` and against the 32-bit data range `[-1000, 1000]`. -/
theorem bottom_EvalOverlap_true :
    (IntegerMinMaxFilter.ofProtobuf .TinyInt 0 0 wire_bottom).AlwaysFalse .TinyInt = true
      ∧ (IntegerMinMaxFilter.ofProtobuf .TinyInt 0 0 wire_bottom).EvalOverlap .TinyInt
          ⟨.TYPE_TINYINT, 0, 0⟩ (-128) 127 = true
      ∧ (IntegerMinMaxFilter.ofProtobuf .TinyInt 0 0 wire_bottom).EvalOverlap .TinyInt
          ⟨.TYPE_INT, 0, 0⟩ (-1000) 1000 = true := by
  decide

/-- C17 (amended): for an integer filter deserialized from an `always_false`
wire form (`min` = the kind's maximum, `max` = the kind's lowest value) and a
data range of an integer column kind, `EvalOverlap` returns `true` exactly when
`data_min <=` the filter kind's lowest value and the filter kind's maximum
value `<= data_max`, and `false` for every other data range. -/
theorem bottom_EvalOverlap (n : IntName) (init_min init_max : Int)
    (protobuf : MinMaxFilterPB) (col_type : ColumnType) (data_min data_max : Int)
    (hpb : protobuf.always_false = true) (hcol : col_type.isIntType = true)
    (hdmin : col_type.holds data_min = true) (hdmax : col_type.holds data_max = true) :
    (IntegerMinMaxFilter.ofProtobuf n init_min init_max protobuf).EvalOverlap n col_type
        data_min data_max
      = decide (data_min ≤ n.type_lowest ∧ n.type_max ≤ data_max) := by
  have hf : IntegerMinMaxFilter.ofProtobuf n init_min init_max protobuf
      = ⟨n.type_max, n.type_lowest, false⟩ := by
    simp [IntegerMinMaxFilter.ofProtobuf, hpb]
  rw [hf]
  have h64 := EvalOverlap64_isSome_iff n ⟨n.type_max, n.type_lowest, false⟩ col_type
    data_min data_max hcol hdmin hdmax
  by_cases heq : n.PRIMITIVE_TYPE = col_type.type
  · simp only [IntegerMinMaxFilter.EvalOverlap, heq, if_true]
    by_cases h1 : n.type_lowest < data_min <;> by_cases h2 : data_max < n.type_max <;>
      first | (simp [h1, h2]; done) | (simp [h1, h2]; omega)
  · simp only [IntegerMinMaxFilter.EvalOverlap, heq, if_false]
    rw [Bool.eq_iff_iff, h64]
    simp only [decide_eq_true_eq]
    constructor <;> intro h <;> omega

/-- C17 (witness): the 8-bit Bottom filter against `[-100, 100]` of a 32-bit
column. -/
theorem bottom_EvalOverlap_witness :
    (IntegerMinMaxFilter.ofProtobuf .TinyInt 0 0 wire_bottom).EvalOverlap .TinyInt
        ⟨.TYPE_INT, 0, 0⟩ (-100) 100
      = decide ((-100 : Int) ≤ IntName.type_lowest .TinyInt
          ∧ IntName.type_max .TinyInt ≤ (100 : Int)) :=
  bottom_EvalOverlap .TinyInt 0 0 wire_bottom ⟨.TYPE_INT, 0, 0⟩ (-100) 100 rfl
    (by decide) (by decide) (by decide)

theorem wrap_eq_self (w : Nat) (hw : 0 < w) (x : Int)
    (h1 : -(2 ^ (w - 1)) ≤ x) (h2 : x < 2 ^ (w - 1)) : wrap w x = x := by
  have hp : (2 : Int) ^ w = 2 * 2 ^ (w - 1) := by
    obtain ⟨k, rfl⟩ : ∃ k, w = k + 1 := ⟨w - 1, by omega⟩
    simp [pow_succ, mul_comm]
  unfold wrap
  rw [Int.emod_eq_of_lt (by omega) (by omega)]
  omega

theorem span_eq (w : Nat) (hw : 0 < w) (a b : Int)
    (h1 : 0 ≤ a - b) (h2 : a - b + 1 < 2 ^ (w - 1)) : span w a b = a - b + 1 := by
  have hpos : (0 : Int) < 2 ^ (w - 1) := by positivity
  unfold span
  rw [wrap_eq_self w hw (a - b) (by omega) (by omega)]
  exact wrap_eq_self w hw _ (by omega) h2

theorem std_max_int (a b : Int) : std_max int_lt a b = max a b := by
  unfold std_max int_lt
  by_cases h : a < b
  · simp [h, max_eq_right (le_of_lt h)]
  · simp [h, max_eq_left (not_lt.mp h)]

theorem std_min_int (a b : Int) : std_min int_lt a b = min a b := by
  unfold std_min int_lt
  by_cases h : b < a
  · simp [h, min_eq_right (le_of_lt h)]
  · simp [h, min_eq_left (not_lt.mp h)]

theorem arith_bits_pos (n : IntName) (col_type : ColumnType) :
    0 < n.ratio_bits col_type := by
  unfold IntName.ratio_bits IntName.arith_bits
  split_ifs <;> cases n <;> simp

/-- The ratio formula, where the width of the data range fits the arithmetic:
for overlapping ranges that the filter does not cover, `ComputeOverlapRatio` is
`(min(dmax, fmax) - max(dmin, fmin) + 1) / (dmax - dmin + 1)` on the same-kind
path. -/
theorem ComputeOverlapRatio_same_kind (n : IntName) (f : IntegerMinMaxFilter)
    (col_type : ColumnType) (data_min data_max : Int)
    (heq : n.PRIMITIVE_TYPE = col_type.type)
    (hov : f.EvalOverlap n col_type data_min data_max = true)
    (hcov : ¬ (f.min_ ≤ data_min ∧ data_max ≤ f.max_))
    (hf : f.min_ ≤ f.max_) (hd : data_min ≤ data_max)
    (hfit : data_max - data_min + 1 < 2 ^ (n.arith_bits - 1)) :
    f.ComputeOverlapRatio n col_type data_min data_max
      = ⟨min data_max f.max_ - max data_min f.min_ + 1, data_max - data_min + 1⟩ := by
  have hw : 0 < n.arith_bits := by cases n <;> simp [IntName.arith_bits]
  have hov2 := hov
  simp only [IntegerMinMaxFilter.EvalOverlap, heq, if_true, Bool.not_eq_true',
    Bool.or_eq_false_iff, decide_eq_false_iff_not] at hov2
  simp only [IntegerMinMaxFilter.ComputeOverlapRatio, heq, if_true, hov, hcov, if_false,
    std_max_int, std_min_int]
  rw [span_eq _ hw _ _ (by omega) hfit]
  rw [span_eq _ hw _ _ (by
    rcases min_cases data_max f.max_ with ⟨h1, _⟩ | ⟨h1, _⟩ <;>
      rcases max_cases data_min f.min_ with ⟨h2, _⟩ | ⟨h2, _⟩ <;> omega) (by
    rcases min_cases data_max f.max_ with ⟨h1, _⟩ | ⟨h1, _⟩ <;>
      rcases max_cases data_min f.min_ with ⟨h2, _⟩ | ⟨h2, _⟩ <;> omega)]

/-- C19 (failing input): the 32-bit filter `[0,9]` against the 32-bit data
range `[-2^31, 2^31 - 1]`.  The ranges overlap and the filter does not cover
the data range, so the exact quotient is `10 / 2^32`; the divisor
`data_max - data_min + 1` is computed in `int`, overflows and wraps to 0, and
the function divides 10 by 0.  Against `[5,14]` the same filter gives
`5 / 10`. -/
theorem ComputeOverlapRatio_int_overflow :
    IntegerMinMaxFilter.EvalOverlap .Int ⟨0, 9, false⟩ ⟨.TYPE_INT, 0, 0⟩
        (-(2 ^ 31)) (2 ^ 31 - 1) = true
      ∧ ¬ ((0 : Int) ≤ -(2 ^ 31) ∧ (2 ^ 31 - 1 : Int) ≤ 9)
      ∧ IntegerMinMaxFilter.ComputeOverlapRatio .Int ⟨0, 9, false⟩ ⟨.TYPE_INT, 0, 0⟩
          (-(2 ^ 31)) (2 ^ 31 - 1) = ⟨10, 0⟩
      ∧ (min (2 ^ 31 - 1 : Int) 9 - max (-(2 ^ 31) : Int) 0 + 1 = 10
          ∧ ((2 ^ 31 - 1 : Int) - (-(2 ^ 31)) + 1 = 4294967296))
      ∧ IntegerMinMaxFilter.ComputeOverlapRatio .Int ⟨0, 9, false⟩ ⟨.TYPE_INT, 0, 0⟩ 5 14
          = ⟨5, 10⟩ := by
  decide

theorem ratio_value_unit (r : OverlapRatio) (h1 : 0 < r.den) (h2 : 0 ≤ r.num)
    (h3 : r.num ≤ r.den) : 0 ≤ r.value ∧ r.value ≤ 1 := by
  have hd : (0 : ℚ) < (r.den : ℚ) := by exact_mod_cast h1
  have hn : (0 : ℚ) ≤ (r.num : ℚ) := by exact_mod_cast h2
  have hle : (r.num : ℚ) ≤ (r.den : ℚ) := by exact_mod_cast h3
  unfold OverlapRatio.value
  exact ⟨div_nonneg hn hd.le, (div_le_one hd).mpr hle⟩

/-- The ratio of the integer filters lies in `[0, 1]` whenever the width of the
data range fits the arithmetic of the path taken. -/
theorem int_ratio_bounds (n : IntName) (f : IntegerMinMaxFilter)
    (col_type : ColumnType) (data_min data_max : Int)
    (hcol : col_type.isIntType = true)
    (hf : f.min_ ≤ f.max_) (hd : data_min ≤ data_max)
    (hfit : data_max - data_min + 1 < 2 ^ (n.ratio_bits col_type - 1)) :
    0 < (f.ComputeOverlapRatio n col_type data_min data_max).den
      ∧ 0 ≤ (f.ComputeOverlapRatio n col_type data_min data_max).num
      ∧ (f.ComputeOverlapRatio n col_type data_min data_max).num
          ≤ (f.ComputeOverlapRatio n col_type data_min data_max).den := by
  have hv1 := GetIntTypeValue_of_isIntType col_type hcol data_min
  have hv2 := GetIntTypeValue_of_isIntType col_type hcol data_max
  by_cases heq : n.PRIMITIVE_TYPE = col_type.type
  · simp only [IntName.ratio_bits, heq, if_true] at hfit
    by_cases hov : f.EvalOverlap n col_type data_min data_max = true
    · by_cases hcov : f.min_ ≤ data_min ∧ data_max ≤ f.max_
      · simp [IntegerMinMaxFilter.ComputeOverlapRatio, heq, hov, hcov, OverlapRatio.one]
      · rw [ComputeOverlapRatio_same_kind n f col_type data_min data_max heq hov hcov hf hd
          hfit]
        simp only [IntegerMinMaxFilter.EvalOverlap, heq, if_true, Bool.not_eq_true',
          Bool.or_eq_false_iff, decide_eq_false_iff_not] at hov
        rcases min_cases data_max f.max_ with ⟨h1, _⟩ | ⟨h1, _⟩ <;>
          rcases max_cases data_min f.min_ with ⟨h2, _⟩ | ⟨h2, _⟩ <;>
          simp only [h1, h2] <;> omega
    · simp [IntegerMinMaxFilter.ComputeOverlapRatio, heq, hov, OverlapRatio.zero]
  · simp only [IntName.ratio_bits, heq, if_false] at hfit
    have hle := GetIntTypeMin_le_Max col_type
    cases h64 : f.EvalOverlap64 n col_type data_min data_max with
    | none => simp [IntegerMinMaxFilter.ComputeOverlapRatio, heq, h64, OverlapRatio.zero]
    | some ab =>
      obtain ⟨a, b⟩ := ab
      have hab : (a = max f.min_ (GetIntTypeMin col_type)
          ∧ b = min f.max_ (GetIntTypeMax col_type))
          ∧ ¬ (b < data_min) ∧ ¬ (data_max < a)
          ∧ ¬ (f.min_ > GetIntTypeMax col_type ∨ f.max_ < GetIntTypeMin col_type) := by
        have hs := ((GetCastIntMinMax_spec n f col_type).1 heq).2
        simp only [IntegerMinMaxFilter.EvalOverlap64, hv1, hv2] at h64
        cases hc : f.GetCastIntMinMax n col_type with
        | none => simp [hc] at h64
        | some cd =>
          obtain ⟨c, d⟩ := cd
          simp only [hc] at h64
          have hnot : ¬ (f.min_ > GetIntTypeMax col_type ∨ f.max_ < GetIntTypeMin col_type) := by
            intro hsc
            have := (((GetCastIntMinMax_spec n f col_type).1 heq).1).mpr hsc
            simp [hc] at this
          have hcd := hs hnot
          rw [hc] at hcd
          simp only [Option.some.injEq, Prod.mk.injEq] at hcd
          split_ifs at h64 with hcond
          simp only [Option.some.injEq, Prod.mk.injEq] at h64
          simp only [Bool.not_eq_true', Bool.or_eq_false_iff, decide_eq_false_iff_not] at hcond
          obtain ⟨rfl, rfl⟩ := h64
          exact ⟨hcd, hcond.1, hcond.2, hnot⟩
      obtain ⟨⟨ha, hb⟩, hb1, ha1, hnot⟩ := hab
      by_cases hcov : a ≤ data_min ∧ data_max ≤ b
      · simp [IntegerMinMaxFilter.ComputeOverlapRatio, heq, h64, hv1, hv2, hcov,
          OverlapRatio.one]
      · have hlo : a ≤ b := by
          rcases max_cases f.min_ (GetIntTypeMin col_type) with ⟨h1, _⟩ | ⟨h1, _⟩ <;>
            rcases min_cases f.max_ (GetIntTypeMax col_type) with ⟨h2, _⟩ | ⟨h2, _⟩ <;> omega
        simp only [IntegerMinMaxFilter.ComputeOverlapRatio, heq, if_false, h64, hv1, hv2, hcov,
          std_max_int, std_min_int]
        rw [span_eq 64 (by norm_num) _ _ (by omega) hfit]
        rw [span_eq 64 (by norm_num) _ _ (by
          rcases min_cases data_max b with ⟨h1, _⟩ | ⟨h1, _⟩ <;>
            rcases max_cases data_min a with ⟨h2, _⟩ | ⟨h2, _⟩ <;> omega) (by
          rcases min_cases data_max b with ⟨h1, _⟩ | ⟨h1, _⟩ <;>
            rcases max_cases data_min a with ⟨h2, _⟩ | ⟨h2, _⟩ <;> omega)]
        rcases min_cases data_max b with ⟨h1, _⟩ | ⟨h1, _⟩ <;>
          rcases max_cases data_min a with ⟨h2, _⟩ | ⟨h2, _⟩ <;>
          simp only [h1, h2] <;> omega

/-- The ratio of the date filter lies in `[0, 1]` when the two ranges overlap
and the width of the data range fits `int32_t`. -/
theorem date_ratio_bounds (g : DateMinMaxFilter) (data_min data_max : Int)
    (hg : g.min_ ≤ g.max_) (hd : data_min ≤ data_max)
    (hov : g.EvalOverlap data_min data_max = true)
    (hfit : data_max - data_min + 1 < 2 ^ 31) :
    0 < (g.ComputeOverlapRatio data_min data_max).den
      ∧ 0 ≤ (g.ComputeOverlapRatio data_min data_max).num
      ∧ (g.ComputeOverlapRatio data_min data_max).num
          ≤ (g.ComputeOverlapRatio data_min data_max).den := by
  simp only [DateMinMaxFilter.EvalOverlap, Bool.not_eq_true', Bool.or_eq_false_iff,
    decide_eq_false_iff_not] at hov
  by_cases hcov : g.min_ ≤ data_min ∧ data_max ≤ g.max_
  · simp [DateMinMaxFilter.ComputeOverlapRatio, hcov, OverlapRatio.one]
  · simp only [DateMinMaxFilter.ComputeOverlapRatio, hcov, if_false, std_max_int, std_min_int]
    rw [span_eq 32 (by norm_num) _ _ (by omega) (by simpa using hfit)]
    rw [span_eq 32 (by norm_num) _ _ (by
      rcases min_cases g.max_ data_max with ⟨h1, _⟩ | ⟨h1, _⟩ <;>
        rcases max_cases g.min_ data_min with ⟨h2, _⟩ | ⟨h2, _⟩ <;> omega) (by
      have hfit2 : data_max - data_min + 1 < 2 ^ (32 - 1) := by simpa using hfit
      rcases min_cases g.max_ data_max with ⟨h1, _⟩ | ⟨h1, _⟩ <;>
        rcases max_cases g.min_ data_min with ⟨h2, _⟩ | ⟨h2, _⟩ <;> omega)]
    rcases min_cases g.max_ data_max with ⟨h1, _⟩ | ⟨h1, _⟩ <;>
      rcases max_cases g.min_ data_min with ⟨h2, _⟩ | ⟨h2, _⟩ <;>
      simp only [h1, h2] <;> omega

/-- C20 (counterexample): the date filter `[0,1]` against the data range
`[10,20]` (no overlap) gives `-8 / 11`, below 0; the 32-bit filter `[0,9]`
against the 32-bit data range `[-2^31, 2^31 - 1]` gives the divisor 0. -/
theorem ComputeOverlapRatio_outside_unit_interval :
    DateMinMaxFilter.ComputeOverlapRatio ⟨0, 1, false, false⟩ 10 20 = ⟨-8, 11⟩
      ∧ (DateMinMaxFilter.ComputeOverlapRatio ⟨0, 1, false, false⟩ 10 20).value < 0
      ∧ (IntegerMinMaxFilter.ComputeOverlapRatio .Int ⟨0, 9, false⟩ ⟨.TYPE_INT, 0, 0⟩
          (-(2 ^ 31)) (2 ^ 31 - 1)).den = 0 := by
  have h : DateMinMaxFilter.ComputeOverlapRatio ⟨0, 1, false, false⟩ 10 20 = ⟨-8, 11⟩ := by
    decide
  refine ⟨h, ?_, by decide⟩
  rw [h]
  norm_num [OverlapRatio.value]

/-- C20 (amended): the overlap ratio is a fraction in `[0, 1]`, with a positive
divisor and a non-negative numerator, (a) for every integer-kind filter
`[fmin, fmax]`, `fmin <= fmax`, and data range `[dmin, dmax]`, `dmin <= dmax`,
of an integer column kind, overlapping or not, provided the width
`dmax - dmin + 1` fits the arithmetic of the path taken (32 bits for a same-kind
8-, 16- or 32-bit column, 64 bits otherwise); (b) for every date filter and
data range that overlap, provided the width fits 32 bits. -/
theorem ComputeOverlapRatio_unit_interval
    (n : IntName) (f : IntegerMinMaxFilter) (col_type : ColumnType) (data_min data_max : Int)
    (hcol : col_type.isIntType = true)
    (hf : f.min_ ≤ f.max_) (hd : data_min ≤ data_max)
    (hfit : data_max - data_min + 1 < 2 ^ (n.ratio_bits col_type - 1))
    (g : DateMinMaxFilter) (date_min date_max : Int)
    (hg : g.min_ ≤ g.max_) (hdd : date_min ≤ date_max)
    (hov : g.EvalOverlap date_min date_max = true)
    (hfit32 : date_max - date_min + 1 < 2 ^ 31) :
    (0 < (f.ComputeOverlapRatio n col_type data_min data_max).den
        ∧ 0 ≤ (f.ComputeOverlapRatio n col_type data_min data_max).num
        ∧ 0 ≤ (f.ComputeOverlapRatio n col_type data_min data_max).value
        ∧ (f.ComputeOverlapRatio n col_type data_min data_max).value ≤ 1)
      ∧ (0 < (g.ComputeOverlapRatio date_min date_max).den
        ∧ 0 ≤ (g.ComputeOverlapRatio date_min date_max).num
        ∧ 0 ≤ (g.ComputeOverlapRatio date_min date_max).value
        ∧ (g.ComputeOverlapRatio date_min date_max).value ≤ 1) := by
  obtain ⟨a1, a2, a3⟩ :=
    int_ratio_bounds n f col_type data_min data_max hcol hf hd hfit
  obtain ⟨b1, b2, b3⟩ := date_ratio_bounds g date_min date_max hg hdd hov hfit32
  exact ⟨⟨a1, a2, ratio_value_unit _ a1 a2 a3⟩, ⟨b1, b2, ratio_value_unit _ b1 b2 b3⟩⟩

/-- C20 (witness): the 32-bit filter `[0,9]` against `[5,14]`, and the date
filter `[0,9]` against `[5,14]`. -/
theorem ComputeOverlapRatio_unit_interval_witness :
    (0 < (IntegerMinMaxFilter.ComputeOverlapRatio .Int ⟨0, 9, false⟩ ⟨.TYPE_INT, 0, 0⟩
          5 14).den
        ∧ 0 ≤ (IntegerMinMaxFilter.ComputeOverlapRatio .Int ⟨0, 9, false⟩ ⟨.TYPE_INT, 0, 0⟩
          5 14).num
        ∧ 0 ≤ (IntegerMinMaxFilter.ComputeOverlapRatio .Int ⟨0, 9, false⟩ ⟨.TYPE_INT, 0, 0⟩
          5 14).value
        ∧ (IntegerMinMaxFilter.ComputeOverlapRatio .Int ⟨0, 9, false⟩ ⟨.TYPE_INT, 0, 0⟩
          5 14).value ≤ 1)
      ∧ (0 < (DateMinMaxFilter.ComputeOverlapRatio ⟨0, 9, false, false⟩ 5 14).den
        ∧ 0 ≤ (DateMinMaxFilter.ComputeOverlapRatio ⟨0, 9, false, false⟩ 5 14).num
        ∧ 0 ≤ (DateMinMaxFilter.ComputeOverlapRatio ⟨0, 9, false, false⟩ 5 14).value
        ∧ (DateMinMaxFilter.ComputeOverlapRatio ⟨0, 9, false, false⟩ 5 14).value ≤ 1) :=
  ComputeOverlapRatio_unit_interval .Int ⟨0, 9, false⟩ ⟨.TYPE_INT, 0, 0⟩ 5 14 (by decide)
    (by decide) (by decide) (by decide) ⟨0, 9, false, false⟩ 5 14 (by decide) (by decide)
    (by decide) (by decide)

/-! ## Deserialization and round trips -/

/-- C12 (counterexample): the 32-bit wire form with both flags clear,
`min = 8` and `max = 3` passes every `DCHECK` of the constructor and is
deserialized to a filter with `min_ = 8 > max_ = 3` that is neither
`always_false` nor `always_true`. -/
theorem ofProtobuf_min_above_max :
    IntegerMinMaxFilter.ofProtobuf_DCHECK .Int (int_ranged 8 3) = true
      ∧ IntegerMinMaxFilter.ofProtobuf .Int 0 0 (int_ranged 8 3) = ⟨8, 3, false⟩
      ∧ (IntegerMinMaxFilter.ofProtobuf .Int 0 0 (int_ranged 8 3)).AlwaysFalse .Int = false
      ∧ (IntegerMinMaxFilter.ofProtobuf .Int 0 0 (int_ranged 8 3)).AlwaysTrue = false
      ∧ ¬ ((IntegerMinMaxFilter.ofProtobuf .Int 0 0 (int_ranged 8 3)).min_
            ≤ (IntegerMinMaxFilter.ofProtobuf .Int 0 0 (int_ranged 8 3)).max_) := by
  decide

/-- C12 (amended): deserializing a ranged wire form asserts only that `min`
and `max` carry the typed field of the kind; it does not compare them.  The
constructor returns the filter holding the decoded `min` and `max` (the wire
values stored into `TYPE`) as they are, with `always_true` clear. -/
theorem ofProtobuf_ranged (n : IntName) (init_min init_max : Int) (protobuf : MinMaxFilterPB)
    (hr : protobuf.isRanged n.wire_kind = true) :
    IntegerMinMaxFilter.ofProtobuf_DCHECK n protobuf = true
      ∧ IntegerMinMaxFilter.ofProtobuf n init_min init_max protobuf
          = ⟨wrap n.bits (n.PROTOBUF_TYPE.val protobuf.min),
              wrap n.bits (n.PROTOBUF_TYPE.val protobuf.max), false⟩ := by
  simp only [MinMaxFilterPB.isRanged, Bool.and_eq_true, Bool.not_eq_true'] at hr
  obtain ⟨⟨⟨h1, h2⟩, h3⟩, h4⟩ := hr
  have hhas : n.PROTOBUF_TYPE.has protobuf.min = true
      ∧ n.PROTOBUF_TYPE.has protobuf.max = true := by
    cases n <;>
      simp only [IntName.wire_kind, ColumnValuePB.ofKind, Bool.and_eq_true, beq_iff_eq,
        decide_eq_true_eq, reduceCtorEq, decide_False, decide_True] at h3 h4 <;>
      simp [IntName.PROTOBUF_TYPE, pb_byte, pb_short, pb_int, pb_long, h3, h4]
  simp [IntegerMinMaxFilter.ofProtobuf_DCHECK, IntegerMinMaxFilter.ofProtobuf, h1, h2, hhas]

/-- C12 (witness): the wire form `Ranged[8,3]` of a 32-bit filter. -/
theorem ofProtobuf_ranged_witness :
    IntegerMinMaxFilter.ofProtobuf_DCHECK .Int (int_ranged 8 3) = true
      ∧ IntegerMinMaxFilter.ofProtobuf .Int 0 0 (int_ranged 8 3)
          = ⟨wrap 32 8, wrap 32 3, false⟩ :=
  ofProtobuf_ranged .Int 0 0 (int_ranged 8 3) (by decide)

/-! ## Overlap and the two flags -/

theorem StringValue.lt_nil_right (a : Bytes) : StringValue.lt a [] = false := by
  cases a <;> simp [StringValue.lt]

theorem StringValue.nil_lt (a : Bytes) : StringValue.lt [] a = !a.isEmpty := by
  cases a <;> simp [StringValue.lt]

/-- C16 (counterexample): the string filter `["a","b"]` forced to Top by
`SetAlwaysTrue` is `always_true`, and `EvalOverlap` returns `false` for the
data range `["a","b"]`. -/
theorem top_string_EvalOverlap_false :
    (StringMinMaxFilter.SetAlwaysTrue ⟨[97], [98], [], [], false, false⟩).always_true_ = true
      ∧ (StringMinMaxFilter.SetAlwaysTrue ⟨[97], [98], [], [], false, false⟩).EvalOverlap
          [97] [98] = false := by
  decide

/-- C16 (amended): `EvalOverlap` does not read the flags; it compares the data
range with the stored bounds.  A string filter forced to Top by
`SetAlwaysTrue` is `always_true` with empty `min` and `max`, and its
`EvalOverlap` returns `true` exactly when `data_min` is the empty string,
whatever `data_max` is.  The answer of a string or an integer filter is the
same whatever its flags are. -/
theorem EvalOverlap_ignores_flags (f : StringMinMaxFilter) (data_min data_max : Bytes)
    (af at1 : Bool) (n : IntName) (g : IntegerMinMaxFilter) (col_type : ColumnType)
    (dmin dmax : Int) :
    (f.SetAlwaysTrue.always_true_ = true ∧ f.SetAlwaysTrue.always_false_ = false
        ∧ f.SetAlwaysTrue.min_ = [] ∧ f.SetAlwaysTrue.max_ = [])
      ∧ f.SetAlwaysTrue.EvalOverlap data_min data_max = data_min.isEmpty
      ∧ StringMinMaxFilter.EvalOverlap { f with always_false_ := af, always_true_ := at1 }
          data_min data_max = f.EvalOverlap data_min data_max
      ∧ IntegerMinMaxFilter.EvalOverlap n { g with always_true_ := at1 } col_type dmin dmax
          = g.EvalOverlap n col_type dmin dmax := by
  refine ⟨⟨rfl, rfl, rfl, rfl⟩, ?_, rfl, rfl⟩
  simp [StringMinMaxFilter.EvalOverlap, StringMinMaxFilter.SetAlwaysTrue,
    StringValue.lt_nil_right, StringValue.nil_lt]

/-- C18 (counterexample): on the string filter forced to Top by
`SetAlwaysTrue`, `Insert("a")` changes nothing and `EvalOverlap(["a","a"])`
returns `false`. -/
theorem Insert_top_then_no_overlap :
    (StringMinMaxFilter.SetAlwaysTrue ⟨[], [], [], [], true, false⟩).always_true_ = true
      ∧ (StringMinMaxFilter.SetAlwaysTrue ⟨[], [], [], [], true, false⟩).Insert (some [97])
          = StringMinMaxFilter.SetAlwaysTrue ⟨[], [], [], [], true, false⟩
      ∧ ((StringMinMaxFilter.SetAlwaysTrue ⟨[], [], [], [], true, false⟩).Insert
          (some [97])).EvalOverlap [97] [97] = false := by
  decide

/-- C18 (amended): Insert monotonicity for every filter that is not
`always_true` (Bottom or ranged) and every non-null value `v`: after
`Insert(v)`, `EvalOverlap([v, v])` against a column of the same kind returns
`true`; `Insert` of a null value leaves the filter unchanged.  Stated for the
integer filters, for the string filter, and for the value lattice of the spec
over any kind whose `<` is asymmetric. -/
theorem Insert_then_overlap (n : IntName) (f : IntegerMinMaxFilter) (v precision scale : Int)
    (hf : f.AlwaysTrue = false)
    (g : StringMinMaxFilter) (w : Bytes) (hg : g.always_true_ = false)
    {α : Type} (lt : α → α → Bool) (hlt : ∀ a b, lt a b = true → lt b a = false)
    (l : ValueLattice α) (x : α) (hl : l.always_true = false) :
    ((f.Insert n (some v)).EvalOverlap n ⟨n.PRIMITIVE_TYPE, precision, scale⟩ v v = true
        ∧ f.Insert n none = f)
      ∧ ((g.Insert (some w)).EvalOverlap w w = true ∧ g.Insert none = g)
      ∧ ((l.Insert lt (some x)).EvalOverlap lt x x = true ∧ l.Insert lt none = l) := by
  have irr := asymm_irrefl lt hlt
  have sirr := StringValue.lt_irrefl
  refine ⟨⟨?_, rfl⟩, ⟨?_, rfl⟩, ⟨?_, rfl⟩⟩
  · simp only [IntegerMinMaxFilter.Insert, hf, Bool.false_eq_true, if_false,
      IntegerMinMaxFilter.EvalOverlap, if_true]
    split_ifs <;> simp
  · simp only [StringMinMaxFilter.Insert, hg, Bool.false_eq_true, if_false,
      StringMinMaxFilter.EvalOverlap]
    split_ifs <;> simp_all
  · simp only [ValueLattice.Insert, hl, Bool.false_eq_true, if_false,
      ValueLattice.EvalOverlap]
    split_ifs <;> simp_all

/-- C18 (witness): inserting 20 into the 32-bit filter `[5,10]`, `"c"` into the
string filter `["a","b"]`, and `true` into the boolean lattice `[false,false]`. -/
theorem Insert_then_overlap_witness :
    (IntegerMinMaxFilter.Insert .Int ⟨5, 10, false⟩ (some 20)).EvalOverlap .Int
        ⟨.TYPE_INT, 0, 0⟩ 20 20 = true
      ∧ (StringMinMaxFilter.Insert ⟨[97], [98], [], [], false, false⟩
          (some [99])).EvalOverlap [99] [99] = true
      ∧ (ValueLattice.Insert pb_bool.lt ⟨false, false, false, false⟩
          (some true)).EvalOverlap pb_bool.lt true true = true :=
  have h := Insert_then_overlap .Int ⟨5, 10, false⟩ 20 0 0 rfl
    ⟨[97], [98], [], [], false, false⟩ [99] rfl pb_bool.lt (by decide)
    ⟨false, false, false, false⟩ true rfl
  ⟨h.1.1, h.2.1.1, h.2.2.1⟩

/-! ## Overlap ratios: full coverage, booleans, timestamps -/

/-- C21: full coverage gives the ratio `1.0`.  For an integer filter of any
width and an integer column of the same or another width, for a date filter and
for a string filter: when the filter bounds enclose the data range
(`min_ <= data_min`, `data_min <= data_max`, `data_max <= max_`, data values
being values of the column type), `ComputeOverlapRatio` returns `1.0`. -/
theorem ComputeOverlapRatio_full_coverage
    (n : IntName) (f : IntegerMinMaxFilter) (col_type : ColumnType) (data_min data_max : Int)
    (hcol : col_type.isIntType = true)
    (hdmin : col_type.holds data_min = true) (hdmax : col_type.holds data_max = true)
    (hd : data_min ≤ data_max) (hmin : f.min_ ≤ data_min) (hmax : data_max ≤ f.max_)
    (g : DateMinMaxFilter) (date_min date_max : Int)
    (hgmin : g.min_ ≤ date_min) (hgmax : date_max ≤ g.max_)
    (ToUInt64 : Bytes → Nat) (s : StringMinMaxFilter) (str_min str_max : Bytes)
    (hsmin : StringValue.le s.min_ str_min = true)
    (hsmax : StringValue.le str_max s.max_ = true) :
    f.ComputeOverlapRatio n col_type data_min data_max = OverlapRatio.one
      ∧ g.ComputeOverlapRatio date_min date_max = OverlapRatio.one
      ∧ s.ComputeOverlapRatio ToUInt64 str_min str_max = OverlapRatio.one := by
  refine ⟨?_, ?_, ?_⟩
  · simp only [ColumnType.holds, Bool.and_eq_true, decide_eq_true_eq] at hdmin hdmax
    have hv1 := GetIntTypeValue_of_isIntType col_type hcol data_min
    have hv2 := GetIntTypeValue_of_isIntType col_type hcol data_max
    by_cases hk : n.PRIMITIVE_TYPE = col_type.type
    · have h1 : ¬ f.max_ < data_min := by omega
      have h2 : ¬ data_max < f.min_ := by omega
      simp [IntegerMinMaxFilter.ComputeOverlapRatio, IntegerMinMaxFilter.EvalOverlap, hk,
        h1, h2, hmin, hmax]
    · have h1 : ¬ f.min_ > GetIntTypeMax col_type := by omega
      have h2 : ¬ f.max_ < GetIntTypeMin col_type := by omega
      simp only [IntegerMinMaxFilter.ComputeOverlapRatio, IntegerMinMaxFilter.EvalOverlap64,
        IntegerMinMaxFilter.GetCastIntMinMax, hk, if_false, hv1, hv2, h1, h2]
      have e1 : (if f.min_ < GetIntTypeMin col_type then GetIntTypeMin col_type else f.min_)
          ≤ data_min := by split_ifs <;> omega
      have e2 : data_max
          ≤ (if f.max_ > GetIntTypeMax col_type then GetIntTypeMax col_type else f.max_) := by
        split_ifs <;> omega
      split_ifs <;> simp_all <;> first
        | omega
        | (rw [if_pos (by omega)]; dsimp only; rw [if_pos (by constructor <;> omega)])
  · simp [DateMinMaxFilter.ComputeOverlapRatio, hgmin, hgmax]
  · simp [StringMinMaxFilter.ComputeOverlapRatio, hsmin, hsmax]

/-- C21 (witness): the 32-bit filter `[0,100]` on an 8-bit column with data
`[5,10]`, the date filter `[0,9]` with data `[2,3]`, and the string filter
`[[1], [9]]` with data `[[2], [3]]`. -/
theorem ComputeOverlapRatio_full_coverage_witness :
    IntegerMinMaxFilter.ComputeOverlapRatio .Int ⟨0, 100, false⟩ ⟨.TYPE_TINYINT, 0, 0⟩ 5 10
        = OverlapRatio.one
      ∧ DateMinMaxFilter.ComputeOverlapRatio ⟨0, 9, false, false⟩ 2 3 = OverlapRatio.one
      ∧ StringMinMaxFilter.ComputeOverlapRatio (fun _ => 0) ⟨[1], [9], [], [], false, false⟩
        [2] [3] = OverlapRatio.one :=
  ComputeOverlapRatio_full_coverage .Int ⟨0, 100, false⟩ ⟨.TYPE_TINYINT, 0, 0⟩ 5 10
    (by decide) (by decide) (by decide) (by decide) (by decide) (by decide)
    ⟨0, 9, false, false⟩ 2 3 (by decide) (by decide)
    (fun _ => 0) ⟨[1], [9], [], [], false, false⟩ [2] [3] (by decide) (by decide)

/-- C22: the boolean overlap ratio is binary.  For every boolean filter and
data range, `EvalOverlap` is true exactly when neither `max_ < data_min` nor
`data_max < min_` in the order `false < true`, and `ComputeOverlapRatio` is
`1.0` when `EvalOverlap` is true and `0.0` when it is false.  For the filter
`[true, true]`: the data `[false, true]` overlaps, ratio `1.0`; the data
`[false, false]` does not, ratio `0.0`. -/
theorem bool_ratio_binary (f : BoolMinMaxFilter) (data_min data_max : Bool) :
    (f.EvalOverlap data_min data_max = true ↔ ¬ (f.max_ < data_min ∨ data_max < f.min_))
      ∧ f.ComputeOverlapRatio data_min data_max
        = (if f.EvalOverlap data_min data_max then OverlapRatio.one else OverlapRatio.zero)
      ∧ (f.ComputeOverlapRatio data_min data_max).value
        = (if f.EvalOverlap data_min data_max then 1 else 0)
      ∧ BoolMinMaxFilter.EvalOverlap ⟨true, true, false⟩ false true = true
      ∧ (BoolMinMaxFilter.ComputeOverlapRatio ⟨true, true, false⟩ false true).value = 1
      ∧ BoolMinMaxFilter.EvalOverlap ⟨true, true, false⟩ false false = false
      ∧ (BoolMinMaxFilter.ComputeOverlapRatio ⟨true, true, false⟩ false false).value = 0 := by
  rcases f with ⟨a, b, c⟩
  cases a <;> cases b <;> cases data_min <;> cases data_max <;>
    simp [BoolMinMaxFilter.EvalOverlap, BoolMinMaxFilter.ComputeOverlapRatio, pb_bool,
      OverlapRatio.value, OverlapRatio.one, OverlapRatio.zero]

/-- C23: the timestamp ratio is conservative on conversion failure.  For every
timestamp filter and data range, covered by the filter or not, if
`UtcToUnixTimeLimitedRangeNanos` fails on `data_min`, `data_max`, the filter
`min_` or the filter `max_`, `ComputeOverlapRatio` returns `1.0`. -/
theorem timestamp_ratio_conversion_failure (tc : TimestampCodec)
    (f : TimestampMinMaxFilter) (data_min data_max : Bytes)
    (hfail : tc.UtcToUnixTimeLimitedRangeNanos data_min = none
      ∨ tc.UtcToUnixTimeLimitedRangeNanos data_max = none
      ∨ tc.UtcToUnixTimeLimitedRangeNanos f.min_ = none
      ∨ tc.UtcToUnixTimeLimitedRangeNanos f.max_ = none) :
    f.ComputeOverlapRatio tc data_min data_max = OverlapRatio.one := by
  unfold TimestampMinMaxFilter.ComputeOverlapRatio
  split_ifs
  · rfl
  · rcases hfail with h | h | h | h <;> split <;> simp_all

/-- C23 (witness): the filter `[[1], [2]]` does not cover the data range
whose lower end is `[0]`, and the conversion of the nine-byte upper end
fails. -/
theorem timestamp_ratio_conversion_failure_witness :
    TimestampCodec.sample.le [1] [0] = false
      ∧ TimestampCodec.sample.UtcToUnixTimeLimitedRangeNanos [1, 1, 1, 1, 1, 1, 1, 1, 1] = none
      ∧ TimestampMinMaxFilter.ComputeOverlapRatio TimestampCodec.sample
        ⟨[1], [2], false, false⟩ [0] [1, 1, 1, 1, 1, 1, 1, 1, 1] = OverlapRatio.one :=
  ⟨by decide, by decide,
    timestamp_ratio_conversion_failure TimestampCodec.sample ⟨[1], [2], false, false⟩ [0]
      [1, 1, 1, 1, 1, 1, 1, 1, 1] (Or.inr (Or.inl (by decide)))⟩

/-! ## The factory and the wire-level copy -/

/-- C28: the factory is total exactly on the supported kinds.  For each of the
eleven supported kinds both `MinMaxFilter::Create` overloads return a filter
whose `type()` is the requested kind, without reaching the `DCHECK(false)`; for
every other kind both reach the `DCHECK(false)` and return no filter. -/
theorem Create_total_on_supported (type : ColumnType) (protobuf : MinMaxFilterPB) :
    (if type.type.supported then
        (∃ f, MinMaxFilter.Create type = some f ∧ f.type = type.type)
          ∧ (∃ f, MinMaxFilter.Create_protobuf protobuf type = some f ∧ f.type = type.type)
          ∧ MinMaxFilter.Create_DCHECK type = true
      else
        MinMaxFilter.Create type = none
          ∧ MinMaxFilter.Create_protobuf protobuf type = none
          ∧ MinMaxFilter.Create_DCHECK type = false)
      ∧ (List.filter PrimitiveType.supported
            [.INVALID_TYPE, .TYPE_NULL, .TYPE_BOOLEAN, .TYPE_TINYINT, .TYPE_SMALLINT,
              .TYPE_INT, .TYPE_BIGINT, .TYPE_FLOAT, .TYPE_DOUBLE, .TYPE_TIMESTAMP,
              .TYPE_STRING, .TYPE_DATE, .TYPE_DECIMAL, .TYPE_CHAR, .TYPE_VARCHAR]).length
          = 11 := by
  refine ⟨?_, by decide⟩
  rcases type with ⟨t, p, s⟩
  cases t <;>
    simp [PrimitiveType.supported, MinMaxFilter.Create, MinMaxFilter.Create_protobuf,
      MinMaxFilter.Create_DCHECK, FilterClass.type]

/-- C29: the wire-level copy reproduces its input.  For a well-formed wire
form `in` (Bottom, Top, or ranged of a kind `k`) and the empty message `out`,
`MinMaxFilter::Copy(in, out)` meets no failing `DCHECK` and leaves in `out` the
flags of `in`; when `in` is ranged, `out` is then `in` itself: the `min` and
`max` of `in` in the typed field of kind `k` and no other field; when `in` is
Bottom or Top, `min` and `max` of any message `out` are left as they were. -/
theorem Copy_reproduces_input (ext : ExternalCodecs) (k : WireKind)
    (inp out : MinMaxFilterPB)
    (hwf : inp.isBottom = true ∨ inp.isTop = true ∨ inp.isRanged k = true) :
    MinMaxFilter.Copy_DCHECK inp MinMaxFilterPB.empty = true
      ∧ (MinMaxFilter.Copy ext inp MinMaxFilterPB.empty).always_false = inp.always_false
      ∧ (MinMaxFilter.Copy ext inp MinMaxFilterPB.empty).always_true = inp.always_true
      ∧ (if inp.isRanged k then
          MinMaxFilter.Copy ext inp MinMaxFilterPB.empty = inp
            ∧ (MinMaxFilter.Copy ext inp MinMaxFilterPB.empty).min.ofKind k = true
            ∧ (MinMaxFilter.Copy ext inp MinMaxFilterPB.empty).max.ofKind k = true
        else
          (MinMaxFilter.Copy ext inp out).min = out.min
            ∧ (MinMaxFilter.Copy ext inp out).max = out.max) := by
  rcases inp with ⟨af, at_, mn, mx⟩
  rcases hwf with h | h | h
  · simp only [MinMaxFilterPB.isBottom, Bool.and_eq_true, Bool.not_eq_true'] at h
    obtain ⟨h1, h2⟩ := h
    subst h1 h2
    simp [MinMaxFilter.Copy, MinMaxFilter.Copy_DCHECK, MinMaxFilterPB.isRanged]
  · simp only [MinMaxFilterPB.isTop, Bool.and_eq_true, Bool.not_eq_true'] at h
    obtain ⟨h1, h2⟩ := h
    subst h1 h2
    simp [MinMaxFilter.Copy, MinMaxFilter.Copy_DCHECK, MinMaxFilterPB.isRanged]
  · rw [if_pos h]
    have h0 := h
    simp only [MinMaxFilterPB.isRanged, Bool.and_eq_true, Bool.not_eq_true'] at h
    obtain ⟨⟨⟨h1, h2⟩, h3⟩, h4⟩ := h
    subst h1 h2
    rcases mn with ⟨a0, a1, a2, a3, a4, a5, a6, a7, a8, a9⟩
    rcases mx with ⟨b0, b1, b2, b3, b4, b5, b6, b7, b8, b9⟩
    cases k <;>
      simp only [ColumnValuePB.ofKind, Bool.and_eq_true, beq_iff_eq, decide_eq_true_eq,
        reduceCtorEq, decide_False, decide_True, Option.not_isSome,
        Option.isNone_iff_eq_none, Option.isSome_iff_exists] at h3 h4 <;>
      (casesm* _ ∧ _, ∃ _, _) <;> subst_vars <;>
      simp [MinMaxFilter.Copy, MinMaxFilter.Copy_DCHECK, MinMaxFilterPB.empty,
        ColumnValuePB.empty, ColumnValuePB.ofKind,
        BoolMinMaxFilter.Copy, TinyIntMinMaxFilter.Copy, SmallIntMinMaxFilter.Copy,
        IntMinMaxFilter.Copy, BigIntMinMaxFilter.Copy, DoubleMinMaxFilter.Copy,
        StringMinMaxFilter.Copy, TimestampMinMaxFilter.Copy, DateMinMaxFilter.Copy,
        DecimalMinMaxFilter.Copy, NumericMinMaxFilter.Copy, pb_bool, pb_byte, pb_short,
        pb_int, pb_long, pb_double, pb_timestamp, pb_date,
        ColumnValuePB.set_bool_val, ColumnValuePB.set_byte_val, ColumnValuePB.set_short_val,
        ColumnValuePB.set_int_val, ColumnValuePB.set_long_val, ColumnValuePB.set_double_val,
        ColumnValuePB.set_string_val, ColumnValuePB.set_timestamp_val,
        ColumnValuePB.set_decimal_val, ColumnValuePB.set_date_val]

/-- C29 (witness): the ranged 32-bit wire form `[3, 7]`. -/
theorem Copy_reproduces_input_witness :
    MinMaxFilter.Copy_DCHECK (int_ranged 3 7) MinMaxFilterPB.empty = true
      ∧ (MinMaxFilter.Copy ExternalCodecs.sample (int_ranged 3 7)
          MinMaxFilterPB.empty).always_false = (int_ranged 3 7).always_false
      ∧ (MinMaxFilter.Copy ExternalCodecs.sample (int_ranged 3 7)
          MinMaxFilterPB.empty).always_true = (int_ranged 3 7).always_true
      ∧ (if (int_ranged 3 7).isRanged .int then
          MinMaxFilter.Copy ExternalCodecs.sample (int_ranged 3 7) MinMaxFilterPB.empty
              = int_ranged 3 7
            ∧ (MinMaxFilter.Copy ExternalCodecs.sample (int_ranged 3 7)
                MinMaxFilterPB.empty).min.ofKind .int = true
            ∧ (MinMaxFilter.Copy ExternalCodecs.sample (int_ranged 3 7)
                MinMaxFilterPB.empty).max.ofKind .int = true
        else
          (MinMaxFilter.Copy ExternalCodecs.sample (int_ranged 3 7) wire_top).min
              = wire_top.min
            ∧ (MinMaxFilter.Copy ExternalCodecs.sample (int_ranged 3 7) wire_top).max
              = wire_top.max) :=
  Copy_reproduces_input ExternalCodecs.sample .int (int_ranged 3 7) wire_top
    (Or.inr (Or.inr (by decide)))

/-! ## Properties of the materialization of string bounds -/

theorem getD_set_bytes (l : Bytes) (k i v : Nat) :
    (l.set k v).getD i 0 = if k = i ∧ i < l.length then v else l.getD i 0 := by
  simp only [List.getD_eq_getElem?_getD, List.getElem?_set]
  by_cases h : k = i
  · subst h
    by_cases h2 : k < l.length
    · simp [h2]
    · simp [h2, List.getElem?_eq_none (Nat.le_of_not_lt h2)]
  · simp [h]

theorem getD_take_bytes (l : Bytes) (n i : Nat) (h : i < n) :
    (l.take n).getD i 0 = l.getD i 0 := by
  simp [List.getD_eq_getElem?_getD, List.getElem?_take, h]

theorem getD_lt_of_mem (l : Bytes) (h : ∀ b ∈ l, b < 256) (i : Nat) : l.getD i 0 < 256 := by
  by_cases hi : i < l.length
  · rw [List.getD_eq_getElem _ _ hi]
    exact h _ (List.getElem_mem _)
  · rw [List.getD_eq_default _ _ (Nat.le_of_not_lt hi)]
    decide

theorem carry_spec (k : Nat) : ∀ buf : Bytes,
    (StringMinMaxFilter.carry buf k).1.length = buf.length
      ∧ (StringMinMaxFilter.carry buf k).2 ≤ k
      ∧ (∀ i, i < (StringMinMaxFilter.carry buf k).2 →
          (StringMinMaxFilter.carry buf k).1.getD i 0 = buf.getD i 0)
      ∧ (∀ i, (StringMinMaxFilter.carry buf k).2 ≤ i → i < k →
          buf.getD i 0 = 255 ∧ (StringMinMaxFilter.carry buf k).1.getD i 0 = 0)
      ∧ (0 < (StringMinMaxFilter.carry buf k).2 →
          buf.getD ((StringMinMaxFilter.carry buf k).2 - 1) 0 ≠ 255)
      ∧ (∀ i, k ≤ i → (StringMinMaxFilter.carry buf k).1.getD i 0 = buf.getD i 0) := by
  induction k with
  | zero => intro buf; simp [StringMinMaxFilter.carry]
  | succ k ih =>
    intro buf
    by_cases h : buf.getD k 0 = 255
    · have hc : StringMinMaxFilter.carry buf (k + 1)
          = StringMinMaxFilter.carry (buf.set k 0) k := by
        rw [StringMinMaxFilter.carry, if_pos h, h]
      rw [hc]
      obtain ⟨a, b, c, e, d, g⟩ := ih (buf.set k 0)
      have hne : ∀ i, i ≠ k → (buf.set k 0).getD i 0 = buf.getD i 0 := by
        intro i hi
        rw [getD_set_bytes]
        simp [Ne.symm hi]
      have hk0 : (buf.set k 0).getD k 0 = 0 := by
        rw [getD_set_bytes]
        split_ifs with h1
        · rfl
        · simp only [true_and, not_lt] at h1
          exact List.getD_eq_default _ _ h1
      refine ⟨by simpa using a, by omega, ?_, ?_, ?_, ?_⟩
      · intro i hi
        rw [c i hi, hne i (by omega)]
      · intro i h1 h2
        by_cases hik : i = k
        · subst hik
          exact ⟨h, by rw [g i (le_refl _), hk0]⟩
        · obtain ⟨e1, e2⟩ := e i h1 (by omega)
          exact ⟨by rw [← hne i hik]; exact e1, e2⟩
      · intro hpos
        have := d hpos
        rwa [hne _ (by omega)] at this
      · intro i hi
        rw [g i (by omega), hne i (by omega)]
    · have hc : StringMinMaxFilter.carry buf (k + 1) = (buf, k + 1) := by
        rw [StringMinMaxFilter.carry, if_neg h]
      rw [hc]
      refine ⟨rfl, le_refl _, fun _ _ => rfl, ?_, fun _ => by simpa using h, fun _ _ => rfl⟩
      intro i h1 h2
      simp at h1
      omega

theorem carry_zero_iff (buf : Bytes) (k : Nat) :
    (StringMinMaxFilter.carry buf k).2 = 0 ↔ ∀ i, i < k → buf.getD i 0 = 255 := by
  obtain ⟨_, _, _, e, d, _⟩ := carry_spec k buf
  constructor
  · intro h0 i hi
    exact (e i (by omega) hi).1
  · intro hall
    by_contra hne
    have hpos : 0 < (StringMinMaxFilter.carry buf k).2 := Nat.pos_of_ne_zero hne
    exact d hpos (hall _ (by omega))

theorem bump_spec (buf : Bytes) (hlen : StringMinMaxFilter.MAX_BOUND_LENGTH ≤ buf.length)
    (hb : ∀ i, buf.getD i 0 < 256)
    (hj : (StringMinMaxFilter.carry buf StringMinMaxFilter.MAX_BOUND_LENGTH).2 ≠ 0) :
    (StringMinMaxFilter.bump buf).length = buf.length
      ∧ ∃ j, j < StringMinMaxFilter.MAX_BOUND_LENGTH
        ∧ (∀ i, i < j → (StringMinMaxFilter.bump buf).getD i 0 = buf.getD i 0)
        ∧ (StringMinMaxFilter.bump buf).getD j 0 = buf.getD j 0 + 1
        ∧ (∀ i, j < i → i < StringMinMaxFilter.MAX_BOUND_LENGTH →
            buf.getD i 0 = 255 ∧ (StringMinMaxFilter.bump buf).getD i 0 = 0)
        ∧ (∀ i, StringMinMaxFilter.MAX_BOUND_LENGTH ≤ i →
            (StringMinMaxFilter.bump buf).getD i 0 = buf.getD i 0) := by
  obtain ⟨a, b, c, e, d, g⟩ := carry_spec StringMinMaxFilter.MAX_BOUND_LENGTH buf
  have hpos : 0 < (StringMinMaxFilter.carry buf StringMinMaxFilter.MAX_BOUND_LENGTH).2 :=
    Nat.pos_of_ne_zero hj
  have hd := d hpos
  have hcj := c ((StringMinMaxFilter.carry buf StringMinMaxFilter.MAX_BOUND_LENGTH).2 - 1)
    (by omega)
  have hbj := hb ((StringMinMaxFilter.carry buf StringMinMaxFilter.MAX_BOUND_LENGTH).2 - 1)
  have hval : (buf.getD ((StringMinMaxFilter.carry buf
      StringMinMaxFilter.MAX_BOUND_LENGTH).2 - 1) 0 + 1) % 256
      = buf.getD ((StringMinMaxFilter.carry buf
        StringMinMaxFilter.MAX_BOUND_LENGTH).2 - 1) 0 + 1 :=
    Nat.mod_eq_of_lt (by omega)
  have hbump : ∀ i, (StringMinMaxFilter.bump buf).getD i 0
      = if (StringMinMaxFilter.carry buf StringMinMaxFilter.MAX_BOUND_LENGTH).2 - 1 = i
          ∧ i < buf.length
        then buf.getD ((StringMinMaxFilter.carry buf
          StringMinMaxFilter.MAX_BOUND_LENGTH).2 - 1) 0 + 1
        else (StringMinMaxFilter.carry buf StringMinMaxFilter.MAX_BOUND_LENGTH).1.getD i 0 := by
    intro i
    unfold StringMinMaxFilter.bump
    dsimp only
    rw [getD_set_bytes, hcj, hval, a]
  refine ⟨by simp [StringMinMaxFilter.bump, a],
    (StringMinMaxFilter.carry buf StringMinMaxFilter.MAX_BOUND_LENGTH).2 - 1, by omega,
    ?_, ?_, ?_, ?_⟩
  · intro i hi
    rw [hbump, if_neg (by omega), c i (by omega)]
  · rw [hbump, if_pos ⟨rfl, by omega⟩]
  · intro i h1 h2
    obtain ⟨e1, e2⟩ := e i (by omega) h2
    exact ⟨e1, by rw [hbump, if_neg (by omega), e2]⟩
  · intro i hi
    rw [hbump, if_neg (by omega), g i hi]

theorem StringValue.lt_of_first_diff : ∀ (j : Nat) (a b : Bytes), j < a.length → j < b.length →
    (∀ i, i < j → a.getD i 0 = b.getD i 0) → a.getD j 0 < b.getD j 0 →
    StringValue.lt a b = true := by
  intro j
  induction j with
  | zero =>
    intro a b ha hb _ hlt
    cases a with
    | nil => simp at ha
    | cons x xs =>
      cases b with
      | nil => simp at hb
      | cons y ys =>
        simp only [List.getD_cons_zero] at hlt
        simp [StringValue.lt, hlt]
  | succ j ih =>
    intro a b ha hb heq hlt
    cases a with
    | nil => simp at ha
    | cons x xs =>
      cases b with
      | nil => simp at hb
      | cons y ys =>
        have h0 := heq 0 (by omega)
        simp only [List.getD_cons_zero] at h0
        subst h0
        simp only [List.length_cons, Nat.add_lt_add_iff_right] at ha hb
        simp only [List.getD_cons_succ] at hlt
        have htl : StringValue.lt xs ys = true := by
          refine ih xs ys ha hb ?_ hlt
          intro i hi
          have := heq (i + 1) (by omega)
          simpa using this
        simp [StringValue.lt, htl]

theorem StringValue.lt_take (a : Bytes) : ∀ n : Nat, StringValue.lt a (a.take n) = false := by
  induction a with
  | nil => intro n; simp [StringValue.lt]
  | cons x xs ih =>
    intro n
    cases n with
    | zero => simp [StringValue.lt]
    | succ n => simp [StringValue.lt, ih n]

theorem StringValue.lt_cotrans : ∀ a b c : Bytes, StringValue.lt a c = true →
    StringValue.lt a b = true ∨ StringValue.lt b c = true := by
  intro a
  induction a with
  | nil =>
    intro b c h
    cases c with
    | nil => simp [StringValue.lt] at h
    | cons z zs =>
      cases b with
      | nil => right; simp [StringValue.lt]
      | cons y ys => left; simp [StringValue.lt]
  | cons x xs ih =>
    intro b c h
    cases c with
    | nil => simp [StringValue.lt] at h
    | cons z zs =>
      cases b with
      | nil => right; simp [StringValue.lt]
      | cons y ys =>
        simp only [StringValue.lt] at h ⊢
        by_cases hxz : x < z
        · by_cases hxy : x < y
          · left; simp [hxy]
          · right
            have : y < z := by omega
            simp [this]
        · simp only [hxz, if_false] at h
          by_cases hzx : z < x
          · simp [hzx] at h
          · simp only [hzx, if_false] at h
            have hxz' : x = z := by omega
            subst hxz'
            by_cases hxy : x < y
            · left; simp [hxy]
            · by_cases hyx : y < x
              · right; simp [hyx]
              · rcases ih ys zs h with h1 | h1
                · left; simp [hxy, hyx, h1]
                · right; simp [hxy, hyx, h1]

theorem StringValue.le_trans (a b c : Bytes) (h1 : StringValue.le a b = true)
    (h2 : StringValue.le b c = true) : StringValue.le a c = true := by
  simp only [StringValue.le, Bool.not_eq_true'] at h1 h2 ⊢
  by_contra h
  rcases StringValue.lt_cotrans c b a (by simpa using h) with h3 | h3
  · rw [h2] at h3; exact Bool.false_ne_true h3
  · rw [h1] at h3; exact Bool.false_ne_true h3

theorem StringValue.le_refl (a : Bytes) : StringValue.le a a = true := by
  simp [StringValue.le, StringValue.lt_irrefl]

theorem MaterializeMin_spec (f : StringMinMaxFilter) (same_min ok_min : Bool) :
    (f.MaterializeMin same_min ok_min = StringMinMaxFilter.top
        ∧ f.min_buffer_ = [] ∧ same_min = false ∧ ok_min = false)
      ∨ ((f.MaterializeMin same_min ok_min).max_ = f.max_
        ∧ (f.MaterializeMin same_min ok_min).max_buffer_ = f.max_buffer_
        ∧ (f.MaterializeMin same_min ok_min).always_true_ = f.always_true_
        ∧ (f.MaterializeMin same_min ok_min).always_false_ = f.always_false_
        ∧ (((f.MaterializeMin same_min ok_min).min_ = f.min_
            ∧ (f.min_buffer_ ≠ [] ∨ same_min = true
              ∨ f.min_.length ≤ StringMinMaxFilter.MAX_BOUND_LENGTH))
          ∨ ((f.MaterializeMin same_min ok_min).min_
              = f.min_.take StringMinMaxFilter.MAX_BOUND_LENGTH
            ∧ f.min_buffer_ = [] ∧ same_min = false
            ∧ StringMinMaxFilter.MAX_BOUND_LENGTH < f.min_.length))
        ∧ ¬ (f.min_buffer_ = [] ∧ same_min = false ∧ ok_min = false)) := by
  rcases f with ⟨mn, mx, mnb, mxb, af, at_⟩
  unfold StringMinMaxFilter.MaterializeMin StringMinMaxFilter.CopyToBuffer
  by_cases hb : mnb = []
  · subst hb
    by_cases hl : StringMinMaxFilter.MAX_BOUND_LENGTH < mn.length
    · cases same_min <;> cases ok_min <;>
        simp [StringMinMaxFilter.SetAlwaysTrue, StringMinMaxFilter.top, hl]
    · cases same_min <;> cases ok_min <;>
        simp [StringMinMaxFilter.SetAlwaysTrue, StringMinMaxFilter.top, hl]
      all_goals omega
  · simp [hb]

theorem MaterializeMax_top (same_max ok_max : Bool) :
    StringMinMaxFilter.top.MaterializeMax same_max ok_max = StringMinMaxFilter.top := by
  cases same_max <;> cases ok_max <;> rfl

theorem MaterializeMax_spec (f : StringMinMaxFilter) (same_max ok_max : Bool)
    (ht : f.always_true_ = false) :
    (f.MaterializeMax same_max ok_max = StringMinMaxFilter.top
        ∧ f.max_buffer_ = []
        ∧ ((same_max = false ∧ ok_max = false)
          ∨ (StringMinMaxFilter.MAX_BOUND_LENGTH < f.max_.length
            ∧ (StringMinMaxFilter.carry
                (if same_max then f.max_
                  else f.max_.take StringMinMaxFilter.MAX_BOUND_LENGTH)
                StringMinMaxFilter.MAX_BOUND_LENGTH).2 = 0)))
      ∨ ((f.MaterializeMax same_max ok_max).min_ = f.min_
        ∧ (f.MaterializeMax same_max ok_max).always_true_ = false
        ∧ (f.MaterializeMax same_max ok_max).always_false_ = f.always_false_
        ∧ (((f.MaterializeMax same_max ok_max).max_ = f.max_
            ∧ (f.max_buffer_ ≠ [] ∨ f.max_.length ≤ StringMinMaxFilter.MAX_BOUND_LENGTH))
          ∨ (f.max_buffer_ = []
            ∧ StringMinMaxFilter.MAX_BOUND_LENGTH < f.max_.length
            ∧ (StringMinMaxFilter.carry
                (if same_max then f.max_
                  else f.max_.take StringMinMaxFilter.MAX_BOUND_LENGTH)
                StringMinMaxFilter.MAX_BOUND_LENGTH).2 ≠ 0
            ∧ (f.MaterializeMax same_max ok_max).max_
              = StringMinMaxFilter.bump
                (if same_max then f.max_
                  else f.max_.take StringMinMaxFilter.MAX_BOUND_LENGTH)))
        ∧ ¬ (f.max_buffer_ = [] ∧ same_max = false ∧ ok_max = false)) := by
  rcases f with ⟨mn, mx, mnb, mxb, af, at_⟩
  simp only at ht
  subst ht
  unfold StringMinMaxFilter.MaterializeMax StringMinMaxFilter.CopyToBuffer
  by_cases hb : mxb = []
  · subst hb
    by_cases hl : StringMinMaxFilter.MAX_BOUND_LENGTH < mx.length
    · cases same_max <;> cases ok_max <;>
        simp [StringMinMaxFilter.SetAlwaysTrue, StringMinMaxFilter.top, hl,
          StringMinMaxFilter.bump] <;>
        split_ifs <;> simp_all
    · cases same_max <;> cases ok_max <;>
        simp [StringMinMaxFilter.SetAlwaysTrue, StringMinMaxFilter.top, hl] <;> omega
  · simp [hb]

theorem getD_bound_first (mx : Bytes) (same_max : Bool) (i : Nat)
    (hi : i < StringMinMaxFilter.MAX_BOUND_LENGTH) :
    (if same_max then mx else mx.take StringMinMaxFilter.MAX_BOUND_LENGTH).getD i 0
      = mx.getD i 0 := by
  cases same_max
  · simpa using getD_take_bytes mx StringMinMaxFilter.MAX_BOUND_LENGTH i hi
  · rfl

theorem carry_bound_zero_iff (mx : Bytes) (same_max : Bool) :
    (StringMinMaxFilter.carry
        (if same_max then mx else mx.take StringMinMaxFilter.MAX_BOUND_LENGTH)
        StringMinMaxFilter.MAX_BOUND_LENGTH).2 = 0
      ↔ ∀ i, i < StringMinMaxFilter.MAX_BOUND_LENGTH → mx.getD i 0 = 255 := by
  rw [carry_zero_iff]
  constructor
  · intro h i hi
    rw [← getD_bound_first mx same_max i hi]
    exact h i hi
  · intro h i hi
    rw [getD_bound_first mx same_max i hi]
    exact h i hi

theorem bump_bound_spec (mx : Bytes) (same_max : Bool)
    (hlen : StringMinMaxFilter.MAX_BOUND_LENGTH < mx.length)
    (hb : ∀ b ∈ mx, b < 256)
    (hc : (StringMinMaxFilter.carry
        (if same_max then mx else mx.take StringMinMaxFilter.MAX_BOUND_LENGTH)
        StringMinMaxFilter.MAX_BOUND_LENGTH).2 ≠ 0) :
    StringValue.lt mx (StringMinMaxFilter.bump
        (if same_max then mx else mx.take StringMinMaxFilter.MAX_BOUND_LENGTH)) = true
      ∧ (same_max = false →
          (StringMinMaxFilter.bump
            (if same_max then mx
              else mx.take StringMinMaxFilter.MAX_BOUND_LENGTH)).length
            = StringMinMaxFilter.MAX_BOUND_LENGTH)
      ∧ ∃ j, j < StringMinMaxFilter.MAX_BOUND_LENGTH
        ∧ (∀ i, i < j →
            (StringMinMaxFilter.bump
              (if same_max then mx
                else mx.take StringMinMaxFilter.MAX_BOUND_LENGTH)).getD i 0 = mx.getD i 0)
        ∧ (StringMinMaxFilter.bump
            (if same_max then mx
              else mx.take StringMinMaxFilter.MAX_BOUND_LENGTH)).getD j 0 = mx.getD j 0 + 1
        ∧ (∀ i, j < i → i < StringMinMaxFilter.MAX_BOUND_LENGTH →
            mx.getD i 0 = 255
              ∧ (StringMinMaxFilter.bump
                (if same_max then mx
                  else mx.take StringMinMaxFilter.MAX_BOUND_LENGTH)).getD i 0 = 0) := by
  have hbuf_len : StringMinMaxFilter.MAX_BOUND_LENGTH
      ≤ (if same_max then mx else mx.take StringMinMaxFilter.MAX_BOUND_LENGTH).length := by
    cases same_max
    · simp only [Bool.false_eq_true, if_false, List.length_take]
      omega
    · simp only [if_true]
      omega
  have hbuf_b : ∀ i,
      (if same_max then mx else mx.take StringMinMaxFilter.MAX_BOUND_LENGTH).getD i 0
        < 256 := by
    apply getD_lt_of_mem
    intro b hmem
    cases same_max
    · exact hb b (List.mem_of_mem_take (by simpa using hmem))
    · exact hb b (by simpa using hmem)
  obtain ⟨hl, j, hj, h1, h2, h3, _⟩ := bump_spec _ hbuf_len hbuf_b hc
  have e := getD_bound_first mx same_max
  refine ⟨?_, ?_, j, hj, ?_, ?_, ?_⟩
  · refine StringValue.lt_of_first_diff j _ _ (by omega) (by omega) ?_ ?_
    · intro i hi
      rw [h1 i hi, e i (by omega)]
    · rw [h2, e j hj]
      omega
  · intro hs
    subst hs
    rw [hl]
    simp only [Bool.false_eq_true, if_false, List.length_take]
    omega
  · intro i hi
    rw [h1 i hi, e i (by omega)]
  · rw [h2, e j hj]
  · intro i hi1 hi2
    obtain ⟨a, b⟩ := h3 i hi1 hi2
    exact ⟨by rw [← e i hi2]; exact a, b⟩

theorem isRanged_flags (f : StringMinMaxFilter) (h : f.isRanged = true) :
    f.always_true_ = false ∧ f.always_false_ = false := by
  simpa [StringMinMaxFilter.isRanged] using h

theorem MaterializeValues_ranged (f : StringMinMaxFilter) (h : f.isRanged = true)
    (same_min ok_min same_max ok_max : Bool) :
    f.MaterializeValues same_min ok_min same_max ok_max
      = (f.MaterializeMin same_min ok_min).MaterializeMax same_max ok_max := by
  obtain ⟨h1, h2⟩ := isRanged_flags f h
  simp [StringMinMaxFilter.MaterializeValues, h1, h2]

/-- C24: string truncation overflow forces Top.  For every ranged string
filter whose max bound is longer than 1024 bytes and not yet in its buffer
(allocation succeeding), `MaterializeValues` leaves `always_true` set exactly
when the first 1024 bytes of the max bound are all `0xFF`, and `always_false`
stays clear; the filter is then in the Top state, in particular when every
byte of the max bound is `0xFF`. -/
theorem MaterializeValues_overflow_forces_top (f : StringMinMaxFilter)
    (same_min same_max : Bool) (hr : f.isRanged = true) (hbuf : f.max_buffer_ = [])
    (hlen : StringMinMaxFilter.MAX_BOUND_LENGTH < f.max_.length) :
    ((f.MaterializeValues same_min true same_max true).always_true_ = true
        ↔ ∀ i, i < StringMinMaxFilter.MAX_BOUND_LENGTH → f.max_.getD i 0 = 255)
      ∧ (f.MaterializeValues same_min true same_max true).always_false_ = false
      ∧ ((∀ i, i < StringMinMaxFilter.MAX_BOUND_LENGTH → f.max_.getD i 0 = 255) →
          f.MaterializeValues same_min true same_max true = StringMinMaxFilter.top)
      ∧ ((∀ b ∈ f.max_, b = 255) →
          f.MaterializeValues same_min true same_max true = StringMinMaxFilter.top) := by
  obtain ⟨ht, hf⟩ := isRanged_flags f hr
  rw [MaterializeValues_ranged f hr]
  have key : ((f.MaterializeMin same_min true).MaterializeMax same_max true
        = StringMinMaxFilter.top
        ∧ ∀ i, i < StringMinMaxFilter.MAX_BOUND_LENGTH → f.max_.getD i 0 = 255)
      ∨ (((f.MaterializeMin same_min true).MaterializeMax same_max true).always_true_ = false
        ∧ ((f.MaterializeMin same_min true).MaterializeMax same_max true).always_false_
          = false
        ∧ ¬ ∀ i, i < StringMinMaxFilter.MAX_BOUND_LENGTH → f.max_.getD i 0 = 255) := by
    rcases MaterializeMin_spec f same_min true with ⟨_, _, _, h⟩ | ⟨m1, m2, m3, m4, _, _⟩
    · exact absurd h (by decide)
    · rcases MaterializeMax_spec (f.MaterializeMin same_min true) same_max true
          (by rw [m3, ht]) with ⟨x1, _, x3⟩ | ⟨_, y2, y3, y4, _⟩
      · left
        refine ⟨x1, ?_⟩
        rcases x3 with ⟨_, h⟩ | ⟨_, h⟩
        · exact absurd h (by decide)
        · rw [m1] at h
          exact (carry_bound_zero_iff f.max_ same_max).1 h
      · right
        refine ⟨y2, by rw [y3, m4, hf], ?_⟩
        rcases y4 with ⟨_, h⟩ | ⟨_, _, h, _⟩
        · rw [m1, m2] at h
          rcases h with h | h
          · exact absurd hbuf h
          · omega
        · rw [m1] at h
          exact fun hall => h ((carry_bound_zero_iff f.max_ same_max).2 hall)
  have hall_of_mem : (∀ b ∈ f.max_, b = 255) →
      ∀ i, i < StringMinMaxFilter.MAX_BOUND_LENGTH → f.max_.getD i 0 = 255 := by
    intro hm i hi
    rw [List.getD_eq_getElem _ _ (by omega)]
    exact hm _ (List.getElem_mem _)
  rcases key with ⟨k1, k2⟩ | ⟨k1, k2, k3⟩
  · rw [k1]
    exact ⟨⟨fun _ => k2, fun _ => rfl⟩, rfl, fun _ => rfl, fun _ => rfl⟩
  · refine ⟨⟨fun h => ?_, fun h => absurd h k3⟩, k2, fun h => absurd h k3,
      fun h => absurd (hall_of_mem h) k3⟩
    rw [k1] at h
    exact absurd h (by decide)

/-- C24 (witness): min `[5]`, max 1025 bytes `0xFF`, nothing in the buffers. -/
theorem MaterializeValues_overflow_forces_top_witness :
    ((StringMinMaxFilter.MaterializeValues ⟨[5], List.replicate 1025 255, [], [], false, false⟩
          false true false true).always_true_ = true
        ↔ ∀ i, i < StringMinMaxFilter.MAX_BOUND_LENGTH →
          (List.replicate 1025 255).getD i 0 = 255)
      ∧ (StringMinMaxFilter.MaterializeValues ⟨[5], List.replicate 1025 255, [], [], false, false⟩
          false true false true).always_false_ = false
      ∧ ((∀ i, i < StringMinMaxFilter.MAX_BOUND_LENGTH →
            (List.replicate 1025 255).getD i 0 = 255) →
          StringMinMaxFilter.MaterializeValues
            ⟨[5], List.replicate 1025 255, [], [], false, false⟩ false true false true
            = StringMinMaxFilter.top)
      ∧ ((∀ b ∈ List.replicate 1025 255, b = 255) →
          StringMinMaxFilter.MaterializeValues
            ⟨[5], List.replicate 1025 255, [], [], false, false⟩ false true false true
            = StringMinMaxFilter.top) :=
  MaterializeValues_overflow_forces_top ⟨[5], List.replicate 1025 255, [], [], false, false⟩
    false false rfl rfl
    (by show StringMinMaxFilter.MAX_BOUND_LENGTH < (List.replicate 1025 255).length
        rw [List.length_replicate]; decide)

/-- C25: string truncation is sound.  For every ranged string filter with
bounds `(min, max)` that is still ranged after `MaterializeValues`, with bounds
`(min', max')`: `min' <= min` and `max <= max'` in the unsigned lexicographic
byte order; `min'` is a prefix of `min`; `max'` is `max` itself or, for a `max`
longer than 1024 bytes, strictly greater than `max`, obtained from the first
1024 bytes of `max` by adding one at a position `j` and zeroing the `0xFF`
bytes after it (1024 bytes long when the bytes were copied); and every string
`s` with `min <= s <= max` has `min' <= s <= max'`. -/
theorem MaterializeValues_sound (f : StringMinMaxFilter)
    (same_min ok_min same_max ok_max : Bool)
    (hbytes : ∀ b ∈ f.max_, b < 256) (hr : f.isRanged = true)
    (hr' : (f.MaterializeValues same_min ok_min same_max ok_max).isRanged = true) :
    StringValue.le (f.MaterializeValues same_min ok_min same_max ok_max).min_ f.min_ = true
      ∧ StringValue.le f.max_ (f.MaterializeValues same_min ok_min same_max ok_max).max_ = true
      ∧ (f.MaterializeValues same_min ok_min same_max ok_max).min_ <+: f.min_
      ∧ ((f.MaterializeValues same_min ok_min same_max ok_max).max_ = f.max_
        ∨ (StringMinMaxFilter.MAX_BOUND_LENGTH < f.max_.length
          ∧ StringValue.lt f.max_
            (f.MaterializeValues same_min ok_min same_max ok_max).max_ = true
          ∧ (same_max = false →
              (f.MaterializeValues same_min ok_min same_max ok_max).max_.length
                = StringMinMaxFilter.MAX_BOUND_LENGTH)
          ∧ ∃ j, j < StringMinMaxFilter.MAX_BOUND_LENGTH
            ∧ (∀ i, i < j →
                (f.MaterializeValues same_min ok_min same_max ok_max).max_.getD i 0
                  = f.max_.getD i 0)
            ∧ (f.MaterializeValues same_min ok_min same_max ok_max).max_.getD j 0
              = f.max_.getD j 0 + 1
            ∧ (∀ i, j < i → i < StringMinMaxFilter.MAX_BOUND_LENGTH →
                f.max_.getD i 0 = 255
                  ∧ (f.MaterializeValues same_min ok_min same_max ok_max).max_.getD i 0
                    = 0)))
      ∧ ∀ s, StringValue.le f.min_ s = true → StringValue.le s f.max_ = true →
          StringValue.le (f.MaterializeValues same_min ok_min same_max ok_max).min_ s = true
            ∧ StringValue.le s
              (f.MaterializeValues same_min ok_min same_max ok_max).max_ = true := by
  obtain ⟨ht, hf⟩ := isRanged_flags f hr
  obtain ⟨ht', _⟩ := isRanged_flags _ hr'
  rw [MaterializeValues_ranged f hr] at ht' ⊢
  have htop : StringMinMaxFilter.top.always_true_ = true := rfl
  rcases MaterializeMin_spec f same_min ok_min with ⟨h, _⟩ | ⟨m1, m2, m3, _, m5, _⟩
  · rw [h, MaterializeMax_top, htop] at ht'
    exact absurd ht' (by decide)
  rcases MaterializeMax_spec (f.MaterializeMin same_min ok_min) same_max ok_max
      (by rw [m3, ht]) with ⟨x1, _⟩ | ⟨y1, _, _, y4, _⟩
  · rw [x1, htop] at ht'
    exact absurd ht' (by decide)
  rw [m1] at y4
  have hmin_pre : ((f.MaterializeMin same_min ok_min).MaterializeMax same_max ok_max).min_
      <+: f.min_ := by
    rw [y1]
    rcases m5 with ⟨h, _⟩ | ⟨h, _⟩
    · rw [h]
    · rw [h]; exact List.take_prefix _ _
  have hmin_le : StringValue.le
      ((f.MaterializeMin same_min ok_min).MaterializeMax same_max ok_max).min_ f.min_
        = true := by
    rw [y1]
    rcases m5 with ⟨h, _⟩ | ⟨h, _⟩
    · rw [h]; exact StringValue.le_refl _
    · rw [h]; simp [StringValue.le, StringValue.lt_take]
  have hmax : ((f.MaterializeMin same_min ok_min).MaterializeMax same_max ok_max).max_ = f.max_
      ∨ (StringMinMaxFilter.MAX_BOUND_LENGTH < f.max_.length
        ∧ StringValue.lt f.max_
          ((f.MaterializeMin same_min ok_min).MaterializeMax same_max ok_max).max_ = true
        ∧ (same_max = false →
            ((f.MaterializeMin same_min ok_min).MaterializeMax same_max ok_max).max_.length
              = StringMinMaxFilter.MAX_BOUND_LENGTH)
        ∧ ∃ j, j < StringMinMaxFilter.MAX_BOUND_LENGTH
          ∧ (∀ i, i < j →
              ((f.MaterializeMin same_min ok_min).MaterializeMax same_max ok_max).max_.getD i 0
                = f.max_.getD i 0)
          ∧ ((f.MaterializeMin same_min ok_min).MaterializeMax same_max ok_max).max_.getD j 0
            = f.max_.getD j 0 + 1
          ∧ (∀ i, j < i → i < StringMinMaxFilter.MAX_BOUND_LENGTH →
              f.max_.getD i 0 = 255
                ∧ ((f.MaterializeMin same_min ok_min).MaterializeMax same_max
                  ok_max).max_.getD i 0 = 0)) := by
    rcases y4 with ⟨h, _⟩ | ⟨_, hl, hc, h⟩
    · exact Or.inl h
    · right
      rw [h]
      exact ⟨hl, bump_bound_spec f.max_ same_max hl hbytes hc⟩
  have hmax_le : StringValue.le f.max_
      ((f.MaterializeMin same_min ok_min).MaterializeMax same_max ok_max).max_ = true := by
    rcases hmax with h | ⟨_, h, _⟩
    · rw [h]; exact StringValue.le_refl _
    · simp [StringValue.le, StringValue.lt_asymm _ _ h]
  exact ⟨hmin_le, hmax_le, hmin_pre, hmax, fun s h1 h2 =>
    ⟨StringValue.le_trans _ _ _ hmin_le h1, StringValue.le_trans _ _ _ h2 hmax_le⟩⟩

theorem bump_length (buf : Bytes) : (StringMinMaxFilter.bump buf).length = buf.length := by
  simp [StringMinMaxFilter.bump, (carry_spec StringMinMaxFilter.MAX_BOUND_LENGTH buf).1]

theorem MaterializeValues_all_ff (f : StringMinMaxFilter) (same_min same_max : Bool)
    (hr : f.isRanged = true) (hbuf : f.max_buffer_ = [])
    (hlen : StringMinMaxFilter.MAX_BOUND_LENGTH < f.max_.length)
    (hall : ∀ i, i < StringMinMaxFilter.MAX_BOUND_LENGTH → f.max_.getD i 0 = 255) :
    f.MaterializeValues same_min true same_max true = StringMinMaxFilter.top := by
  obtain ⟨ht, hf⟩ := isRanged_flags f hr
  rw [MaterializeValues_ranged f hr]
  rcases MaterializeMin_spec f same_min true with ⟨_, _, _, h⟩ | ⟨m1, m2, m3, m4, _, _⟩
  · exact absurd h (by decide)
  · rcases MaterializeMax_spec (f.MaterializeMin same_min true) same_max true
        (by rw [m3, ht]) with ⟨x1, _, x3⟩ | ⟨_, y2, y3, y4, _⟩
    · exact x1
    · rcases y4 with ⟨_, h⟩ | ⟨_, _, h, _⟩
      · rw [m1, m2] at h
        rcases h with h | h
        · exact absurd hbuf h
        · omega
      · rw [m1] at h
        exact absurd ((carry_bound_zero_iff f.max_ same_max).2 hall) h

/-- C26 (counterexample): a bound already in its buffer is left as it is,
whatever its length, and a short min bound is lost when the max bound forces
Top.  The filter built from the ranged wire form whose min is 2000 bytes long
is ranged and keeps a min of 2000 bytes after `MaterializeValues`; the ranged
filter with min `[5]` and a max of 1025 bytes `0xFF` has an empty min after
`MaterializeValues`. -/
theorem MaterializeValues_bound_not_kept :
    (StringMinMaxFilter.ofProtobuf
        (string_ranged (List.replicate 2000 7) (List.replicate 2000 9)) true true).isRanged
        = true
      ∧ (StringMinMaxFilter.MaterializeValues
          (StringMinMaxFilter.ofProtobuf
            (string_ranged (List.replicate 2000 7) (List.replicate 2000 9)) true true)
          false true false true).min_.length = 2000
      ∧ StringMinMaxFilter.isRanged ⟨[5], List.replicate 1025 255, [], [], false, false⟩ = true
      ∧ (StringMinMaxFilter.MaterializeValues
          ⟨[5], List.replicate 1025 255, [], [], false, false⟩
          false true false true).min_ = [] := by
  refine ⟨rfl, by decide!, rfl, ?_⟩
  rw [MaterializeValues_all_ff ⟨[5], List.replicate 1025 255, [], [], false, false⟩
    false false rfl rfl
    (by show StringMinMaxFilter.MAX_BOUND_LENGTH < (List.replicate 1025 255).length
        rw [List.length_replicate]; decide)
    (by
      intro i hi
      show (List.replicate 1025 255).getD i 0 = 255
      have hi' : i < (List.replicate 1025 255).length := by
        rw [List.length_replicate]
        exact Nat.lt_trans hi (by decide)
      rw [List.getD_eq_getElem _ _ hi', List.getElem_replicate])]
  rfl

/-- C26 (amended): materialized bounds respect the 1024-byte limit.  For every
ranged string filter (a bound pointing at its empty buffer being empty), after
`MaterializeValues` with allocation succeeding: each bound whose buffer was
empty has length at most `MAX_BOUND_LENGTH = 1024`; and if the filter is still
ranged, a bound that was at most 1024 bytes long is unchanged, and a longer
bound whose buffer was empty is exactly 1024 bytes long. -/
theorem MaterializeValues_bound_length (f : StringMinMaxFilter) (same_min same_max : Bool)
    (hr : f.isRanged = true)
    (hsm : same_min = true → f.min_ = []) (hsx : same_max = true → f.max_ = []) :
    (f.min_buffer_ = [] →
        (f.MaterializeValues same_min true same_max true).min_.length
          ≤ StringMinMaxFilter.MAX_BOUND_LENGTH)
      ∧ (f.max_buffer_ = [] →
        (f.MaterializeValues same_min true same_max true).max_.length
          ≤ StringMinMaxFilter.MAX_BOUND_LENGTH)
      ∧ ((f.MaterializeValues same_min true same_max true).isRanged = true →
        (f.min_.length ≤ StringMinMaxFilter.MAX_BOUND_LENGTH →
            (f.MaterializeValues same_min true same_max true).min_ = f.min_)
          ∧ (f.min_buffer_ = [] → StringMinMaxFilter.MAX_BOUND_LENGTH < f.min_.length →
            (f.MaterializeValues same_min true same_max true).min_.length
              = StringMinMaxFilter.MAX_BOUND_LENGTH)
          ∧ (f.max_.length ≤ StringMinMaxFilter.MAX_BOUND_LENGTH →
            (f.MaterializeValues same_min true same_max true).max_ = f.max_)
          ∧ (f.max_buffer_ = [] → StringMinMaxFilter.MAX_BOUND_LENGTH < f.max_.length →
            (f.MaterializeValues same_min true same_max true).max_.length
              = StringMinMaxFilter.MAX_BOUND_LENGTH)) := by
  obtain ⟨ht, hf⟩ := isRanged_flags f hr
  rw [MaterializeValues_ranged f hr]
  have htop : StringMinMaxFilter.top.isRanged = false := rfl
  rcases MaterializeMin_spec f same_min true with ⟨_, _, _, h⟩ | ⟨m1, m2, m3, _, m5, _⟩
  · exact absurd h (by decide)
  rcases MaterializeMax_spec (f.MaterializeMin same_min true) same_max true
      (by rw [m3, ht]) with ⟨x1, _, _⟩ | ⟨y1, _, _, y4, _⟩
  · rw [x1]
    refine ⟨fun _ => Nat.zero_le _, fun _ => Nat.zero_le _, fun h => ?_⟩
    rw [htop] at h
    exact absurd h (by decide)
  rw [m1, m2] at y4
  rw [y1]
  have hmin_cases : ((f.MaterializeMin same_min true).min_ = f.min_
        ∧ (f.min_buffer_ = [] → f.min_.length ≤ StringMinMaxFilter.MAX_BOUND_LENGTH))
      ∨ ((f.MaterializeMin same_min true).min_.length = StringMinMaxFilter.MAX_BOUND_LENGTH
        ∧ StringMinMaxFilter.MAX_BOUND_LENGTH < f.min_.length) := by
    rcases m5 with ⟨h, c⟩ | ⟨h, _, _, hl⟩
    · left
      refine ⟨h, fun hb => ?_⟩
      rcases c with c | c | c
      · exact absurd hb c
      · rw [hsm c]; exact Nat.zero_le _
      · exact c
    · right
      refine ⟨?_, hl⟩
      rw [h, List.length_take]
      omega
  have hmax_cases : (((f.MaterializeMin same_min true).MaterializeMax same_max true).max_
          = f.max_
        ∧ (f.max_buffer_ = [] → f.max_.length ≤ StringMinMaxFilter.MAX_BOUND_LENGTH))
      ∨ (((f.MaterializeMin same_min true).MaterializeMax same_max true).max_.length
          = StringMinMaxFilter.MAX_BOUND_LENGTH
        ∧ StringMinMaxFilter.MAX_BOUND_LENGTH < f.max_.length) := by
    rcases y4 with ⟨h, c⟩ | ⟨_, hl, _, h⟩
    · left
      refine ⟨h, fun hb => ?_⟩
      rcases c with c | c
      · exact absurd hb c
      · exact c
    · right
      refine ⟨?_, hl⟩
      rw [h, bump_length]
      cases same_max
      · simp only [Bool.false_eq_true, if_false, List.length_take]
        omega
      · rw [hsx rfl] at hl
        simp at hl
  refine ⟨fun hb => ?_, fun hb => ?_, fun _ => ⟨fun hl => ?_, fun hb hl => ?_, fun hl => ?_,
    fun hb hl => ?_⟩⟩
  · rcases hmin_cases with ⟨h, c⟩ | ⟨h, _⟩
    · rw [h]; exact c hb
    · rw [h]
  · rcases hmax_cases with ⟨h, c⟩ | ⟨h, _⟩
    · rw [h]; exact c hb
    · rw [h]
  · rcases hmin_cases with ⟨h, _⟩ | ⟨_, c⟩
    · exact h
    · omega
  · rcases hmin_cases with ⟨_, c⟩ | ⟨h, _⟩
    · have := c hb
      omega
    · exact h
  · rcases hmax_cases with ⟨h, _⟩ | ⟨_, c⟩
    · exact h
    · omega
  · rcases hmax_cases with ⟨_, c⟩ | ⟨h, _⟩
    · have := c hb
      omega
    · exact h

/-- C25 (witness): min `[1, 2]` and a max of 1025 bytes `7`, nothing in the
buffers, both copies succeeding. -/
theorem MaterializeValues_sound_witness :
    StringMinMaxFilter.isRanged ⟨[1, 2], List.replicate 1025 7, [], [], false, false⟩ = true
      ∧ StringValue.le
        (StringMinMaxFilter.MaterializeValues
          ⟨[1, 2], List.replicate 1025 7, [], [], false, false⟩ false true false true).min_
        [1, 2] = true
      ∧ StringValue.le (List.replicate 1025 7)
        (StringMinMaxFilter.MaterializeValues
          ⟨[1, 2], List.replicate 1025 7, [], [], false, false⟩ false true false true).max_
          = true :=
  have h := MaterializeValues_sound ⟨[1, 2], List.replicate 1025 7, [], [], false, false⟩
    false true false true
    (by
      intro b hb
      have hb' : b ∈ List.replicate 1025 7 := hb
      rw [List.mem_replicate] at hb'
      omega)
    rfl (by decide!)
  ⟨rfl, h.1, h.2.1⟩

/-- C26 (witness): min `[1, 2]`, max `[3, 4]`, nothing in the buffers. -/
theorem MaterializeValues_bound_length_witness :
    (StringMinMaxFilter.MaterializeValues ⟨[1, 2], [3, 4], [], [], false, false⟩
        false true false true).isRanged = true
      ∧ (StringMinMaxFilter.MaterializeValues ⟨[1, 2], [3, 4], [], [], false, false⟩
        false true false true).min_.length ≤ StringMinMaxFilter.MAX_BOUND_LENGTH
      ∧ (StringMinMaxFilter.MaterializeValues ⟨[1, 2], [3, 4], [], [], false, false⟩
        false true false true).max_.length ≤ StringMinMaxFilter.MAX_BOUND_LENGTH :=
  have h := MaterializeValues_bound_length ⟨[1, 2], [3, 4], [], [], false, false⟩
    false false rfl (by decide) (by decide)
  ⟨by decide, h.1 rfl, h.2.1 rfl⟩

/-- C27: allocation failure degrades to Top.  For every ranged string filter,
if the `Append` for the min bound or the one for the max bound is made and
fails during `MaterializeValues`, the filter ends in the Top state
(`always_true` set, `always_false` clear, bounds and buffers empty); so does
the filter constructed from a ranged wire form when either `Append` fails.
Both functions return the filter, with no error value. -/
theorem MaterializeValues_alloc_failure (f : StringMinMaxFilter)
    (same_min ok_min same_max ok_max : Bool) (hr : f.isRanged = true)
    (hfail : (f.min_buffer_ = [] ∧ same_min = false ∧ ok_min = false)
      ∨ (f.max_buffer_ = [] ∧ same_max = false ∧ ok_max = false))
    (protobuf : MinMaxFilterPB) (ctor_ok_min ctor_ok_max : Bool)
    (hp : protobuf.always_false = false ∧ protobuf.always_true = false)
    (hok : ctor_ok_min = false ∨ ctor_ok_max = false) :
    f.MaterializeValues same_min ok_min same_max ok_max = StringMinMaxFilter.top
      ∧ StringMinMaxFilter.ofProtobuf protobuf ctor_ok_min ctor_ok_max
        = StringMinMaxFilter.top := by
  constructor
  · obtain ⟨ht, hf⟩ := isRanged_flags f hr
    rw [MaterializeValues_ranged f hr]
    rcases MaterializeMin_spec f same_min ok_min with ⟨h, _⟩ | ⟨m1, m2, m3, _, _, m6⟩
    · rw [h, MaterializeMax_top]
    · rcases MaterializeMax_spec (f.MaterializeMin same_min ok_min) same_max ok_max
          (by rw [m3, ht]) with ⟨x1, _⟩ | ⟨_, _, _, _, y5⟩
      · exact x1
      · rw [m2] at y5
        rcases hfail with h | h
        · exact absurd h m6
        · exact absurd h y5
  · obtain ⟨h1, h2⟩ := hp
    cases ctor_ok_min <;> cases ctor_ok_max <;>
      simp [StringMinMaxFilter.ofProtobuf, StringMinMaxFilter.CopyToBuffer,
        StringMinMaxFilter.SetAlwaysTrue, StringMinMaxFilter.top, h1, h2] at hok ⊢

/-- C27 (witness): the filter `[[1, 2], [3, 4]]` with empty buffers, the
`Append` for the max bound failing; and the wire form `[[1], [2]]` with the
`Append` for the min bound failing. -/
theorem MaterializeValues_alloc_failure_witness :
    StringMinMaxFilter.MaterializeValues ⟨[1, 2], [3, 4], [], [], false, false⟩
        false true false false = StringMinMaxFilter.top
      ∧ StringMinMaxFilter.ofProtobuf (string_ranged [1] [2]) false true
        = StringMinMaxFilter.top :=
  MaterializeValues_alloc_failure ⟨[1, 2], [3, 4], [], [], false, false⟩
    false true false false rfl (Or.inr ⟨rfl, rfl, rfl⟩)
    (string_ranged [1] [2]) false true ⟨rfl, rfl⟩ (Or.inl rfl)

/-! ## Micro batches of a scratch tuple batch -/

theorem scan_inv (sel : Nat → Bool) (L : Int) :
    ∀ n, ScratchTupleBatch.ScanInv sel L n (ScratchTupleBatch.scan sel L n) := by
  intro n
  induction n with
  | zero =>
    simp [ScratchTupleBatch.ScanInv, ScratchTupleBatch.scan]
  | succ n ih =>
    obtain ⟨hA, hB, hC, hD, hE⟩ := ih
    by_cases hs : sel n = true
    swap
    · -- the row is not selected: the runs stay as they are
      have hs' : sel n = false := by simpa using hs
      have hscan : ScratchTupleBatch.scan sel L (n + 1) = ScratchTupleBatch.scan sel L n := by
        simp [ScratchTupleBatch.scan, hs']
      rw [hscan]
      refine ⟨?_, hB, ?_, ?_, hE⟩
      · intro x hx
        obtain ⟨a1, a2, a3⟩ := hA x hx
        exact ⟨a1, by omega, a3⟩
      · intro r hr hsel
        have hne : r ≠ n := by
          intro h; subst h; rw [hs'] at hsel; exact Bool.false_ne_true hsel
        exact hC r (by omega) hsel
      · intro x hx r h1 h2
        by_cases hrn : r = n
        · subst hrn; exact hs'
        · exact hD x hx r h1 (by omega)
    · cases hR : ScratchTupleBatch.scan sel L n with
      | nil =>
        -- the first selected row
        rw [hR] at hC
        have hscan : ScratchTupleBatch.scan sel L (n + 1) = [⟨n, n, 1⟩] := by
          simp [ScratchTupleBatch.scan, hs, hR]
        rw [hscan]
        refine ⟨?_, by simp, ?_, ?_, ?_⟩
        · intro x hx
          simp only [List.mem_singleton] at hx
          subst hx
          simp [hs]
        · intro r hr hsel
          by_cases hrn : r = n
          · subst hrn; exact ⟨_, List.mem_singleton.2 rfl, le_refl _, le_refl _⟩
          · obtain ⟨x, hx, _⟩ := hC r (by omega) hsel
            simp at hx
        · intro x hx r h1 h2
          simp only [List.head?_cons, Option.mem_def, Option.some.injEq] at hx
          subst hx
          simp only at h1
          omega
        · intro x hx r r' h1 h2 h3
          simp only [List.mem_singleton] at hx
          subst hx
          simp only at h1 h3
          omega
      | cons b rest =>
        rw [hR] at hA hB hC hD hE
        obtain ⟨b1, b2, b3, b4, b5⟩ := hA b (List.mem_cons_self _ _)
        have hDb := hD b (by simp)
        rw [List.pairwise_cons] at hB
        obtain ⟨hB1, hB2⟩ := hB
        by_cases hgap : (n : Int) - (b.end_ : Int) < L
        · -- the row joins the run being built
          have hscan : ScratchTupleBatch.scan sel L (n + 1)
              = ⟨b.start, n, n - b.start + 1⟩ :: rest := by
            simp [ScratchTupleBatch.scan, hs, hR, hgap]
          rw [hscan]
          refine ⟨?_, ?_, ?_, ?_, ?_⟩
          · intro x hx
            rcases List.mem_cons.1 hx with h | h
            · subst h
              exact ⟨by simp only; omega, by simp only; omega, b3, hs, rfl⟩
            · obtain ⟨a1, a2, a3⟩ := hA x (List.mem_cons_of_mem _ h)
              exact ⟨a1, by omega, a3⟩
          · rw [List.pairwise_cons]
            exact ⟨fun y hy => hB1 y hy, hB2⟩
          · intro r hr hsel
            by_cases hrn : r = n
            · subst hrn
              exact ⟨_, List.mem_cons_self _ _, by simp only; omega, le_refl _⟩
            · obtain ⟨x, hx, x1, x2⟩ := hC r (by omega) hsel
              rcases List.mem_cons.1 hx with h | h
              · subst h
                exact ⟨_, List.mem_cons_self _ _, x1, by simp only; omega⟩
              · exact ⟨x, List.mem_cons_of_mem _ h, x1, x2⟩
          · intro x hx r h1 h2
            simp only [List.head?_cons, Option.mem_def, Option.some.injEq] at hx
            subst hx
            simp only at h1
            omega
          · intro x hx r r' h1 h2 h3 h4 h5 h6
            rcases List.mem_cons.1 hx with h | h
            · subst h
              simp only at h1 h3
              by_cases hr' : r' ≤ b.end_
              · exact hE b (List.mem_cons_self _ _) r r' h1 h2 hr' h4 h5 h6
              · have hr'n : r' = n := by
                  by_contra hne
                  have := hDb r' (by omega) (by omega)
                  rw [this] at h5
                  exact Bool.false_ne_true h5
                subst hr'n
                have hrb : r = b.end_ := by
                  by_contra hne
                  have hlt : r < b.end_ := by
                    by_contra hge
                    have := hDb r (by omega) (by omega)
                    rw [this] at h4
                    exact Bool.false_ne_true h4
                  have := h6 b.end_ hlt (by omega)
                  rw [this] at b4
                  exact Bool.false_ne_true b4
                subst hrb
                exact hgap
            · exact hE x (List.mem_cons_of_mem _ h) r r' h1 h2 h3 h4 h5 h6
        · -- the row starts a new run
          have hscan : ScratchTupleBatch.scan sel L (n + 1) = ⟨n, n, 1⟩ :: b :: rest := by
            simp [ScratchTupleBatch.scan, hs, hR, hgap]
          rw [hscan]
          refine ⟨?_, ?_, ?_, ?_, ?_⟩
          · intro x hx
            rcases List.mem_cons.1 hx with h | h
            · subst h
              simp [hs]
            · obtain ⟨a1, a2, a3⟩ := hA x h
              exact ⟨a1, by omega, a3⟩
          · rw [List.pairwise_cons]
            refine ⟨?_, List.pairwise_cons.2 ⟨hB1, hB2⟩⟩
            intro y hy
            rcases List.mem_cons.1 hy with h | h
            · subst h
              exact ⟨by simp only; omega, by simp only; omega⟩
            · obtain ⟨c1, c2⟩ := hB1 y h
              exact ⟨by simp only; omega, by simp only; omega⟩
          · intro r hr hsel
            by_cases hrn : r = n
            · subst hrn
              exact ⟨_, List.mem_cons_self _ _, le_refl _, le_refl _⟩
            · obtain ⟨x, hx, x1, x2⟩ := hC r (by omega) hsel
              exact ⟨x, List.mem_cons_of_mem _ hx, x1, x2⟩
          · intro x hx r h1 h2
            simp only [List.head?_cons, Option.mem_def, Option.some.injEq] at hx
            subst hx
            simp only at h1
            omega
          · intro x hx r r' h1 h2 h3 h4 h5 h6
            rcases List.mem_cons.1 hx with h | h
            · subst h
              simp only at h1 h3
              omega
            · exact hE x h r r' h1 h2 h3 h4 h5 h6

theorem scan_disjoint (sel : Nat → Bool) (L : Int) (n : Nat) (x y : ScratchMicroBatch)
    (hx : x ∈ ScratchTupleBatch.scan sel L n) (hy : y ∈ ScratchTupleBatch.scan sel L n)
    (hne : x ≠ y) :
    (y.end_ < x.start ∧ (y.end_ : Int) + L ≤ x.start)
      ∨ (x.end_ < y.start ∧ (x.end_ : Int) + L ≤ y.start) := by
  obtain ⟨_, hB, _⟩ := scan_inv sel L n
  have hS : (ScratchTupleBatch.scan sel L n).Pairwise
      (fun x y : ScratchMicroBatch => (y.end_ < x.start ∧ (y.end_ : Int) + L ≤ x.start)
        ∨ (x.end_ < y.start ∧ (x.end_ : Int) + L ≤ y.start)) :=
    hB.imp (fun h => Or.inl h)
  exact List.Pairwise.forall (fun _ _ h => h.symm) hS hx hy hne

/-- C30: `GetMicroBatches` converts the selected-row bitmap into runs.  For
every scratch batch and every skip length `L`: the value returned is the
number of batches written; the batches are in ascending row order; each batch
starts and ends on a selected row below `num_tuples` and has
`length = end - start + 1`; every selected row lies in exactly one batch; two
selected rows less than `L` apart are in the same batch; two selected rows with
no selected row between them and more than `L` apart are in different batches.
With every 16th of 1024 rows selected, `L = 20` gives the one batch
`[0, 1008]` of length 1009 and `L = 5` gives 64 batches of length 1 at the rows
`16 * i`. -/
theorem GetMicroBatches_runs (b : ScratchTupleBatch) (L : Int) :
    (b.GetMicroBatches L).1 = (b.GetMicroBatches L).2.length
      ∧ (b.GetMicroBatches L).2.Pairwise (fun x y => x.end_ < y.start)
      ∧ (∀ x ∈ (b.GetMicroBatches L).2,
          x.start ≤ x.end_ ∧ x.end_ < b.num_tuples ∧ b.selected_rows x.start = true
            ∧ b.selected_rows x.end_ = true ∧ x.length = x.end_ - x.start + 1)
      ∧ (∀ r, r < b.num_tuples → b.selected_rows r = true →
          ∃! x, x ∈ (b.GetMicroBatches L).2 ∧ x.start ≤ r ∧ r ≤ x.end_)
      ∧ (∀ i j, i < j → j < b.num_tuples → b.selected_rows i = true →
          b.selected_rows j = true → (j : Int) - i < L →
          ∃ x ∈ (b.GetMicroBatches L).2, x.start ≤ i ∧ j ≤ x.end_)
      ∧ (∀ i j, i < j → j < b.num_tuples → b.selected_rows i = true →
          b.selected_rows j = true → (∀ r, i < r → r < j → b.selected_rows r = false) →
          L < (j : Int) - i →
          ¬ ∃ x ∈ (b.GetMicroBatches L).2, x.start ≤ i ∧ j ≤ x.end_)
      ∧ test_scratch_batch.GetMicroBatches 20 = (1, [⟨0, 1008, 1009⟩])
      ∧ test_scratch_batch.GetMicroBatches 5
        = (64, (List.range 64).map (fun batch_idx => ⟨batch_idx * 16, batch_idx * 16, 1⟩)) := by
  obtain ⟨hA, hB, hC, _, hE⟩ := scan_inv b.selected_rows L b.num_tuples
  have hmem : ∀ x, x ∈ (b.GetMicroBatches L).2
      ↔ x ∈ ScratchTupleBatch.scan b.selected_rows L b.num_tuples := by
    intro x
    simp [ScratchTupleBatch.GetMicroBatches]
  refine ⟨rfl, ?_, ?_, ?_, ?_, ?_, by decide!, by decide!⟩
  · show (ScratchTupleBatch.scan b.selected_rows L b.num_tuples).reverse.Pairwise _
    rw [List.pairwise_reverse]
    exact hB.imp (fun h => h.1)
  · intro x hx
    exact hA x ((hmem x).1 hx)
  · intro r hr hsel
    obtain ⟨x, hx, x1, x2⟩ := hC r hr hsel
    refine ⟨x, ⟨(hmem x).2 hx, x1, x2⟩, ?_⟩
    rintro y ⟨hy, y1, y2⟩
    by_contra hne
    rcases scan_disjoint b.selected_rows L b.num_tuples y x ((hmem y).1 hy) hx hne
      with ⟨h, _⟩ | ⟨h, _⟩ <;> omega
  · intro i j hij hj hi_sel hj_sel hgap
    obtain ⟨x, hx, x1, x2⟩ := hC i (by omega) hi_sel
    obtain ⟨y, hy, y1, y2⟩ := hC j hj hj_sel
    by_cases hxy : x = y
    · subst hxy
      exact ⟨x, (hmem x).2 hx, x1, y2⟩
    · rcases scan_disjoint b.selected_rows L b.num_tuples x y hx hy hxy
        with ⟨h, _⟩ | ⟨_, h⟩ <;> omega
  · intro i j hij hj hi_sel hj_sel hbetween hgap
    rintro ⟨x, hx, x1, x2⟩
    have := hE x ((hmem x).1 hx) i j x1 hij x2 hi_sel hj_sel hbetween
    omega

/-! ## The integer cast and the two paths of the integer overlap tests -/

/-- C33: the cross-width cast keeps a well-formed range well-formed and inside
the target kind.  For every integer filter with `min_ <= max_` and every column
kind different from the filter's kind, when `GetCastIntMinMax` returns `true`
its outputs satisfy `T.min <= out_min <= out_max <= T.max`, `T.min` and `T.max`
being `GetIntTypeMin` and `GetIntTypeMax` of the column kind. -/
theorem GetCastIntMinMax_well_formed (n : IntName) (f : IntegerMinMaxFilter)
    (col_type : ColumnType) (out_min out_max : Int)
    (hne : n.PRIMITIVE_TYPE ≠ col_type.type) (hf : f.min_ ≤ f.max_)
    (h : f.GetCastIntMinMax n col_type = some (out_min, out_max)) :
    GetIntTypeMin col_type ≤ out_min ∧ out_min ≤ out_max
      ∧ out_max ≤ GetIntTypeMax col_type := by
  have hmm := GetIntTypeMin_le_Max col_type
  unfold IntegerMinMaxFilter.GetCastIntMinMax at h
  rw [if_neg hne] at h
  dsimp only at h
  split_ifs at h <;> simp only [Option.some.injEq, Prod.mk.injEq, reduceCtorEq] at h <;>
    obtain ⟨h1, h2⟩ := h <;> subst h1 <;> subst h2 <;> omega

/-- C33 (witness): the 32-bit filter `[-1000, 50]` cast to an 8-bit column
gives `[-128, 50]`. -/
theorem GetCastIntMinMax_well_formed_witness :
    IntegerMinMaxFilter.GetCastIntMinMax .Int ⟨-1000, 50, false⟩ ⟨.TYPE_TINYINT, 0, 0⟩
        = some (-128, 50)
      ∧ GetIntTypeMin ⟨.TYPE_TINYINT, 0, 0⟩ ≤ -128 ∧ (-128 : Int) ≤ 50
      ∧ 50 ≤ GetIntTypeMax ⟨.TYPE_TINYINT, 0, 0⟩ :=
  ⟨by decide,
    GetCastIntMinMax_well_formed .Int ⟨-1000, 50, false⟩ ⟨.TYPE_TINYINT, 0, 0⟩ (-128) 50
      (by decide) (by decide) (by decide)⟩

theorem isIntType_of_PRIMITIVE_TYPE (n : IntName) (col_type : ColumnType)
    (heq : n.PRIMITIVE_TYPE = col_type.type) : col_type.isIntType = true := by
  cases n <;> simp [IntName.PRIMITIVE_TYPE] at heq <;> simp [ColumnType.isIntType, ← heq]

theorem span_exact (w : Nat) (hw : 0 < w) (a b : Int)
    (h1 : fits w (a - b) = true) (h2 : fits w (a - b + 1) = true) :
    span w a b = a - b + 1 := by
  simp only [fits, Bool.and_eq_true, decide_eq_true_eq] at h1 h2
  unfold span
  rw [wrap_eq_self w hw (a - b) h1.1 h1.2, wrap_eq_self w hw (a - b + 1) h2.1 h2.2]

theorem fits_64 (n : IntName) (x : Int) (h : fits n.arith_bits x = true) :
    fits 64 x = true := by
  simp only [fits, Bool.and_eq_true, decide_eq_true_eq] at h ⊢
  cases n <;> simp only [IntName.arith_bits] at h <;> norm_num at h ⊢ <;> omega

theorem arith_bits_pos' (n : IntName) : 0 < n.arith_bits := by
  cases n <;> simp [IntName.arith_bits]

/-- C34: the same-kind fast paths agree with the general cast path.  For every
integer filter and every data range of the filter's own kind, the
three-argument `EvalOverlap` returns what the five-argument `EvalOverlap`
(through `GetCastIntMinMax` and the 64-bit comparison) returns; and when the
typed subtractions `data_max - data_min + 1` and `overlap_max - overlap_min + 1`
do not overflow, the same-kind branch of `ComputeOverlapRatio` returns what the
64-bit branch returns on the same arguments.  The 64-bit branch is the one
`ComputeOverlapRatio` takes for every column kind other than the filter's. -/
theorem same_kind_paths_agree (n : IntName) (f : IntegerMinMaxFilter)
    (col_type : ColumnType) (data_min data_max : Int)
    (heq : n.PRIMITIVE_TYPE = col_type.type) :
    f.EvalOverlap n col_type data_min data_max
        = (f.EvalOverlap64 n col_type data_min data_max).isSome
      ∧ (fits n.arith_bits (data_max - data_min) = true
          ∧ fits n.arith_bits (data_max - data_min + 1) = true
          ∧ fits n.arith_bits
            (std_min int_lt data_max f.max_ - std_max int_lt data_min f.min_) = true
          ∧ fits n.arith_bits
            (std_min int_lt data_max f.max_ - std_max int_lt data_min f.min_ + 1) = true →
        f.ComputeOverlapRatio n col_type data_min data_max
          = f.ComputeOverlapRatio64 n col_type data_min data_max)
      ∧ (∀ other : ColumnType, n.PRIMITIVE_TYPE ≠ other.type →
        f.ComputeOverlapRatio n other data_min data_max
          = f.ComputeOverlapRatio64 n other data_min data_max) := by
  have hcol := isIntType_of_PRIMITIVE_TYPE n col_type heq
  have hv1 := GetIntTypeValue_of_isIntType col_type hcol data_min
  have hv2 := GetIntTypeValue_of_isIntType col_type hcol data_max
  have h64 : f.EvalOverlap64 n col_type data_min data_max
      = if !(decide (f.max_ < data_min) || decide (data_max < f.min_)) then
          some (f.min_, f.max_) else none := by
    simp only [IntegerMinMaxFilter.EvalOverlap64, IntegerMinMaxFilter.GetCastIntMinMax, heq,
      if_true, hv1, hv2]
  have hov : f.EvalOverlap n col_type data_min data_max
      = !(decide (f.max_ < data_min) || decide (data_max < f.min_)) := by
    simp only [IntegerMinMaxFilter.EvalOverlap, heq, if_true]
  refine ⟨?_, ?_, ?_⟩
  · rw [hov, h64]
    split_ifs with hc
    · simp [hc]
    · simpa using hc
  · rintro ⟨a1, a2, a3, a4⟩
    have hw := arith_bits_pos' n
    unfold IntegerMinMaxFilter.ComputeOverlapRatio IntegerMinMaxFilter.ComputeOverlapRatio64
    rw [if_pos heq, hov, h64, hv1, hv2]
    by_cases hc : (!(decide (f.max_ < data_min) || decide (data_max < f.min_))) = true
    · rw [if_pos hc, if_pos hc]
      dsimp only
      by_cases hcov : f.min_ ≤ data_min ∧ data_max ≤ f.max_
      · rw [if_pos hcov, if_pos hcov]
      · rw [if_neg hcov, if_neg hcov]
        rw [span_exact _ hw _ _ a3 a4, span_exact _ hw _ _ a1 a2,
          span_exact 64 (by decide) _ _ (fits_64 n _ a3) (fits_64 n _ a4),
          span_exact 64 (by decide) _ _ (fits_64 n _ a1) (fits_64 n _ a2)]
    · rw [if_neg hc, if_neg hc]
  · intro other hne
    unfold IntegerMinMaxFilter.ComputeOverlapRatio IntegerMinMaxFilter.ComputeOverlapRatio64
    simp only [if_neg hne]

/-- C34 (witness): the 32-bit filter `[0, 9]` against the 32-bit data range
`[5, 14]`. -/
theorem same_kind_paths_agree_witness :
    IntegerMinMaxFilter.EvalOverlap .Int ⟨0, 9, false⟩ ⟨.TYPE_INT, 0, 0⟩ 5 14
        = (IntegerMinMaxFilter.EvalOverlap64 .Int ⟨0, 9, false⟩ ⟨.TYPE_INT, 0, 0⟩ 5 14).isSome
      ∧ IntegerMinMaxFilter.ComputeOverlapRatio .Int ⟨0, 9, false⟩ ⟨.TYPE_INT, 0, 0⟩ 5 14
        = IntegerMinMaxFilter.ComputeOverlapRatio64 .Int ⟨0, 9, false⟩ ⟨.TYPE_INT, 0, 0⟩ 5 14
      ∧ IntegerMinMaxFilter.ComputeOverlapRatio .Int ⟨0, 9, false⟩ ⟨.TYPE_INT, 0, 0⟩ 5 14
        = ⟨5, 10⟩ :=
  have h := same_kind_paths_agree .Int ⟨0, 9, false⟩ ⟨.TYPE_INT, 0, 0⟩ 5 14 rfl
  ⟨h.1, h.2.1 ⟨by decide, by decide, by decide, by decide⟩, by decide⟩

/-- C35 (counterexample): the 32-bit filter that the constructor builds from
the wire form `{min = 5, max = 4}` overlaps the data range `[0, 10]` according
to `EvalOverlap`, and `ComputeOverlapRatio` returns `0 / 11 = 0.0`. -/
theorem ratio_zero_with_overlap :
    IntegerMinMaxFilter.ofProtobuf .Int 0 0 (int_ranged 5 4) = ⟨5, 4, false⟩
      ∧ IntegerMinMaxFilter.EvalOverlap .Int ⟨5, 4, false⟩ ⟨.TYPE_INT, 0, 0⟩ 0 10 = true
      ∧ IntegerMinMaxFilter.ComputeOverlapRatio .Int ⟨5, 4, false⟩ ⟨.TYPE_INT, 0, 0⟩ 0 10
        = ⟨0, 11⟩
      ∧ (IntegerMinMaxFilter.ComputeOverlapRatio .Int ⟨5, 4, false⟩
          ⟨.TYPE_INT, 0, 0⟩ 0 10).isZero = true := by
  decide

theorem span_zero_iff (w : Nat) (hw : w = 32 ∨ w = 64) (a b : Int) :
    span w a b = 0 ↔ (a - b + 1) % 2 ^ w = 0 := by
  rcases hw with rfl | rfl <;> unfold span wrap <;> norm_num <;> omega

theorem overlap_num_ne_zero (w : Nat) (hw : w = 32 ∨ w = 64)
    (lo hi fmin fmax dmin dmax : Int) (hrange : hi - lo < 2 ^ w)
    (b1 : lo ≤ fmin) (b2 : fmin ≤ hi) (b3 : lo ≤ fmax) (b4 : fmax ≤ hi)
    (b5 : lo ≤ dmin) (b6 : dmin ≤ hi) (b7 : lo ≤ dmax) (b8 : dmax ≤ hi)
    (hd : dmin ≤ dmax) (hf : fmin ≠ fmax + 1)
    (hov1 : ¬ fmax < dmin) (hov2 : ¬ dmax < fmin)
    (hcov : ¬ (fmin ≤ dmin ∧ dmax ≤ fmax)) :
    span w (std_min int_lt dmax fmax) (std_max int_lt dmin fmin) ≠ 0 := by
  rw [std_min_int, std_max_int, Ne, span_zero_iff w hw]
  rcases min_cases dmax fmax with ⟨h1, _⟩ | ⟨h1, _⟩ <;>
    rcases max_cases dmin fmin with ⟨h2, _⟩ | ⟨h2, _⟩ <;>
    rw [h1, h2] <;>
    rcases hw with rfl | rfl <;> norm_num at hrange ⊢ <;> omega

theorem cast_facts (n : IntName) (f : IntegerMinMaxFilter) (col_type : ColumnType)
    (a b : Int) (hne : n.PRIMITIVE_TYPE ≠ col_type.type)
    (h : f.GetCastIntMinMax n col_type = some (a, b)) :
    GetIntTypeMin col_type ≤ a ∧ a ≤ GetIntTypeMax col_type
      ∧ GetIntTypeMin col_type ≤ b ∧ b ≤ GetIntTypeMax col_type
      ∧ (f.min_ ≠ f.max_ + 1 → a ≠ b + 1) := by
  have hmm := GetIntTypeMin_le_Max col_type
  unfold IntegerMinMaxFilter.GetCastIntMinMax at h
  rw [if_neg hne] at h
  dsimp only at h
  split_ifs at h <;> simp only [Option.some.injEq, Prod.mk.injEq, reduceCtorEq] at h <;>
    obtain ⟨h1, h2⟩ := h <;> subst h1 <;> subst h2 <;>
    refine ⟨by omega, by omega, by omega, by omega, fun _ => by omega⟩

theorem int_type_range (col_type : ColumnType) (hcol : col_type.isIntType = true) :
    GetIntTypeMax col_type - GetIntTypeMin col_type < 2 ^ 64 := by
  simp only [ColumnType.isIntType, Bool.or_eq_true, decide_eq_true_eq] at hcol
  unfold GetIntTypeMax GetIntTypeMin
  rcases hcol with ((h | h) | h) | h <;> simp [h]

theorem name_range (n : IntName) : n.type_max - n.type_lowest < 2 ^ n.arith_bits := by
  cases n <;> simp [IntName.type_max, IntName.type_lowest, IntName.bits, IntName.arith_bits]

theorem arith_bits_cases (n : IntName) : n.arith_bits = 32 ∨ n.arith_bits = 64 := by
  cases n <;> simp [IntName.arith_bits]

/-- C35 (amended): for every integer kind, `ComputeOverlapRatio` is zero
exactly when there is no overlap.  For every integer filter whose `min_` is not
`max_ + 1` (bounds being values of the filter's type) and every data range
`data_min <= data_max` of an integer column kind, the ratio returned is `0.0`
iff `EvalOverlap` returns `false` for the same arguments, also when the typed
arithmetic wraps modulo `2 ^ w`. -/
theorem ratio_zero_iff_no_overlap (n : IntName) (f : IntegerMinMaxFilter)
    (col_type : ColumnType) (data_min data_max : Int)
    (hcol : col_type.isIntType = true)
    (hfmin : n.holds f.min_ = true) (hfmax : n.holds f.max_ = true)
    (hdmin : col_type.holds data_min = true) (hdmax : col_type.holds data_max = true)
    (hd : data_min ≤ data_max) (hf : f.min_ ≠ f.max_ + 1) :
    (f.ComputeOverlapRatio n col_type data_min data_max).isZero = true
      ↔ f.EvalOverlap n col_type data_min data_max = false := by
  simp only [IntName.holds, ColumnType.holds, Bool.and_eq_true, decide_eq_true_eq]
    at hfmin hfmax hdmin hdmax
  have hv1 := GetIntTypeValue_of_isIntType col_type hcol data_min
  have hv2 := GetIntTypeValue_of_isIntType col_type hcol data_max
  have hzero : OverlapRatio.zero.isZero = true := by decide
  have hone : OverlapRatio.one.isZero = false := by decide
  have hnz : ∀ x y : Int, x ≠ 0 → OverlapRatio.isZero ⟨x, y⟩ = false := by
    intro x y hx
    simp [OverlapRatio.isZero, hx]
  by_cases hk : n.PRIMITIVE_TYPE = col_type.type
  · obtain ⟨e1, e2⟩ := GetIntTypeMax_of_type n col_type hk
    rw [e1] at hdmin hdmax
    rw [e2] at hdmin hdmax
    have hov : f.EvalOverlap n col_type data_min data_max
        = !(decide (f.max_ < data_min) || decide (data_max < f.min_)) := by
      simp only [IntegerMinMaxFilter.EvalOverlap, hk, if_true]
    unfold IntegerMinMaxFilter.ComputeOverlapRatio
    rw [if_pos hk]
    by_cases hc : f.EvalOverlap n col_type data_min data_max = true
    · rw [if_pos hc]
      by_cases hcov : f.min_ ≤ data_min ∧ data_max ≤ f.max_
      · rw [if_pos hcov, hone, hc]
        simp
      · rw [if_neg hcov]
        dsimp only
        rw [hov] at hc
        simp only [Bool.not_eq_true', Bool.or_eq_false_iff, decide_eq_false_iff_not] at hc
        rw [hnz _ _ (overlap_num_ne_zero n.arith_bits (arith_bits_cases n)
          n.type_lowest n.type_max f.min_ f.max_ data_min data_max (name_range n)
          hfmin.1 hfmin.2 hfmax.1 hfmax.2 hdmin.1 hdmin.2 hdmax.1 hdmax.2 hd hf hc.1 hc.2
          hcov)]
        simp [hov, hc.1, hc.2]
    · rw [if_neg hc, hzero]
      simpa using hc
  · have hov : f.EvalOverlap n col_type data_min data_max
        = (f.EvalOverlap64 n col_type data_min data_max).isSome := by
      simp only [IntegerMinMaxFilter.EvalOverlap, hk, if_false]
    unfold IntegerMinMaxFilter.ComputeOverlapRatio
    rw [if_neg hk, hov]
    cases h64 : f.EvalOverlap64 n col_type data_min data_max with
    | none => simp [hzero]
    | some ab =>
      obtain ⟨a, b⟩ := ab
      dsimp only
      rw [hv1, hv2]
      unfold IntegerMinMaxFilter.EvalOverlap64 at h64
      cases hcast : f.GetCastIntMinMax n col_type with
      | none => rw [hcast] at h64; simp at h64
      | some cd =>
        obtain ⟨c, d⟩ := cd
        rw [hcast, hv1, hv2] at h64
        dsimp only at h64
        obtain ⟨c1, c2, c3, c4, c5⟩ := cast_facts n f col_type c d hk hcast
        split_ifs at h64 with hc
        simp only [Option.some.injEq, Prod.mk.injEq] at h64
        obtain ⟨h1, h2⟩ := h64
        subst h1 h2
        simp only [Bool.not_eq_true', Bool.or_eq_false_iff, decide_eq_false_iff_not] at hc
        by_cases hcov : c ≤ data_min ∧ data_max ≤ d
        · rw [if_pos hcov, hone]
          simp
        · rw [if_neg hcov]
          rw [hnz _ _ (overlap_num_ne_zero 64 (Or.inr rfl)
            (GetIntTypeMin col_type) (GetIntTypeMax col_type) c d data_min data_max
            (int_type_range col_type hcol) c1 c2 c3 c4 hdmin.1 hdmin.2 hdmax.1 hdmax.2 hd
            (c5 hf) hc.1 hc.2 hcov)]
          simp

/-- C35 (witness): the 32-bit filter `[0, 9]` against the 32-bit data range
`[20, 30]`: no overlap, ratio `0.0`. -/
theorem ratio_zero_iff_no_overlap_witness :
    ((IntegerMinMaxFilter.ComputeOverlapRatio .Int ⟨0, 9, false⟩
          ⟨.TYPE_INT, 0, 0⟩ 20 30).isZero = true
        ↔ IntegerMinMaxFilter.EvalOverlap .Int ⟨0, 9, false⟩ ⟨.TYPE_INT, 0, 0⟩ 20 30 = false)
      ∧ IntegerMinMaxFilter.EvalOverlap .Int ⟨0, 9, false⟩ ⟨.TYPE_INT, 0, 0⟩ 20 30 = false :=
  ⟨ratio_zero_iff_no_overlap .Int ⟨0, 9, false⟩ ⟨.TYPE_INT, 0, 0⟩ 20 30 (by decide)
    (by decide) (by decide) (by decide) (by decide) (by decide) (by decide), by decide⟩

/-! ## Idempotence of the materialization -/

theorem take_ne_nil (l : Bytes) (k : Nat) (hl : l ≠ []) (hk : 0 < k) : l.take k ≠ [] := by
  cases l with
  | nil => exact absurd rfl hl
  | cons x xs =>
    cases k with
    | zero => omega
    | succ k => simp

theorem MaterializeMin_buffer (f : StringMinMaxFilter) (same_min : Bool)
    (hne : f.min_ ≠ []) (hsm : same_min = true → f.min_ = []) :
    (f.MaterializeMin same_min true).min_buffer_ ≠ []
      ∧ (f.MaterializeMin same_min true).max_ = f.max_
      ∧ (f.MaterializeMin same_min true).max_buffer_ = f.max_buffer_
      ∧ (f.MaterializeMin same_min true).always_true_ = f.always_true_
      ∧ (f.MaterializeMin same_min true).always_false_ = f.always_false_ := by
  have hs : same_min = false := by
    cases same_min
    · rfl
    · exact absurd (hsm rfl) hne
  subst hs
  rcases f with ⟨mn, mx, mnb, mxb, af, at_⟩
  simp only at hne
  have hlen : 0 < mn.length := List.length_pos.2 hne
  unfold StringMinMaxFilter.MaterializeMin StringMinMaxFilter.CopyToBuffer
  by_cases hb : mnb = []
  · subst hb
    by_cases hl : StringMinMaxFilter.MAX_BOUND_LENGTH < mn.length
    · simp [hl, take_ne_nil mn _ hne (by decide : 0 < StringMinMaxFilter.MAX_BOUND_LENGTH)]
    · simp [hl, hne]
  · simp [hb]

theorem MaterializeMax_buffer (f : StringMinMaxFilter) (same_max : Bool)
    (ht : f.always_true_ = false) (hne : f.max_ ≠ [])
    (hsx : same_max = true → f.max_ = []) :
    f.MaterializeMax same_max true = StringMinMaxFilter.top
      ∨ ((f.MaterializeMax same_max true).max_buffer_ ≠ []
        ∧ (f.MaterializeMax same_max true).min_buffer_ = f.min_buffer_
        ∧ (f.MaterializeMax same_max true).always_true_ = false
        ∧ (f.MaterializeMax same_max true).always_false_ = f.always_false_) := by
  have hs : same_max = false := by
    cases same_max
    · rfl
    · exact absurd (hsx rfl) hne
  subst hs
  rcases f with ⟨mn, mx, mnb, mxb, af, at_⟩
  simp only at hne ht
  subst ht
  unfold StringMinMaxFilter.MaterializeMax StringMinMaxFilter.CopyToBuffer
  by_cases hb : mxb = []
  · subst hb
    by_cases hl : StringMinMaxFilter.MAX_BOUND_LENGTH < mx.length
    · have hlen : ∀ v : Nat, ((StringMinMaxFilter.carry
            (mx.take StringMinMaxFilter.MAX_BOUND_LENGTH)
            StringMinMaxFilter.MAX_BOUND_LENGTH).1.set
          ((StringMinMaxFilter.carry (mx.take StringMinMaxFilter.MAX_BOUND_LENGTH)
            StringMinMaxFilter.MAX_BOUND_LENGTH).2 - 1) v) ≠ [] := by
        intro v h
        have h1 := congrArg List.length h
        rw [List.length_set, (carry_spec _ _).1, List.length_take] at h1
        simp only [List.length_nil] at h1
        have : 0 < StringMinMaxFilter.MAX_BOUND_LENGTH := by decide
        omega
      simp only [List.isEmpty_nil, if_true, gt_iff_lt, hl, if_true, Bool.false_eq_true,
        if_false, Bool.not_true]
      split_ifs with h0
      · left; rfl
      · right
        exact ⟨hlen _, rfl, rfl, rfl⟩
    · simp [hl, hne]
  · simp [hb]

theorem MaterializeMin_of_buffer (f : StringMinMaxFilter) (same_min ok_min : Bool)
    (h : f.min_buffer_ ≠ []) : f.MaterializeMin same_min ok_min = f := by
  unfold StringMinMaxFilter.MaterializeMin
  simp [h]

theorem MaterializeMax_of_buffer (f : StringMinMaxFilter) (same_max ok_max : Bool)
    (h : f.max_buffer_ ≠ []) : f.MaterializeMax same_max ok_max = f := by
  unfold StringMinMaxFilter.MaterializeMax
  simp [h]

/-- C36: `MaterializeValues` is idempotent.  For every string filter with
non-empty bounds (a bound pointing at its empty buffer being empty), after a
call of `MaterializeValues` with allocation succeeding, a second call, whatever
its allocation outcomes, leaves the filter as the first call left it: flags,
min and max bytes and buffers, so a max bound truncated and incremented by the
first call is not incremented again.  On a filter with `always_true` or
`always_false` set a call changes nothing. -/
theorem MaterializeValues_idempotent (f : StringMinMaxFilter)
    (same_min same_max same_min2 ok_min2 same_max2 ok_max2 : Bool)
    (hmin : f.min_ ≠ []) (hmax : f.max_ ≠ [])
    (hsm : same_min = true → f.min_ = []) (hsx : same_max = true → f.max_ = []) :
    (f.MaterializeValues same_min true same_max true).MaterializeValues
        same_min2 ok_min2 same_max2 ok_max2
        = f.MaterializeValues same_min true same_max true
      ∧ (f.always_true_ = true ∨ f.always_false_ = true →
        f.MaterializeValues same_min2 ok_min2 same_max2 ok_max2 = f) := by
  have hflag : ∀ g : StringMinMaxFilter, g.always_true_ = true ∨ g.always_false_ = true →
      g.MaterializeValues same_min2 ok_min2 same_max2 ok_max2 = g := by
    intro g hg
    unfold StringMinMaxFilter.MaterializeValues
    rcases hg with h | h <;> simp [h]
  refine ⟨?_, hflag f⟩
  by_cases hr : f.isRanged = true
  swap
  · have hfl : f.always_true_ = true ∨ f.always_false_ = true := by
      simp only [StringMinMaxFilter.isRanged, Bool.and_eq_true, Bool.not_eq_true',
        not_and_or, Bool.not_eq_false] at hr
      exact hr
    have h1 : f.MaterializeValues same_min true same_max true = f := by
      unfold StringMinMaxFilter.MaterializeValues
      rcases hfl with h | h <;> simp [h]
    rw [h1]
    exact hflag f hfl
  · obtain ⟨ht, hf⟩ := isRanged_flags f hr
    rw [MaterializeValues_ranged f hr]
    obtain ⟨m1, m2, m3, m4, m5⟩ := MaterializeMin_buffer f same_min hmin hsm
    rcases MaterializeMax_buffer (f.MaterializeMin same_min true) same_max
        (by rw [m4, ht]) (by rw [m2]; exact hmax) (by rw [m2]; exact hsx)
      with x | ⟨x1, x2, x3, x4⟩
    · rw [x]
      exact hflag _ (Or.inl rfl)
    · have hr2 : ((f.MaterializeMin same_min true).MaterializeMax same_max true).isRanged
          = true := by
        simp [StringMinMaxFilter.isRanged, x3, x4, m5, hf]
      rw [MaterializeValues_ranged _ hr2,
        MaterializeMin_of_buffer _ _ _ (by rw [x2]; exact m1),
        MaterializeMax_of_buffer _ _ _ x1]

/-- C36 (witness): min `[1, 2]`, max `[3, 4]`, nothing in the buffers. -/
theorem MaterializeValues_idempotent_witness :
    (StringMinMaxFilter.MaterializeValues ⟨[1, 2], [3, 4], [], [], false, false⟩
        false true false true).MaterializeValues false true false true
      = StringMinMaxFilter.MaterializeValues ⟨[1, 2], [3, 4], [], [], false, false⟩
        false true false true :=
  (MaterializeValues_idempotent ⟨[1, 2], [3, 4], [], [], false, false⟩
    false false false true false true (by decide) (by decide) (by decide) (by decide)).1

/-! ## Debug strings -/

/-- C37: the debug strings of the timestamp, date and decimal filters do not
report `always_true`.  The text `DebugString` writes after `", always_true="`
is chosen by `always_false_` (lines 509 and 671), so the whole text is the same
whatever `always_true_` is: a Top date filter prints `always_true=false`, and a
Bottom one prints `always_true=true`.  The numeric and the string filters print
the flag itself. -/
theorem DebugString_always_true_label (text_date : Int → String) (text_ts : Bytes → String)
    (text_dec : Int → String) (d : DateMinMaxFilter) (t : TimestampMinMaxFilter)
    (c : DecimalMinMaxFilter) (flag : Bool) :
    DateMinMaxFilter.DebugString text_date { d with always_true_ := flag }
        = d.DebugString text_date
      ∧ TimestampMinMaxFilter.DebugString text_ts { t with always_true_ := flag }
        = t.DebugString text_ts
      ∧ DecimalMinMaxFilter.DebugString text_dec { c with always_true_ := flag }
        = c.DebugString text_dec
      ∧ DateMinMaxFilter.DebugString (fun _ => "0") ⟨0, 0, false, true⟩
        = "DateMinMaxFilter(min=0, max=0, always_false=false, always_true=false)"
      ∧ text_contains (DateMinMaxFilter.DebugString (fun _ => "0") ⟨0, 0, false, true⟩)
        "always_true=true" = false
      ∧ text_contains (DateMinMaxFilter.DebugString (fun _ => "0") ⟨0, 0, true, false⟩)
        "always_true=true" = true
      ∧ text_contains
        (TimestampMinMaxFilter.DebugString (fun _ => "0") ⟨[], [], false, true⟩)
        "always_true=true" = false
      ∧ text_contains
        (DecimalMinMaxFilter.DebugString (fun _ => "0") ⟨4, 0, 0, 0, 0, 0, 0, false, true⟩)
        "always_true=true" = false
      ∧ text_contains (IntegerMinMaxFilter.DebugString (fun _ => "0") .Int ⟨0, 0, true⟩)
        "always_true=true" = true
      ∧ text_contains (StringMinMaxFilter.DebugString (fun _ => "") StringMinMaxFilter.top)
        "always_true=true" = true := by
  refine ⟨rfl, rfl, rfl, by decide, by decide!, by decide!, by decide!, by decide!,
    by decide!, by decide!⟩

/-! ## Tagged pointers -/

theorem and_two_pow_ne_zero (x k : Nat) : decide (x &&& 2 ^ k ≠ 0) = x.testBit k := by
  by_cases h : x.testBit k = true
  · rw [h, decide_eq_true_eq]
    intro h0
    have := congrArg (fun y => Nat.testBit y k) h0
    simp [Nat.testBit_and, h] at this
  · simp only [Bool.not_eq_true] at h
    rw [h, decide_eq_false_iff_not, not_not]
    apply Nat.eq_of_testBit_eq
    intro i
    simp only [Nat.testBit_and, Nat.testBit_two_pow, Nat.zero_testBit, Bool.and_eq_false_imp,
      decide_eq_false_iff_not]
    intro hi hk
    subst hk
    rw [h] at hi
    exact Bool.false_ne_true hi

theorem IsTagBitSet_eq (bit : Nat) (p : TaggedPtr) :
    p.IsTagBitSet bit = p.data_.testBit (63 - bit) := by
  unfold TaggedPtr.IsTagBitSet TaggedPtr.DATA_MASK
  exact and_two_pow_ne_zero _ _

theorem tag_of_lt (t : Nat) (h : t < 128) :
    t = (if t.testBit 6 then 64 else 0) + (if t.testBit 5 then 32 else 0)
      + (if t.testBit 4 then 16 else 0) + (if t.testBit 3 then 8 else 0)
      + (if t.testBit 2 then 4 else 0) + (if t.testBit 1 then 2 else 0)
      + (if t.testBit 0 then 1 else 0) := by
  interval_cases t <;> rfl

theorem testBit_address (a j : Nat) (ha : a < 2 ^ 57) (hj : 57 ≤ j) : a.testBit j = false :=
  Nat.testBit_lt_two_pow (Nat.lt_of_lt_of_le ha (Nat.pow_le_pow_right (by decide) hj))

/-- C31: the tag bits of a `TaggedPtr` are independent.  A freshly made pointer
has `GetTag() == 0`; for every tagged pointer and every tag bit `N` (0 to 6),
`SetTagBitN` makes `IsTagBitSetN` true and `UnSetTagBitN` makes it false, each
leaving every other tag bit and the stored pointer as they were; `GetTag()`
counts bit 0 as 64, bit 1 as 32, down to bit 6 as 1, so setting bits 0 and 1
of a fresh pointer gives 96 and unsetting bit 0 then gives 32. -/
theorem tag_bits_independent (p : TaggedPtr) (bit other address : Nat) :
    (address < 2 ^ 57 → (TaggedPtr.make_tagptr address).GetTag = 0)
      ∧ (p.SetTagBit bit).IsTagBitSet bit = true
      ∧ (p.UnSetTagBit bit).IsTagBitSet bit = false
      ∧ (bit < 7 → other < 7 → other ≠ bit →
        (p.SetTagBit bit).IsTagBitSet other = p.IsTagBitSet other
          ∧ (p.UnSetTagBit bit).IsTagBitSet other = p.IsTagBitSet other)
      ∧ (bit < 7 → (p.SetTagBit bit).GetPtr = p.GetPtr
        ∧ (p.UnSetTagBit bit).GetPtr = p.GetPtr)
      ∧ (p.data_ < 2 ^ 64 → p.GetTag = p.tag_weight)
      ∧ (address < 2 ^ 57 →
        (((TaggedPtr.make_tagptr address).SetTagBit 0).SetTagBit 1).GetTag = 96
          ∧ ((((TaggedPtr.make_tagptr address).SetTagBit 0).SetTagBit 1).UnSetTagBit
            0).GetTag = 32
          ∧ (((TaggedPtr.make_tagptr address).SetTagBit 0).SetTagBit 1).IsTagBitSet 2
            = false) := by
  have h96 : (96 : Nat) = 2 ^ 6 ||| 2 ^ 5 := by decide
  have h32 : (32 : Nat) = 2 ^ 5 := by decide
  refine ⟨?_, ?_, ?_, ?_, ?_, ?_, ?_⟩
  · intro ha
    unfold TaggedPtr.GetTag TaggedPtr.make_tagptr
    apply Nat.eq_of_testBit_eq
    intro i
    simp only [Nat.testBit_shiftRight, Nat.zero_testBit]
    exact testBit_address address (57 + i) ha (by omega)
  · rw [IsTagBitSet_eq]
    simp [TaggedPtr.SetTagBit, TaggedPtr.DATA_MASK, Nat.testBit_or, Nat.testBit_two_pow]
  · rw [IsTagBitSet_eq]
    have hlt : 63 - bit < 64 := by omega
    simp only [TaggedPtr.UnSetTagBit, TaggedPtr.DATA_MASK, complement64, Nat.testBit_and,
      Nat.testBit_xor, Nat.testBit_two_pow, Nat.testBit_two_pow_sub_one]
    simp [hlt]
  · intro hb ho hne
    have hne' : ¬ (63 - bit = 63 - other) := by omega
    have hlt : 63 - other < 64 := by omega
    constructor
    · rw [IsTagBitSet_eq, IsTagBitSet_eq]
      simp [TaggedPtr.SetTagBit, TaggedPtr.DATA_MASK, Nat.testBit_or, Nat.testBit_two_pow,
        hne']
    · rw [IsTagBitSet_eq, IsTagBitSet_eq]
      simp only [TaggedPtr.UnSetTagBit, TaggedPtr.DATA_MASK, complement64, Nat.testBit_and,
        Nat.testBit_xor, Nat.testBit_two_pow, Nat.testBit_two_pow_sub_one]
      simp [hne', hlt]
  · intro hb
    constructor
    · unfold TaggedPtr.GetPtr TaggedPtr.SetTagBit TaggedPtr.DATA_MASK
        TaggedPtr.MASK_0_56_BITS
      apply Nat.eq_of_testBit_eq
      intro i
      simp only [Nat.testBit_and, Nat.testBit_or, Nat.testBit_two_pow,
        Nat.testBit_two_pow_sub_one]
      by_cases hi : i < 57
      · have : ¬ (63 - bit = i) := by omega
        simp [hi, this]
      · simp [hi]
    · unfold TaggedPtr.GetPtr TaggedPtr.UnSetTagBit TaggedPtr.DATA_MASK
        TaggedPtr.MASK_0_56_BITS complement64
      apply Nat.eq_of_testBit_eq
      intro i
      simp only [Nat.testBit_and, Nat.testBit_xor, Nat.testBit_two_pow,
        Nat.testBit_two_pow_sub_one]
      by_cases hi : i < 57
      · have h1 : ¬ (63 - bit = i) := by omega
        have h2 : i < 64 := by omega
        simp [hi, h1, h2]
      · simp [hi]
  · intro hp
    have ht : p.data_ >>> 57 < 128 := by
      rw [Nat.shiftRight_eq_div_pow]
      omega
    unfold TaggedPtr.GetTag TaggedPtr.tag_weight
    simp only [IsTagBitSet_eq]
    have := tag_of_lt (p.data_ >>> 57) ht
    simp only [Nat.testBit_shiftRight] at this
    exact this
  · intro ha
    have hz : ∀ j, 57 ≤ j → address.testBit j = false := fun j hj =>
      testBit_address address j ha hj
    refine ⟨?_, ?_, ?_⟩
    · unfold TaggedPtr.GetTag TaggedPtr.SetTagBit TaggedPtr.make_tagptr TaggedPtr.DATA_MASK
      rw [h96]
      apply Nat.eq_of_testBit_eq
      intro i
      simp only [Nat.testBit_shiftRight, Nat.testBit_or, Nat.testBit_two_pow,
        hz (57 + i) (by omega), Bool.false_or]
      by_cases h6 : i = 6
      · subst h6; decide
      · by_cases h5 : i = 5
        · subst h5; decide
        · have e1 : ¬ (63 - 0 = 57 + i) := by omega
          have e2 : ¬ (63 - 1 = 57 + i) := by omega
          have e3 : ¬ (6 = i) := by omega
          have e4 : ¬ (5 = i) := by omega
          simp [e1, e2, e3, e4]
    · unfold TaggedPtr.GetTag TaggedPtr.UnSetTagBit TaggedPtr.SetTagBit
        TaggedPtr.make_tagptr TaggedPtr.DATA_MASK complement64
      rw [h32]
      apply Nat.eq_of_testBit_eq
      intro i
      simp only [Nat.testBit_shiftRight, Nat.testBit_or, Nat.testBit_and, Nat.testBit_xor,
        Nat.testBit_two_pow, Nat.testBit_two_pow_sub_one, hz (57 + i) (by omega),
        Bool.false_or]
      by_cases h6 : i = 6
      · subst h6; decide
      · by_cases h5 : i = 5
        · subst h5; decide
        · have e1 : ¬ (63 - 0 = 57 + i) := by omega
          have e2 : ¬ (63 - 1 = 57 + i) := by omega
          have e4 : ¬ (5 = i) := by omega
          simp [e1, e2, e4]
    · rw [IsTagBitSet_eq]
      simp only [TaggedPtr.SetTagBit, TaggedPtr.make_tagptr, TaggedPtr.DATA_MASK,
        Nat.testBit_or, Nat.testBit_two_pow, hz 61 (by decide)]
      decide

/-- C32 (counterexample): an address that does not fit the 57 pointer bits.
On the null tagged pointer, whose tag bit 0 is clear, `SetPtr(2^63)` sets tag
bit 0; `GetPtr()` then returns `0`, not the address, and `IsNull()` is true
although the address is not `0`. -/
theorem SetPtr_wide_address_changes_tag :
    TaggedPtr.IsTagBitSet 0 TaggedPtr.null = false
      ∧ (TaggedPtr.SetPtr TaggedPtr.null (2 ^ 63)).IsTagBitSet 0 = true
      ∧ (TaggedPtr.SetPtr TaggedPtr.null (2 ^ 63)).GetPtr = 0
      ∧ (TaggedPtr.SetPtr TaggedPtr.null (2 ^ 63)).GetPtr ≠ 2 ^ 63
      ∧ (TaggedPtr.SetPtr TaggedPtr.null (2 ^ 63)).IsNull = true
      ∧ (2 : Nat) ^ 63 < 2 ^ 64 := by
  decide

/-- C32 (amended): setting the pointer of a `TaggedPtr` to an address that
fits the 57 pointer bits retains its tag bits.  For every tagged pointer,
every tag bit (0 to 6) and every address `a` below `2^57`, `0` included: after
`SetPtr(a)` the tag bit has the value it had, `GetPtr()` returns `a`, and
`IsNull()` is true iff `a` is `0`.  So in `TaggedPtrTest.Complex` the bucket
keeps `IsData()` and tag bit 1 through `SetBucketData(a)` and
`SetBucketData(0)`. -/
theorem SetPtr_retains_tag (p : TaggedPtr) (bit address : Nat) (hbit : bit < 7)
    (ha : address < 2 ^ 57) :
    (p.SetPtr address).IsTagBitSet bit = p.IsTagBitSet bit
      ∧ (p.SetPtr address).GetPtr = address
      ∧ ((p.SetPtr address).IsNull = true ↔ address = 0)
      ∧ TaggedBucketData.IsData (TaggedBucketData.SetBucketData
          ((TaggedBucketData.SetIsData TaggedPtr.null).SetTagBit 1) address) = true
      ∧ (TaggedBucketData.SetBucketData
          ((TaggedBucketData.SetIsData TaggedPtr.null).SetTagBit 1) address).IsTagBitSet 1
          = true
      ∧ TaggedBucketData.GetData (TaggedBucketData.SetBucketData
          ((TaggedBucketData.SetIsData TaggedPtr.null).SetTagBit 1) address) = address
      ∧ (TaggedBucketData.SetBucketData (TaggedBucketData.SetBucketData
          ((TaggedBucketData.SetIsData TaggedPtr.null).SetTagBit 1) address) 0).IsNull = true
      ∧ TaggedBucketData.IsData (TaggedBucketData.SetBucketData
          (TaggedBucketData.SetBucketData
            ((TaggedBucketData.SetIsData TaggedPtr.null).SetTagBit 1) address) 0) = true
      ∧ (TaggedBucketData.SetBucketData (TaggedBucketData.SetBucketData
          ((TaggedBucketData.SetIsData TaggedPtr.null).SetTagBit 1) address) 0).IsTagBitSet 1
          = true := by
  have hz : ∀ a, a < 2 ^ 57 → ∀ j, 57 ≤ j → a.testBit j = false := fun a h j hj =>
    testBit_address a j h hj
  have htag : ∀ (q : TaggedPtr) (b a : Nat), b < 7 → a < 2 ^ 57 →
      (q.SetPtr a).IsTagBitSet b = q.IsTagBitSet b := by
    intro q b a hb h
    rw [IsTagBitSet_eq, IsTagBitSet_eq]
    have h1 : 63 - b < 64 := by omega
    have h2 : ¬ (63 - b < 57) := by omega
    simp only [TaggedPtr.SetPtr, TaggedPtr.MASK_0_56_BITS, complement64, Nat.testBit_or,
      Nat.testBit_and, Nat.testBit_xor, Nat.testBit_two_pow_sub_one,
      hz a h (63 - b) (by omega)]
    simp [h1, h2]
  have hptr : ∀ (q : TaggedPtr) (a : Nat), a < 2 ^ 57 → (q.SetPtr a).GetPtr = a := by
    intro q a h
    unfold TaggedPtr.GetPtr TaggedPtr.SetPtr TaggedPtr.MASK_0_56_BITS complement64
    apply Nat.eq_of_testBit_eq
    intro i
    simp only [Nat.testBit_and, Nat.testBit_or, Nat.testBit_xor,
      Nat.testBit_two_pow_sub_one]
    by_cases hi : i < 57
    · have h2 : i < 64 := by omega
      simp [hi, h2]
    · simp [hi, hz a h i (by omega)]
  have hnull : ∀ (q : TaggedPtr) (a : Nat), a < 2 ^ 57 →
      ((q.SetPtr a).IsNull = true ↔ a = 0) := by
    intro q a h
    unfold TaggedPtr.IsNull
    rw [hptr q a h]
    simp
  have hset : ∀ (q : TaggedPtr) (b : Nat), (q.SetTagBit b).IsTagBitSet b = true := by
    intro q b
    rw [IsTagBitSet_eq]
    simp [TaggedPtr.SetTagBit, TaggedPtr.DATA_MASK, Nat.testBit_or, Nat.testBit_two_pow]
  have hkeep : ∀ (q : TaggedPtr), q.IsTagBitSet 0 = true →
      (q.SetTagBit 1).IsTagBitSet 0 = true := by
    intro q hq
    rw [IsTagBitSet_eq] at hq ⊢
    simp only [TaggedPtr.SetTagBit, TaggedPtr.DATA_MASK, Nat.testBit_or, hq, Bool.true_or]
  have h0 : (0 : Nat) < 2 ^ 57 := by decide
  have d0 : ((TaggedBucketData.SetIsData TaggedPtr.null).SetTagBit 1).IsTagBitSet 0 = true :=
    hkeep _ (hset _ 0)
  have d1 : ((TaggedBucketData.SetIsData TaggedPtr.null).SetTagBit 1).IsTagBitSet 1 = true :=
    hset _ 1
  refine ⟨htag p bit address hbit ha, hptr p address ha, hnull p address ha, ?_, ?_, ?_, ?_,
    ?_, ?_⟩
  · unfold TaggedBucketData.IsData TaggedBucketData.SetBucketData
    rw [htag _ 0 address (by decide) ha, d0]
  · unfold TaggedBucketData.SetBucketData
    rw [htag _ 1 address (by decide) ha, d1]
  · unfold TaggedBucketData.GetData TaggedBucketData.SetBucketData
    exact hptr _ address ha
  · unfold TaggedBucketData.SetBucketData
    exact (hnull _ 0 h0).2 rfl
  · unfold TaggedBucketData.IsData TaggedBucketData.SetBucketData
    rw [htag _ 0 0 (by decide) h0, htag _ 0 address (by decide) ha, d0]
  · unfold TaggedBucketData.SetBucketData
    rw [htag _ 1 0 (by decide) h0, htag _ 1 address (by decide) ha, d1]

/-- C32 (witness): the pointer with tag bit 0 set and address 0, given the
address 4096. -/
theorem SetPtr_retains_tag_witness :
    (TaggedPtr.SetPtr ⟨2 ^ 63⟩ 4096).IsTagBitSet 0 = TaggedPtr.IsTagBitSet 0 ⟨2 ^ 63⟩
      ∧ (TaggedPtr.SetPtr ⟨2 ^ 63⟩ 4096).GetPtr = 4096
      ∧ TaggedPtr.IsTagBitSet 0 ⟨2 ^ 63⟩ = true :=
  have h := SetPtr_retains_tag ⟨2 ^ 63⟩ 0 4096 (by decide) (by decide)
  ⟨h.1, h.2.1, by decide⟩

/-! ## DataSketches functions -/

/-- C38: `DsHllEstimateBoundsAsString` validates kappa.  For a non-null,
non-empty serialized sketch and a non-null kappa, the function calls
`SetError("Kappa must be 1, 2 or 3")` iff `kappa < 1` or `kappa > 3`, and then
returns null; a null or empty sketch or a null kappa returns null with no call
made, whatever the other argument is; the two-argument overload is the
three-argument one with the default kappa. -/
theorem DsHllEstimateBoundsAsString_kappa {Sketch : Type} (lib : HllLibrary Sketch)
    (serialized_sketch : StringVal) (kappa : IntVal) :
    (serialized_sketch.is_null = false → serialized_sketch.len ≠ 0 →
        kappa.is_null = false →
        ((UdfCall.SetError "Kappa must be 1, 2 or 3"
            ∈ (DsHllEstimateBoundsAsString lib serialized_sketch kappa).2
          ↔ kappa.val < 1 ∨ kappa.val > 3)
        ∧ (kappa.val < 1 ∨ kappa.val > 3 →
          DsHllEstimateBoundsAsString lib serialized_sketch kappa
            = (StringVal.null, [.SetError "Kappa must be 1, 2 or 3"]))))
      ∧ (serialized_sketch.is_null = true ∨ serialized_sketch.len = 0
          ∨ kappa.is_null = true →
        DsHllEstimateBoundsAsString lib serialized_sketch kappa = (StringVal.null, []))
      ∧ DsHllEstimateBoundsAsString_default lib serialized_sketch
        = DsHllEstimateBoundsAsString lib serialized_sketch ⟨false, lib.DS_DEFAULT_KAPPA⟩
      ∧ DsHllEstimateBoundsAsString HllLibrary.sample ⟨false, [1]⟩ ⟨false, 4⟩
        = (StringVal.null, [.SetError "Kappa must be 1, 2 or 3"])
      ∧ DsHllEstimateBoundsAsString HllLibrary.sample ⟨false, [1]⟩ ⟨false, 3⟩
        = (⟨false, [3]⟩, [.StringStreamToStringVal])
      ∧ DsHllEstimateBoundsAsString HllLibrary.sample ⟨false, []⟩ ⟨false, 4⟩
        = (StringVal.null, []) := by
  refine ⟨?_, ?_, rfl, by decide, by decide, by decide⟩
  · intro h1 h2 h3
    have h2' : (serialized_sketch.len == 0) = false := by simpa using h2
    unfold DsHllEstimateBoundsAsString
    simp only [h1, h2', h3, Bool.or_self, Bool.false_eq_true, if_false]
    by_cases hk : kappa.val < 1 ∨ kappa.val > 3
    · have hk' : (decide (kappa.val < 1) || decide (kappa.val > 3)) = true := by
        simpa using hk
      simp [hk', hk]
    · have hk' : ¬ (decide (kappa.val < 1) || decide (kappa.val > 3)) = true := by
        simpa using hk
      rw [if_neg hk']
      refine ⟨⟨fun hm => ?_, fun h => absurd h hk⟩, fun h => absurd h hk⟩
      cases hd : lib.DeserializeDsSketch serialized_sketch.bytes <;>
        rw [hd] at hm <;> simp at hm
  · intro h
    unfold DsHllEstimateBoundsAsString
    rcases h with h | h | h
    · simp [h]
    · simp [h]
    · simp [h]

/-- C39: `DsThetaExclude` (A-not-B) handles missing operands as documented.
If the first sketch A is null or empty the result is null; if A deserializes
and the second sketch B is null or empty the result is a non-null copy of the
bytes of A, with no call of `a_not_b.compute`; if a non-null, non-empty input
fails to deserialize the result is null; and `a_not_b.compute` is called
exactly when both inputs are non-null, non-empty and deserialize, the result
being then the serialized difference. -/
theorem DsThetaExclude_operands {Sketch : Type} (lib : ThetaLibrary Sketch)
    (first second : StringVal) :
    (first.is_null = true ∨ first.len = 0 →
        (DsThetaExclude lib first second).1 = StringVal.null)
      ∧ (∀ a, first.is_null = false → first.len ≠ 0 →
          lib.DeserializeDsSketch first.bytes = some a →
          (second.is_null = true ∨ second.len = 0) →
          DsThetaExclude lib first second = (⟨false, first.bytes⟩, [.CopyFrom]))
      ∧ (first.is_null = false → first.len ≠ 0 →
          lib.DeserializeDsSketch first.bytes = none →
          DsThetaExclude lib first second
            = (StringVal.null, [.LogSketchDeserializationError]))
      ∧ (second.is_null = false → second.len ≠ 0 →
          lib.DeserializeDsSketch second.bytes = none →
          (DsThetaExclude lib first second).1 = StringVal.null)
      ∧ (UdfCall.a_not_b_compute ∈ (DsThetaExclude lib first second).2
          ↔ (first.is_null = false ∧ first.len ≠ 0 ∧ second.is_null = false
            ∧ second.len ≠ 0 ∧ (lib.DeserializeDsSketch first.bytes).isSome = true
            ∧ (lib.DeserializeDsSketch second.bytes).isSome = true))
      ∧ (∀ a b, first.is_null = false → first.len ≠ 0 → second.is_null = false →
          second.len ≠ 0 → lib.DeserializeDsSketch first.bytes = some a →
          lib.DeserializeDsSketch second.bytes = some b →
          DsThetaExclude lib first second
            = (lib.serialize (lib.compute a b),
              [.a_not_b_compute, .StringStreamToStringVal]))
      ∧ DsThetaExclude ThetaLibrary.sample ⟨false, [1, 2, 3]⟩ StringVal.null
        = (⟨false, [1, 2, 3]⟩, [.CopyFrom])
      ∧ DsThetaExclude ThetaLibrary.sample StringVal.null ⟨false, [1, 2, 3]⟩
        = (StringVal.null, [])
      ∧ DsThetaExclude ThetaLibrary.sample ⟨false, [1, 2, 3]⟩ ⟨false, [1, 3]⟩
        = (⟨false, [2]⟩, [.a_not_b_compute, .StringStreamToStringVal])
      ∧ DsThetaExclude ThetaLibrary.sample ⟨false, [1, 2, 3]⟩ ⟨false, [7]⟩
        = (StringVal.null, [.LogSketchDeserializationError]) := by
  have hpos : ∀ s : StringVal, s.len ≠ 0 → decide (s.len > 0) = true := by
    intro s h
    simpa using Nat.pos_of_ne_zero h
  have hempty : ∀ s : StringVal, s.is_null = true ∨ s.len = 0 →
      (!s.is_null && decide (s.len > 0)) = false := by
    intro s h
    rcases h with h | h <;> simp [h]
  have hfull : ∀ s : StringVal, s.is_null = false → s.len ≠ 0 →
      (!s.is_null && decide (s.len > 0)) = true := by
    intro s h1 h2
    simp [h1, hpos s h2]
  have hcases : ∀ s : StringVal, (s.is_null = true ∨ s.len = 0)
      ∨ (s.is_null = false ∧ s.len ≠ 0) := by
    intro s
    cases h : s.is_null
    · by_cases h2 : s.len = 0
      · exact Or.inl (Or.inr h2)
      · exact Or.inr ⟨rfl, h2⟩
    · exact Or.inl (Or.inl rfl)
  have htake : first.bytes.take first.len = first.bytes := by
    unfold StringVal.len
    exact List.take_length _
  refine ⟨?_, ?_, ?_, ?_, ?_, ?_, by decide, by decide, by decide, by decide⟩
  · intro h
    unfold DsThetaExclude DsThetaExclude_second DsThetaExclude_result
    rw [hempty first h]
    simp only [Bool.false_eq_true, if_false]
    split_ifs
    · cases lib.DeserializeDsSketch second.bytes <;> rfl
    · rfl
  · intro a h1 h2 h3 h4
    unfold DsThetaExclude DsThetaExclude_second DsThetaExclude_result
    rw [hfull first h1 h2, hempty second h4, h3]
    simp [StringVal.CopyFrom, htake]
  · intro h1 h2 h3
    unfold DsThetaExclude
    rw [hfull first h1 h2, h3]
    simp
  · intro h1 h2 h3
    have key : ∀ p, (DsThetaExclude_second lib first second p).1 = StringVal.null := by
      intro p
      unfold DsThetaExclude_second
      rw [if_pos (hfull second h1 h2), h3]
    unfold DsThetaExclude
    split_ifs
    · cases lib.DeserializeDsSketch first.bytes with
      | none => rfl
      | some a => exact key _
    · exact key _
  · unfold DsThetaExclude DsThetaExclude_second DsThetaExclude_result
    rcases hcases first with hf | ⟨hf1, hf2⟩
    · rw [hempty first hf]
      have hnot : ¬ (first.is_null = false ∧ first.len ≠ 0 ∧ second.is_null = false
          ∧ second.len ≠ 0 ∧ (lib.DeserializeDsSketch first.bytes).isSome = true
          ∧ (lib.DeserializeDsSketch second.bytes).isSome = true) := by
        rintro ⟨a1, a2, _⟩
        rcases hf with h | h
        · rw [a1] at h; exact Bool.false_ne_true h
        · exact a2 h
      simp only [Bool.false_eq_true, if_false, hnot, iff_false]
      split_ifs
      · cases lib.DeserializeDsSketch second.bytes <;> simp
      · simp
    · rw [hfull first hf1 hf2]
      simp only [if_true]
      cases ha : lib.DeserializeDsSketch first.bytes with
      | none => simp
      | some a =>
        rcases hcases second with hs | ⟨hs1, hs2⟩
        · rw [hempty second hs]
          have hnot : ¬ (second.is_null = false ∧ second.len ≠ 0) := by
            rintro ⟨a1, a2⟩
            rcases hs with h | h
            · rw [a1] at h; exact Bool.false_ne_true h
            · exact a2 h
          simp only [Bool.false_eq_true, if_false]
          constructor
          · intro hm; simp at hm
          · rintro ⟨_, _, b1, b2, _⟩
            exact absurd ⟨b1, b2⟩ hnot
        · rw [hfull second hs1 hs2]
          simp only [if_true]
          cases hb : lib.DeserializeDsSketch second.bytes with
          | none => simp
          | some b => simp [hf1, hf2, hs1, hs2]
  · intro a b h1 h2 h3 h4 h5 h6
    unfold DsThetaExclude DsThetaExclude_second DsThetaExclude_result
    rw [hfull first h1 h2, hfull second h3 h4, h5, h6]
    simp

end Impala
